import Mathlib

/-!
# go-dots client session engine (`dots_client/request.go`)

A shallow embedding of the request/response core of the DOTS client:
`CreateRequest`, `handleResponse`, `handleTimeout`, `Send`,
`analyzeResponseData`, `RestartPingTask`, `RefreshSessionConfig`,
`logNotification`, `handleNotification` and `handleTimeoutNotification`.

Go pointers that may be nil are `Option`; a nil dereference (or a write to a
nil map) is the result `Except.error Fault.nilDereference`.  Byte slices are
strings, one character per byte.  The session environment `task.Env`, the
`libcoap` PDU helpers and the CBOR/JSON codecs live outside the translated
file: the environment tables are modelled from the specification, and every
other collaborator is a field of the parameter record `Lib`.
-/

namespace GoDots

/-! ## Go maps as association lists -/

/-- A Go `map[K]V`: an association list read through its first binding of a key. -/
abbrev Table (K V : Type) := List (K × V)

namespace Table

variable {K V : Type} [DecidableEq K]

/-- The read `m[k]` (with `none` for the absent key). -/
def get (t : Table K V) (k : K) : Option V :=
  (t.find? (fun e => decide (e.1 = k))).map Prod.snd

/-- The statement `delete(m, k)`. -/
def delete (t : Table K V) (k : K) : Table K V :=
  t.filter (fun e => !decide (e.1 = k))

/-- The assignment `m[k] = v`: any older binding of `k` is replaced. -/
def set (t : Table K V) (k : K) (v : V) : Table K V :=
  (k, v) :: delete t k

end Table

/-! ## Go standard library helpers -/

/-- The value of a decimal digit character. -/
def digitVal (c : Char) : Nat := c.toNat - 48

/-- Reads a non-empty run of decimal digits; `none` for anything else. -/
def parseDigits (cs : List Char) : Option Nat :=
  if cs ≠ [] ∧ cs.all Char.isDigit then
    some (cs.foldl (fun n c => n * 10 + digitVal c) 0)
  else none

/-- Go `strconv.ParseUint(s, 10, 16)`: digits only, no sign, value below `2^16`;
`none` is the error result. -/
def parseUint16 (s : String) : Option Nat :=
  match parseDigits s.data with
  | some n => if n < 65536 then some n else none
  | none => none

/-- Two's-complement wrap of an integer into the Go `int64` range. -/
def wrap64 (x : Int) : Int := (x + 2 ^ 63) % 2 ^ 64 - 2 ^ 63

/-- Go `strconv.Atoi` on a 64-bit platform: optional sign, digits; a syntax
error yields `0` and a range error yields the nearest `int64` bound (the error
value itself is discarded by every caller in `request.go`). -/
def atoi (s : String) : Int :=
  match s.data with
  | '-' :: cs =>
    match parseDigits cs with
    | some n => if n ≤ 2 ^ 63 then - (n : Int) else - (2 ^ 63 : Int)
    | none => 0
  | '+' :: cs =>
    match parseDigits cs with
    | some n => if n < 2 ^ 63 then (n : Int) else (2 ^ 63 - 1 : Int)
    | none => 0
  | cs =>
    match parseDigits cs with
    | some n => if n < 2 ^ 63 then (n : Int) else (2 ^ 63 - 1 : Int)
    | none => 0

/-- Go `strconv.Itoa`. -/
def itoa (i : Int) : String := toString i

/-- Go `time.Duration(n) * time.Second`: nanoseconds, wrapped to `int64`. -/
def seconds (n : Int) : Int := wrap64 (n * 1000000000)

/-- One lowercase hexadecimal digit. -/
def hexDigit (n : Nat) : Char :=
  if n < 10 then Char.ofNat (48 + n) else Char.ofNat (87 + n)

/-- Go `fmt.Sprintf("%x", b)` for a byte slice: two lowercase hex digits per byte. -/
def hexEncode (s : String) : String :=
  String.mk (s.data.flatMap (fun c => [hexDigit (c.toNat / 16 % 16), hexDigit (c.toNat % 16)]))

/-! ## Messages, tasks and decoded payloads -/

/-- A nil dereference or a write to a nil map: the Go runtime panics. -/
inductive Fault where
  | nilDereference
  deriving DecidableEq

/-- Modelled from the spec: the message type `libcoap.Type` (declared outside
the translated file), of which `request.go` names `TypeCon` and `TypeNon`. -/
inductive MsgType where
  | Con
  | Non
  | Ack
  | Rst
  deriving DecidableEq

/-- Modelled from the spec: the option kinds `libcoap.OptionKey` that
`request.go` sets or reads. -/
inductive OptionKey where
  | Observe
  | IfMatch
  | Block2
  | Etag
  | ContentFormat
  | Maxage
  deriving DecidableEq

/-- The `interface{}` value handed to `Pdu.SetOption`: a string or an unsigned integer. -/
inductive OptVal where
  | uint (n : Nat)
  | str (s : String)
  deriving DecidableEq

/-- Modelled from the spec: the message `libcoap.Pdu` ("a message with a type,
code, token, options and opaque payload"); `Typ` is the Go field `Type` and
`Path` is what `SetPathString` stored. -/
structure Pdu where
  Typ : MsgType
  Code : Nat
  MessageID : Nat
  Token : String
  Options : Table OptionKey OptVal
  Data : Option String
  Path : String
  deriving DecidableEq

/-- The Go literal `&libcoap.Pdu{}`: the zero value of every field (the zero
message type is the confirmable one). -/
def Pdu.empty : Pdu :=
  { Typ := MsgType.Con, Code := 0, MessageID := 0, Token := "", Options := [],
    Data := none, Path := "" }

/-- Modelled from the spec: `Pdu.SetOption` ("set an option by kind and value"). -/
def Pdu.SetOption (p : Pdu) (k : OptionKey) (v : OptVal) : Pdu :=
  { p with Options := Table.set p.Options k v }

/-- Modelled from the spec: `Pdu.SetPathString`, which records the target path. -/
def Pdu.SetPathString (p : Pdu) (path : String) : Pdu :=
  { p with Path := path }

/-- The fragment descriptor `libcoap.Block`. -/
structure Block where
  NUM : Int
  M : Int
  SZX : Int
  deriving DecidableEq

/-- The keys of the request option map `map[messages.Option]string`. -/
inductive MsgOption where
  | OBSERVE
  | IFMATCH
  | BLOCK2
  deriving DecidableEq

/-- The subscription record `task.RequestQuery{Query, CountMitigation}`. -/
structure RequestQuery where
  Query : String
  CountMitigation : Option Int
  deriving DecidableEq

/-- The callbacks a task is created with, by name. -/
inductive Handler where
  | handleResponse
  | handleTimeout
  | handleResponseNotification
  | handleTimeoutNotification
  | pingResponseHandler
  | pingTimeoutHandler
  | sessionConfigResponseHandler
  | sessionConfigTimeoutHandler
  deriving DecidableEq

/-- The value built by `task.NewMessageTask(message, interval, retry, timeout,
isStop, responseHandler, timeoutHandler)`; durations are in nanoseconds.  The
message is never nil in a task that `request.go` creates or updates. -/
structure MessageTask where
  message : Pdu
  interval : Int
  retry : Int
  timeout : Int
  isStop : Bool
  responseHandler : Handler
  timeoutHandler : Handler
  deriving DecidableEq

/-- The value built by `task.NewPingTask(interval, responseHandler, timeoutHandler)`. -/
structure PingTask where
  interval : Int
  responseHandler : Handler
  timeoutHandler : Handler
  deriving DecidableEq

/-- The value built by `task.NewSessionConfigTask(message, interval,
responseHandler, timeoutHandler)`; the message pointer may be nil. -/
structure SessionConfigTask where
  message : Option Pdu
  interval : Int
  responseHandler : Handler
  timeoutHandler : Handler
  deriving DecidableEq

/-- A task accepted by `Env.Run`. -/
inductive Task where
  | message (t : MessageTask)
  | ping (t : PingTask)
  | sessionConfig (t : SessionConfigTask)
  deriving DecidableEq

/-- A `decimal.Decimal` value: `unscaled * 10 ^ exp`. -/
structure Decimal where
  unscaled : Int
  exp : Int
  deriving DecidableEq

/-- An integer parameter of a session configuration, as read by `RestartPingTask`. -/
structure IntCurrent where
  CurrentValue : Int
  deriving DecidableEq

/-- A decimal parameter of a session configuration. -/
structure DecimalCurrent where
  CurrentValue : Decimal
  deriving DecidableEq

/-- One mode (mitigating or idle) of `messages.ConfigurationResponse`. -/
structure ConfigurationResponseConfig where
  HeartbeatInterval : IntCurrent
  MissingHbAllowed : IntCurrent
  MaxRetransmit : IntCurrent
  AckTimeout : DecimalCurrent
  AckRandomFactor : DecimalCurrent
  deriving DecidableEq

/-- The field `SignalConfigs` of `messages.ConfigurationResponse`. -/
structure ConfigurationResponseConfigs where
  MitigatingConfig : ConfigurationResponseConfig
  IdleConfig : ConfigurationResponseConfig
  deriving DecidableEq

/-- The decode shape `messages.ConfigurationResponse`. -/
structure ConfigurationResponse where
  SignalConfigs : ConfigurationResponseConfigs
  deriving DecidableEq

/-- The decode shape `messages.MitigationResponse` (content not inspected here). -/
structure MitigationResponse where
  content : String
  deriving DecidableEq

/-- The decode shape `messages.MitigationResponsePut`. -/
structure MitigationResponsePut where
  content : String
  deriving DecidableEq

/-- The decode shape `messages.MitigationRequest`. -/
structure MitigationRequest where
  content : String
  deriving DecidableEq

/-- The decode shape `messages.SignalConfigRequest`. -/
structure SignalConfigRequest where
  content : String
  deriving DecidableEq

/-- What the handlers do to their collaborators, in program order. -/
inductive Event where
  | run (t : Task)
  | stopPing
  | stopSessionConfig
  | addResponse (t : MessageTask) (response : Pdu)
  | logNotification (pdu : Pdu)
  | setRetransmitParams (maxRetransmit : Int) (ackTimeout ackRandomFactor : Decimal)
  | restartConnection
  deriving DecidableEq

/-! ## The session environment -/

/-- Modelled from the spec: the session environment `task.Env` (package `task`
is outside the translated file): the token-to-query table, the fragment buffer,
the in-flight requests keyed by token, the heartbeat counters, the single
active ping and session-config tasks, and the configuration the accessors
`SessionConfigMode`, `IntervalBeforeMaxAge` and `InitialRequestBlockSize`
return.  `events` records the calls made on the runner and on tasks. -/
structure Env where
  requestQueries : Table String RequestQuery
  blocks : Table String Pdu
  requests : Table String MessageTask
  missingHbAllowed : Int
  currentMissingHb : Int
  pingTask : Option PingTask
  sessionConfigTask : Option SessionConfigTask
  sessionConfigMode : String
  intervalBeforeMaxAge : Int
  initialRequestBlockSize : Option Int
  events : List Event
  deriving DecidableEq

namespace Env

/-- Modelled from the spec: `Env.GetTokenAndRequestQuery` ("look up any existing
token already associated with the same query string"); `none` is the nil token.
Where several tokens carry the query string the first one in table order is
returned (a Go map would yield any one of them). -/
def GetTokenAndRequestQuery (env : Env) (query : String) : Option (String × RequestQuery) :=
  env.requestQueries.find? (fun e => decide (e.2.Query = query))

/-- Modelled from the spec: `Env.AddRequestQuery` records the query keyed by the token. -/
def AddRequestQuery (env : Env) (token : String) (q : RequestQuery) : Env :=
  { env with requestQueries := Table.set env.requestQueries token q }

/-- Modelled from the spec: `Env.RemoveRequestQuery` removes the entry of the token. -/
def RemoveRequestQuery (env : Env) (token : String) : Env :=
  { env with requestQueries := Table.delete env.requestQueries token }

/-- Modelled from the spec: `Env.GetRequestQuery`, the stored query of a token (nil if none). -/
def GetRequestQuery (env : Env) (token : String) : Option RequestQuery :=
  Table.get env.requestQueries token

/-- Modelled from the spec: `Env.GetBlockData`, the buffered payload of a key (nil if none). -/
def GetBlockData (env : Env) (key : String) : Option Pdu :=
  Table.get env.blocks key

/-- Modelled from the spec: `Env.Run` hands the task to the serialized runner;
a message task becomes the in-flight entry of its token, a ping or
session-config task becomes the single active instance of its kind. -/
def Run (env : Env) (t : Task) : Env :=
  match t with
  | Task.message m =>
    { env with requests := Table.set env.requests (hexEncode m.message.Token) m,
               events := env.events ++ [Event.run t] }
  | Task.ping p => { env with pingTask := some p, events := env.events ++ [Event.run t] }
  | Task.sessionConfig s =>
    { env with sessionConfigTask := some s, events := env.events ++ [Event.run t] }

/-- Modelled from the spec: `Env.StopPing` cancels and clears the active ping task. -/
def StopPing (env : Env) : Env :=
  { env with pingTask := none, events := env.events ++ [Event.stopPing] }

/-- Modelled from the spec: `Env.StopSessionConfig` cancels and clears the active
session-config task. -/
def StopSessionConfig (env : Env) : Env :=
  { env with sessionConfigTask := none, events := env.events ++ [Event.stopSessionConfig] }

/-- Modelled from the spec: `Env.SetMissingHbAllowed` stores the heartbeat allowance. -/
def SetMissingHbAllowed (env : Env) (n : Int) : Env :=
  { env with missingHbAllowed := n }

/-- Modelled from the spec: `Env.SetRetransmitParams` passes the retransmission
parameters to the transport. -/
def SetRetransmitParams (env : Env) (maxRetransmit : Int) (ackTimeout ackRandomFactor : Decimal) :
    Env :=
  { env with events := env.events ++ [Event.setRetransmitParams maxRetransmit ackTimeout ackRandomFactor] }

/-- The call `task.AddResponse(response)`, which hands the reply to the waiting caller. -/
def AddResponse (env : Env) (t : MessageTask) (response : Pdu) : Env :=
  { env with events := env.events ++ [Event.addResponse t response] }

end Env

/-! ## Collaborators outside `request.go` -/

/-- The entry `MessageTaskConfiguration` of the client system configuration. -/
structure MessageTaskConfiguration where
  TaskInterval : Int
  TaskRetryNumber : Int
  TaskTimeout : Int
  deriving DecidableEq

/-- The value returned by `dots_config.GetSystemConfig()`; both entries are pointers. -/
structure ClientSystemConfig where
  NonConfirmableMessageTask : Option MessageTaskConfiguration
  ConfirmableMessageTask : Option MessageTaskConfiguration
  deriving DecidableEq

/-- The result `(isMoreBlock, eTag, block)` of `Env.CheckBlock`. -/
structure BlockCheck where
  isMoreBlock : Bool
  eTag : Option Int
  block : Option Block
  deriving DecidableEq

/-- Everything `request.go` uses but does not define: the constants of
`libcoap`, `messages` and `client_message`, the PDU accessors, the codecs, the
standard `hex.Dump`, and the environment methods `CheckBlock`,
`WaitingForResponse`, `SetCountMitigation` and `UpdateCountMitigation`.  A
decoder returns the value left in its target together with `true` when
`err != nil`; a marshaller returns `none` when `err != nil`. -/
structure Lib where
  RequestGet : Nat
  RequestPut : Nat
  RequestPost : Nat
  RequestDelete : Nat
  ResponseContent : Nat
  ResponseCreated : Nat
  ResponseDeleted : Nat
  ResponseInternalServerError : Nat
  Register : Nat
  Deregister : Nat
  AppCbor : Nat
  MITIGATION_REQUEST : Nat
  PathString : Nat → String
  QueryParamsToString : List String → String
  BlockToInt : Block → Int
  BlockToString : Block → String
  EncodeCbor : String → Option String
  MITIGATING : String
  IDLE : String
  Round2 : Decimal → Decimal
  GetOptionStringValue : Pdu → OptionKey → String
  GetOptionIntegerValue : Pdu → OptionKey → Option Int
  IsMessageResponse : Pdu → Bool
  hexDump : String → String
  IETF_MITIGATION_SCOPE_HEX : String
  IETF_SESSION_CONFIGURATION_HEX : String
  DecodeMitigationResponse : String → MitigationResponse × Bool
  DecodeMitigationResponsePut : String → MitigationResponsePut × Bool
  DecodeMitigationRequest : String → MitigationRequest × Bool
  DecodeConfigurationResponse : String → ConfigurationResponse × Bool
  DecodeSignalConfigRequest : String → SignalConfigRequest × Bool
  MarshalMitigationResponse : MitigationResponse → Option String
  MarshalMitigationResponsePut : MitigationResponsePut → Option String
  MarshalMitigationRequest : MitigationRequest → Option String
  MarshalConfigurationResponse : ConfigurationResponse → Option String
  MarshalSignalConfigRequest : SignalConfigRequest → Option String
  CheckBlock : Env → Pdu → BlockCheck × Env
  WaitingForResponse : Env → MessageTask → Option Pdu × Env
  SetCountMitigation :
    Table String RequestQuery → MitigationResponse → String → Table String RequestQuery
  UpdateCountMitigation :
    Table String RequestQuery → Option Pdu → MitigationResponse → String →
      Table String RequestQuery
  GetSystemConfig : Option ClientSystemConfig

/-- The Go conversion `uint32(x)` of an `int`. -/
def uint32 (x : Int) : Nat := (x % 4294967296).toNat

/-- The Go conversion `uint16(x)` of an unsigned value. -/
def uint16 (x : Nat) : Nat := x % 65536

/-! ## Requests -/

/-- The struct `Request`; `env` is threaded separately as the session state. -/
structure Request where
  Message : Option String
  RequestCode : Nat
  pdu : Option Pdu
  coapType : MsgType
  method : String
  requestName : String
  queryParams : List String
  options : Option (Table MsgOption String)
  deriving DecidableEq

/-- The struct `Response`. -/
structure Response where
  StatusCode : Nat
  data : Option String
  deriving DecidableEq

/-- The constructor `NewRequest`. -/
def NewRequest (code : Nat) (coapType : MsgType) (method requestName : String)
    (queryParams : List String) (options : Option (Table MsgOption String)) : Request :=
  { Message := none, RequestCode := code, pdu := none, coapType := coapType, method := method,
    requestName := requestName, queryParams := queryParams, options := options }

/-- The read `r.options[k]` with its presence flag (a nil map has no key). -/
def Request.option? (r : Request) (k : MsgOption) : Option String :=
  match r.options with
  | some m => Table.get m k
  | none => none

/-- Go `unicode.ToUpper` on the characters whose upper case is an ASCII
character: the ASCII letters, the long s (U+017F, upper case `S`) and the
dotless i (U+0131, upper case `I`).  Every other character outside ASCII, which
Go maps to a character outside ASCII, is kept as it is. -/
def upperRune (c : Char) : Char :=
  if c.toNat = 0x17F then 'S'
  else if c.toNat = 0x131 then 'I'
  else c.toUpper

/-- Go `strings.ToUpper`, exact wherever the result is compared with an ASCII
text, as in the `switch` of `CreateRequest`. -/
def toUpper (s : String) : String := String.mk (s.data.map upperRune)

/-- The `switch strings.ToUpper(r.method)` of `CreateRequest`; an invalid method
leaves the zero code. -/
def methodCode (L : Lib) (method : String) : Nat :=
  if toUpper method = "GET" then L.RequestGet
  else if toUpper method = "PUT" then L.RequestPut
  else if toUpper method = "POST" then L.RequestPost
  else if toUpper method = "DELETE" then L.RequestDelete
  else 0

/-- The observe block of `CreateRequest` (from `observeStr := ...` to the label
`SKIP_OBSERVE`): the register/deregister bookkeeping of the subscription table. -/
def createObserve (L : Lib) (r : Request) (pdu : Pdu) (env : Env) : Pdu × Env :=
  let observeStr := (r.option? MsgOption.OBSERVE).getD ""
  if observeStr ≠ "" then
    match parseUint16 observeStr with
    | none => (pdu, env)
    | some observe =>
      if observe = uint16 L.Register ∨ observe = uint16 L.Deregister then
        let pdu := pdu.SetOption OptionKey.Observe (OptVal.uint observe)
        let queryString := L.QueryParamsToString r.queryParams
        let token := (env.GetTokenAndRequestQuery queryString).map Prod.fst
        if observe = uint16 L.Register then
          match token with
          | some tok => ({ pdu with Token := tok }, env)
          | none => (pdu, env.AddRequestQuery pdu.Token { Query := queryString, CountMitigation := none })
        else
          match token with
          | some tok => ({ pdu with Token := tok }, env.RemoveRequestQuery tok)
          | none => (pdu, env)
      else (pdu, env)
  else (pdu, env)

/-- The method `Request.CreateRequest`; `mid` is the value of
`r.env.CoapSession().NewMessageID()` and `rand` that of
`dots_common.RandStringBytes(8)`. -/
def CreateRequest (L : Lib) (mid : Nat) (rand : String) (r : Request) (env : Env) :
    Request × Env :=
  let pdu : Pdu :=
    { Pdu.empty with Typ := r.coapType, Code := methodCode L r.method, MessageID := mid,
                     Token := rand, Options := [] }
  let (pdu, env) := createObserve L r pdu env
  let pdu :=
    match r.option? MsgOption.IFMATCH with
    | some val => pdu.SetOption OptionKey.IfMatch (OptVal.str val)
    | none => pdu
  let pdu :=
    if r.requestName = "mitigation_request" ∧ r.method = "GET" then
      match env.initialRequestBlockSize with
      | some blockSize =>
        pdu.SetOption OptionKey.Block2
          (OptVal.uint (uint32 (L.BlockToInt { NUM := 0, M := 0, SZX := blockSize })))
      | none => pdu
    else pdu
  let pdu :=
    match r.Message with
    | some m =>
      ({ pdu with Data := L.EncodeCbor m }).SetOption OptionKey.ContentFormat
        (OptVal.uint (uint16 L.AppCbor))
    | none => pdu
  let pdu := pdu.SetPathString (L.PathString r.RequestCode ++ "/" ++ String.intercalate "/" r.queryParams)
  ({ r with pdu := some pdu }, env)

/-! ## Heartbeat restart and session-config refresh -/

/-- The mode selection of `RestartPingTask`: heartbeat interval, missing-heartbeat
allowance, max-retransmit, ack-timeout and ack-random-factor of the current
session-config mode (the zero values when the mode is neither of the two). -/
def pingParameters (L : Lib) (mode : String) (v : ConfigurationResponse) :
    Int × Int × Int × Decimal × Decimal :=
  if mode = L.MITIGATING then
    (v.SignalConfigs.MitigatingConfig.HeartbeatInterval.CurrentValue,
     v.SignalConfigs.MitigatingConfig.MissingHbAllowed.CurrentValue,
     v.SignalConfigs.MitigatingConfig.MaxRetransmit.CurrentValue,
     L.Round2 v.SignalConfigs.MitigatingConfig.AckTimeout.CurrentValue,
     L.Round2 v.SignalConfigs.MitigatingConfig.AckRandomFactor.CurrentValue)
  else if mode = L.IDLE then
    (v.SignalConfigs.IdleConfig.HeartbeatInterval.CurrentValue,
     v.SignalConfigs.IdleConfig.MissingHbAllowed.CurrentValue,
     v.SignalConfigs.IdleConfig.MaxRetransmit.CurrentValue,
     L.Round2 v.SignalConfigs.IdleConfig.AckTimeout.CurrentValue,
     L.Round2 v.SignalConfigs.IdleConfig.AckRandomFactor.CurrentValue)
  else (0, 0, 0, { unscaled := 0, exp := 0 }, { unscaled := 0, exp := 0 })

/-- The function `RestartPingTask`. -/
def RestartPingTask (L : Lib) (pdu : Pdu) (env : Env) : Env :=
  if L.IsMessageResponse pdu then env
  else
    let (v, err) := L.DecodeConfigurationResponse (pdu.Data.getD "")
    if err then env
    else
      let (heartbeatInterval, missingHbAllowed, maxRetransmit, ackTimeout, ackRandomFactor) :=
        pingParameters L env.sessionConfigMode v
      let env := env.SetRetransmitParams maxRetransmit ackTimeout ackRandomFactor
      let env := env.StopPing
      let env := env.SetMissingHbAllowed missingHbAllowed
      env.Run (Task.ping
        { interval := seconds heartbeatInterval,
          responseHandler := Handler.pingResponseHandler,
          timeoutHandler := Handler.pingTimeoutHandler })

/-- The function `RefreshSessionConfig`. -/
def RefreshSessionConfig (L : Lib) (pdu : Pdu) (env : Env) (message : Option Pdu) : Env :=
  let env := env.StopSessionConfig
  let maxAgeRes := atoi (L.GetOptionStringValue pdu OptionKey.Maxage)
  let timeFresh := wrap64 (maxAgeRes - env.intervalBeforeMaxAge)
  if timeFresh > 0 then
    env.Run (Task.sessionConfig
      { message := message,
        interval := seconds timeFresh,
        responseHandler := Handler.sessionConfigResponseHandler,
        timeoutHandler := Handler.sessionConfigTimeoutHandler })
  else env

/-! ## Direct responses -/

/-- The fragment half of `Request.handleResponse` (up to the comment "Handle
Session config task and ping task"): the request, the task, the response the
second half inspects, and the environment. -/
def handleResponseBlock (L : Lib) (mid : Nat) (r : Request) (task : MessageTask)
    (response : Pdu) (env : Env) : Except Fault (Request × MessageTask × Pdu × Env) :=
  let (cb, env) := L.CheckBlock env response
  if cb.isMoreBlock then
    match r.pdu, cb.block, cb.eTag, r.options with
    | some pdu, some block, some eTag, some options =>
      let pdu := { pdu with MessageID := mid }
      let pdu := pdu.SetOption OptionKey.Block2 (OptVal.uint (uint32 (L.BlockToInt block)))
      let pdu := pdu.SetOption OptionKey.Etag (OptVal.uint (uint32 eTag))
      let options := Table.set options MsgOption.BLOCK2 (L.BlockToString block)
      let task := { task with message := pdu }
      let env := env.Run (Task.message task)
      Except.ok ({ r with pdu := some pdu, options := some options }, task, response, env)
    | _, _, _, _ => Except.error Fault.nilDereference
  else
    let buffered : Except Fault (Option Pdu × Env) :=
      match cb.eTag with
      | some eTag =>
        match cb.block with
        | some block =>
          if block.NUM > 0 then
            let blockKey := itoa eTag ++ response.Token
            Except.ok (env.GetBlockData blockKey,
              { env with blocks := Table.delete env.blocks blockKey })
          else Except.ok (some response, env)
        | none => Except.error Fault.nilDereference
      | none => Except.ok (some response, env)
    match buffered with
    | Except.error f => Except.error f
    | Except.ok (none, _) => Except.error Fault.nilDereference
    | Except.ok (some response, env) =>
      let env := if response.Code ≠ 0 then env.AddResponse task response else env
      Except.ok (r, task, response, env)

/-- The session-configuration half of `Request.handleResponse`. -/
def handleResponseSession (L : Lib) (r : Request) (response : Pdu) (env : Env) : Env :=
  if r.requestName = "session_configuration" then
    if r.method = "GET" ∧ response.Code = L.ResponseContent ∧ r.queryParams.length > 0 then
      let env := RestartPingTask L response env
      RefreshSessionConfig L response env r.pdu
    else if r.method = "PUT" ∧ response.Code = L.ResponseCreated then
      RefreshSessionConfig L response env r.pdu
    else if r.method = "DELETE" ∧ response.Code = L.ResponseDeleted then
      RefreshSessionConfig L response env r.pdu
    else env
  else env

/-- The method `Request.handleResponse`; `mid` is the value of `NewMessageID()`. -/
def handleResponse (L : Lib) (mid : Nat) (r : Request) (task : MessageTask) (response : Pdu)
    (env : Env) : Except Fault (Request × MessageTask × Env) :=
  match handleResponseBlock L mid r task response env with
  | Except.error f => Except.error f
  | Except.ok (r, task, response, env) =>
    Except.ok (r, task, handleResponseSession L r response env)

/-- The function `handleTimeout`. -/
def handleTimeout (task : MessageTask) (env : Env) : Env :=
  let key := hexEncode task.message.Token
  { env with requests := Table.delete env.requests key }

/-! ## Sending -/

/-- The method `Request.analyzeResponseData`: the decoded payload and the environment. -/
def analyzeResponseData (L : Lib) (r : Request) (pdu : Option Pdu) (env : Env) :
    Option String × Env :=
  match pdu with
  | none => (none, env)
  | some pdu =>
    match L.GetOptionIntegerValue pdu OptionKey.Observe with
    | none => (none, env)
    | some _ =>
      match pdu.Data with
      | none => (none, env)
      | some bytes =>
        if L.IsMessageResponse pdu then (some bytes, env)
        else if r.requestName = "mitigation_request" then
          if r.method = "GET" then
            let (v, err) := L.DecodeMitigationResponse bytes
            if err then (none, env)
            else
              (L.MarshalMitigationResponse v,
               { env with requestQueries := L.SetCountMitigation env.requestQueries v pdu.Token })
          else if r.method = "PUT" then
            let (v, err) := L.DecodeMitigationResponsePut bytes
            if err then (none, env) else (L.MarshalMitigationResponsePut v, env)
          else
            let (v, err) := L.DecodeMitigationRequest bytes
            if err then (none, env) else (L.MarshalMitigationRequest v, env)
        else if r.requestName = "session_configuration" then
          if r.method = "GET" then
            let (v, err) := L.DecodeConfigurationResponse bytes
            if err then (none, env) else (L.MarshalConfigurationResponse v, env)
          else
            let (v, err) := L.DecodeSignalConfigRequest bytes
            if err then (none, env) else (L.MarshalSignalConfigRequest v, env)
        else (none, env)

/-- The configuration `Send` selects for the type of the message (nil for a
type that is neither non-confirmable nor confirmable). -/
def sendConfig (sys : ClientSystemConfig) (pdu : Pdu) : Option MessageTaskConfiguration :=
  if pdu.Typ = MsgType.Non then sys.NonConfirmableMessageTask
  else if pdu.Typ = MsgType.Con then sys.ConfirmableMessageTask
  else none

/-- The task `Send` creates with `task.NewMessageTask`. -/
def sendTask (pdu : Pdu) (config : MessageTaskConfiguration) : MessageTask :=
  { message := pdu,
    interval := seconds config.TaskInterval,
    retry := config.TaskRetryNumber,
    timeout := seconds config.TaskTimeout,
    isStop := false,
    responseHandler := Handler.handleResponse,
    timeoutHandler := Handler.handleTimeout }

/-- The method `Request.Send`. -/
def Send (L : Lib) (r : Request) (env : Env) : Except Fault (Response × Env) :=
  match r.pdu, L.GetSystemConfig with
  | some pdu, some sys =>
    match sendConfig sys pdu with
    | none => Except.error Fault.nilDereference
    | some config =>
      let task := sendTask pdu config
      let env := env.Run (Task.message task)
      let (pdu, env) := L.WaitingForResponse env task
      let (data, env) := analyzeResponseData L r pdu env
      match pdu with
      | none => Except.ok ({ StatusCode := L.ResponseInternalServerError,
                             data := some "Request timeout" }, env)
      | some pdu => Except.ok ({ StatusCode := pdu.Code, data := data }, env)
  | _, _ => Except.error Fault.nilDereference

/-! ## Notifications -/

/-- Go `strings.Contains(s, substr)`. -/
def contains (s substr : String) : Bool := decide (substr.data <:+: s.data)

/-- The function `logNotification`; the event `Event.logNotification` stands
for its opening log line. -/
def logNotification (L : Lib) (env : Env) (task : Option MessageTask) (pdu : Pdu) : Env :=
  let env := { env with events := env.events ++ [Event.logNotification pdu] }
  match pdu.Data with
  | none => env
  | some bytes =>
    let req := task.map MessageTask.message
    match L.GetOptionIntegerValue pdu OptionKey.Observe with
    | none => env
    | some _ =>
      let hex := L.hexDump bytes
      if L.IsMessageResponse pdu then env
      else if contains hex L.IETF_MITIGATION_SCOPE_HEX then
        let (v, _) := L.DecodeMitigationResponse bytes
        { env with requestQueries := L.UpdateCountMitigation env.requestQueries req v pdu.Token }
      else if contains hex L.IETF_SESSION_CONFIGURATION_HEX then
        let env := RestartPingTask L pdu env
        match env.sessionConfigTask with
        | some sessionTask => RefreshSessionConfig L pdu env sessionTask.message
        | none => env
      else env

/-- The function `handleNotification`; `mid` is the value of `NewMessageID()`
and `rand` that of `dots_common.RandStringBytes(8)`. -/
def handleNotification (L : Lib) (mid : Nat) (rand : String) (env : Env)
    (messageTask : Option MessageTask) (pdu : Pdu) : Except Fault Env :=
  let (cb, env) := L.CheckBlock env pdu
  let blockKey : String :=
    match cb.eTag with
    | some eTag => itoa eTag ++ pdu.Token
    | none => ""
  if !cb.isMoreBlock || decide (pdu.Typ ≠ MsgType.Non) then
    let buffered : Except Fault (Option Pdu × Env) :=
      match cb.eTag with
      | some _ =>
        match cb.block with
        | some block =>
          if block.NUM > 0 then
            Except.ok (env.GetBlockData blockKey,
              { env with blocks := Table.delete env.blocks blockKey })
          else Except.ok (some pdu, env)
        | none => Except.error Fault.nilDereference
      | none => Except.ok (some pdu, env)
    match buffered with
    | Except.error f => Except.error f
    | Except.ok (none, _) => Except.error Fault.nilDereference
    | Except.ok (some pdu, env) => Except.ok (logNotification L env messageTask pdu)
  else
    let req : Pdu := { Pdu.empty with MessageID := mid }
    let prepared : Option (Pdu × Env) :=
      match messageTask with
      | some t => some (t.message, env)
      | none =>
        let req := { req with Typ := pdu.Typ, Code := L.RequestGet }
        match env.GetRequestQuery pdu.Token with
        | none => none
        | some reqQuery =>
          let path := L.PathString L.MITIGATION_REQUEST ++ reqQuery.Query
          let req := req.SetPathString path
          let req := { req with Token := rand }
          match cb.eTag with
          | some eTag =>
            let blocks := Table.delete env.blocks blockKey
            let newBlockKey := itoa eTag ++ req.Token
            some (req, { env with blocks := Table.set blocks newBlockKey pdu })
          | none => some (req, env)
    match prepared with
    | none => Except.ok env
    | some (req, env) =>
      match cb.block, cb.eTag with
      | some block, some eTag =>
        let req := req.SetOption OptionKey.Block2 (OptVal.uint (uint32 (L.BlockToInt block)))
        let req := req.SetOption OptionKey.Etag (OptVal.uint (uint32 eTag))
        let newTask : MessageTask :=
          { message := req,
            interval := seconds 2,
            retry := 2,
            timeout := seconds 10,
            isStop := false,
            responseHandler := Handler.handleResponseNotification,
            timeoutHandler := Handler.handleTimeoutNotification }
        Except.ok (env.Run (Task.message newTask))
      | _, _ => Except.error Fault.nilDereference

/-- The function `handleResponseNotification`. -/
def handleResponseNotification (L : Lib) (mid : Nat) (rand : String) (task : MessageTask)
    (response : Pdu) (env : Env) : Except Fault Env :=
  handleNotification L mid rand env (some task) response

/-- The function `handleTimeoutNotification`. -/
def handleTimeoutNotification (task : MessageTask) (env : Env) : Env :=
  let key := hexEncode task.message.Token
  { env with requests := Table.delete env.requests key }

/-- The follow-up task `handleNotification` creates with `task.NewMessageTask`
for the request `req`: the fragment descriptor and the fragment tag are set as
options, with the fixed retry profile of 2 seconds, 2 retries, 10 seconds. -/
def continuationTask (L : Lib) (req : Pdu) (block : Block) (eTag : Int) : MessageTask :=
  { message :=
      (req.SetOption OptionKey.Block2 (OptVal.uint (uint32 (L.BlockToInt block)))).SetOption
        OptionKey.Etag (OptVal.uint (uint32 eTag)),
    interval := seconds 2,
    retry := 2,
    timeout := seconds 10,
    isStop := false,
    responseHandler := Handler.handleResponseNotification,
    timeoutHandler := Handler.handleTimeoutNotification }

/-- The follow-up request of `handleResponse`: the request message with a new
message id, the fragment descriptor and the fragment tag. -/
def continuationRequest (L : Lib) (p : Pdu) (mid : Nat) (block : Block) (eTag : Int) : Pdu :=
  (({ p with MessageID := mid }).SetOption OptionKey.Block2
    (OptVal.uint (uint32 (L.BlockToInt block)))).SetOption OptionKey.Etag
    (OptVal.uint (uint32 eTag))

/-! ## Observations on the event record -/

/-- The deliveries recorded so far: `AddResponse` calls and `logNotification` calls. -/
def deliveries (env : Env) : List Event :=
  env.events.filter (fun e =>
    match e with
    | Event.addResponse _ _ => true
    | Event.logNotification _ => true
    | _ => false)

/-- The message tasks handed to the runner so far, in order. -/
def messageRuns (env : Env) : List MessageTask :=
  env.events.filterMap (fun e =>
    match e with
    | Event.run (Task.message t) => some t
    | _ => none)

/-- The session-config refresh tasks handed to the runner so far, in order. -/
def refreshRuns (env : Env) : List SessionConfigTask :=
  env.events.filterMap (fun e =>
    match e with
    | Event.run (Task.sessionConfig t) => some t
    | _ => none)

/-- Every query string has at most one entry in the subscription table. -/
def UniqueQueries (env : Env) : Prop :=
  ∀ q : String, (env.requestQueries.filter (fun e => decide (e.2.Query = q))).length ≤ 1

/-! ## A concrete set of collaborators -/

/-- A configuration response advertising the given heartbeat interval and allowance
in both modes. -/
def sampleConfiguration (interval allowed : Int) : ConfigurationResponse :=
  let c : ConfigurationResponseConfig :=
    { HeartbeatInterval := { CurrentValue := interval },
      MissingHbAllowed := { CurrentValue := allowed },
      MaxRetransmit := { CurrentValue := 3 },
      AckTimeout := { CurrentValue := { unscaled := 2, exp := 0 } },
      AckRandomFactor := { CurrentValue := { unscaled := 15, exp := -1 } } }
  { SignalConfigs := { MitigatingConfig := c, IdleConfig := c } }

/-- Collaborators with the CoAP code points, string-valued options read back as
written, a fragmentation check that reports a single unfragmented message, and
no reply while waiting. -/
def sampleLib : Lib :=
  { RequestGet := 1, RequestPut := 3, RequestPost := 2, RequestDelete := 4,
    ResponseContent := 69, ResponseCreated := 65, ResponseDeleted := 66,
    ResponseInternalServerError := 160,
    Register := 0, Deregister := 1, AppCbor := 60, MITIGATION_REQUEST := 1,
    PathString := fun _ => ".well-known/dots/mitigate",
    QueryParamsToString := fun qs => String.intercalate "&" qs,
    BlockToInt := fun b => b.NUM * 16 + b.M * 8 + b.SZX,
    BlockToString := fun b => itoa b.NUM ++ "," ++ itoa b.M ++ "," ++ itoa b.SZX,
    EncodeCbor := fun m => some m,
    MITIGATING := "mitigating", IDLE := "idle",
    Round2 := fun d => d,
    GetOptionStringValue := fun p k =>
      match Table.get p.Options k with
      | some (OptVal.str v) => v
      | some (OptVal.uint n) => toString n
      | none => "",
    GetOptionIntegerValue := fun p k =>
      match Table.get p.Options k with
      | some (OptVal.uint n) => some (n : Int)
      | some (OptVal.str _) => none
      | none => some (-1),
    IsMessageResponse := fun _ => false,
    hexDump := hexEncode,
    IETF_MITIGATION_SCOPE_HEX := "a101",
    IETF_SESSION_CONFIGURATION_HEX := "a1181e",
    DecodeMitigationResponse := fun b => ({ content := b }, false),
    DecodeMitigationResponsePut := fun b => ({ content := b }, false),
    DecodeMitigationRequest := fun b => ({ content := b }, false),
    DecodeConfigurationResponse := fun _ => (sampleConfiguration 30 5, false),
    DecodeSignalConfigRequest := fun b => ({ content := b }, false),
    MarshalMitigationResponse := fun v => some v.content,
    MarshalMitigationResponsePut := fun v => some v.content,
    MarshalMitigationRequest := fun v => some v.content,
    MarshalConfigurationResponse := fun _ => some "config",
    MarshalSignalConfigRequest := fun v => some v.content,
    CheckBlock := fun env _ => ({ isMoreBlock := false, eTag := none, block := none }, env),
    WaitingForResponse := fun env _ => (none, env),
    SetCountMitigation := fun t _ _ => t,
    UpdateCountMitigation := fun t _ _ _ => t,
    GetSystemConfig := some
      { NonConfirmableMessageTask := some { TaskInterval := 2, TaskRetryNumber := 0, TaskTimeout := 10 },
        ConfirmableMessageTask := some { TaskInterval := 2, TaskRetryNumber := 2, TaskTimeout := 10 } } }

/-- The collaborators of `sampleLib` with a fragmentation check that always answers `cb`. -/
def sampleLibWith (cb : BlockCheck) : Lib :=
  { sampleLib with CheckBlock := fun env _ => (cb, env) }

/-- A session environment with the given subscription table and fragment buffer. -/
def sampleEnv (queries : Table String RequestQuery) (blocks : Table String Pdu) : Env :=
  { requestQueries := queries, blocks := blocks, requests := [], missingHbAllowed := 5,
    currentMissingHb := 0, pingTask := none, sessionConfigTask := none,
    sessionConfigMode := "idle", intervalBeforeMaxAge := 20, initialRequestBlockSize := none,
    events := [] }

/-- A request of the given kind whose observe option is `observe`. -/
def sampleRequest (requestName method observe : String) (queryParams : List String) : Request :=
  NewRequest 1 MsgType.Con method requestName queryParams
    (some (if observe = "" then [] else [(MsgOption.OBSERVE, observe)]))


/-- A response with the given code and payload whose Max-Age option reads `maxAge`
(no Max-Age option when the text is empty). -/
def sampleResponse (code : Nat) (maxAge : String) (data : Option String) : Pdu :=
  { Typ := MsgType.Non, Code := code, MessageID := 7, Token := "tokenAAA",
    Options := if maxAge = "" then [] else [(OptionKey.Maxage, OptVal.str maxAge)],
    Data := data, Path := "" }

/-- A message task as `Send` creates it for an empty confirmable message. -/
def sampleTask : MessageTask :=
  sendTask Pdu.empty { TaskInterval := 2, TaskRetryNumber := 2, TaskTimeout := 10 }

/-- The ping task `RestartPingTask` creates for a heartbeat interval in seconds. -/
def samplePing (interval : Int) : PingTask :=
  { interval := seconds interval,
    responseHandler := Handler.pingResponseHandler,
    timeoutHandler := Handler.pingTimeoutHandler }

/-- A fragmentation check result: more fragments pending, fragment tag 5, next fragment 1. -/
def sampleMore : BlockCheck :=
  { isMoreBlock := true, eTag := some 5, block := some { NUM := 1, M := 0, SZX := 2 } }

/-- A fragmentation check result: no more fragments, fragment tag 5, fragment number `num`. -/
def sampleLast (num : Int) : BlockCheck :=
  { isMoreBlock := false, eTag := some 5, block := some { NUM := num, M := 0, SZX := 2 } }

/-- The confirmable GET message that `CreateRequest` builds for the query parameter `q`
with message id 1 and token `tokenAAA`. -/
def sampleGet : Pdu :=
  { Typ := MsgType.Con, Code := 1, MessageID := 1, Token := "tokenAAA", Options := [],
    Data := none, Path := ".well-known/dots/mitigate/q" }

/-! ## Heartbeat timeout -/

/-- Modelled from the spec: `Env.IsHeartbeatAllowed` ("once the counter reaches the
configured allowance, the heartbeat stops"): the missed-heartbeat counter is
still below the allowance. -/
def Env.IsHeartbeatAllowed (env : Env) : Bool :=
  decide (env.currentMissingHb < env.missingHbAllowed)

/-- Modelled from the spec: the reconnection procedure `restartConnection`, an
external collaborator of which only the invocation is recorded. -/
def restartConnection (env : Env) : Env :=
  { env with events := env.events ++ [Event.restartConnection] }

/-- The function `pingTimeoutHandler`; the ping task argument is unused. -/
def pingTimeoutHandler (_t : PingTask) (env : Env) : Env :=
  if !env.IsHeartbeatAllowed then
    let env := env.StopPing
    restartConnection env
  else env

/-- The reconnections recorded so far. -/
def reconnections (env : Env) : Nat :=
  env.events.count Event.restartConnection

/-! ## The decoder dispatch and the notification classes, in the words of the specification -/

/-- The decode shapes of the response decoder. -/
inductive Shape where
  | MitigationResponse
  | MitigationResponsePut
  | MitigationRequest
  | ConfigurationResponse
  | SignalConfigRequest
  deriving DecidableEq

/-- The dispatch table of the specification, "keyed by `(requestKind, method)`":
mitigation read, mitigation write, mitigation generic; session-config read,
session-config write.  No entry for any other request kind. -/
def dispatchShape (requestName method : String) : Option Shape :=
  if requestName = "mitigation_request" then
    if method = "GET" then some Shape.MitigationResponse
    else if method = "PUT" then some Shape.MitigationResponsePut
    else some Shape.MitigationRequest
  else if requestName = "session_configuration" then
    if method = "GET" then some Shape.ConfigurationResponse
    else some Shape.SignalConfigRequest
  else none

/-- Decoding the payload in one shape and rendering the value as JSON; a decode
failure yields the empty result. -/
def decodeAs (L : Lib) (shape : Shape) (bytes : String) : Option String :=
  match shape with
  | Shape.MitigationResponse =>
    if (L.DecodeMitigationResponse bytes).2 then none
    else L.MarshalMitigationResponse (L.DecodeMitigationResponse bytes).1
  | Shape.MitigationResponsePut =>
    if (L.DecodeMitigationResponsePut bytes).2 then none
    else L.MarshalMitigationResponsePut (L.DecodeMitigationResponsePut bytes).1
  | Shape.MitigationRequest =>
    if (L.DecodeMitigationRequest bytes).2 then none
    else L.MarshalMitigationRequest (L.DecodeMitigationRequest bytes).1
  | Shape.ConfigurationResponse =>
    if (L.DecodeConfigurationResponse bytes).2 then none
    else L.MarshalConfigurationResponse (L.DecodeConfigurationResponse bytes).1
  | Shape.SignalConfigRequest =>
    if (L.DecodeSignalConfigRequest bytes).2 then none
    else L.MarshalSignalConfigRequest (L.DecodeSignalConfigRequest bytes).1

/-- The classes of a pushed notification. -/
inductive NotificationClass where
  | mitigationScope
  | sessionConfiguration
  | unknown
  deriving DecidableEq

/-- The content sniffing of the specification: the class of a payload by the
"presence of known top-level markers" in its hex dump, mitigation scope first. -/
def classifyNotification (L : Lib) (bytes : String) : NotificationClass :=
  if contains (L.hexDump bytes) L.IETF_MITIGATION_SCOPE_HEX then NotificationClass.mitigationScope
  else if contains (L.hexDump bytes) L.IETF_SESSION_CONFIGURATION_HEX then
    NotificationClass.sessionConfiguration
  else NotificationClass.unknown

/-! ## The fragment buffer key -/

/-- The key `strconv.Itoa(*eTag) + string(token)` of the fragment buffer, as built
in `handleResponse` and `handleNotification`. -/
def blockKey (eTag : Int) (token : String) : String := itoa eTag ++ token

/-! ## Alias validation (`dots_common/messages/data/alias.go`) -/

/-- One entry of `al.TargetPortRange`: the lower port and the optional upper port. -/
structure PortRange where
  LowerPort : Nat
  UpperPort : Option Nat
  deriving DecidableEq

/-- One entry of `types.Aliases.Alias`, with the fields `Validate` reads; a target
prefix is kept by its text `targetPrefix.String()`. -/
structure Alias where
  Name : String
  PendingLifetime : Option Int
  TargetPrefix : List String
  TargetFQDN : List String
  TargetURI : List String
  TargetPortRange : List PortRange
  deriving DecidableEq

/-- The struct `AliasesRequest`; `Aliases` is the list `r.Aliases.Alias`. -/
structure AliasesRequest where
  Aliases : List Alias
  deriving DecidableEq

/-- The customer `models.Customer`, of which `Validate` reads
`CustomerNetworkInformation.AddressRange` (of a type `R` declared elsewhere). -/
structure Customer (R : Type) where
  AddressRange : R

/-- The package `models` as `Validate` uses it: `NewPrefix` (its error is
discarded by the caller), the three address class tests, the range check with
the text of its second result, and the `%+v` text of a prefix. -/
structure PrefixLib (P R : Type) where
  NewPrefix : String → P
  IsMulticast : P → Bool
  IsLoopback : P → Bool
  IsBroadCast : P → Bool
  CheckValidRangeIpAddress : P → R → Bool × String
  Show : P → String

/-- Modelled from the spec: `messages.Contains`, declared outside the translated
files: whether the list holds the string. -/
def Contains (list : List String) (target : String) : Bool := decide (target ∈ list)

/-- The common beginning of every error message of `Validate`. -/
def bodyError (detail : String) : String := "Body Data Error : " ++ detail

/-- The loop `for _,targetPrefix := range al.TargetPrefix` of `Validate`: the
error message of the first offending prefix, if any. -/
def validatePrefixes {P R : Type} (N : PrefixLib P R) (name : String) (range : R) :
    List String → Option String
  | [] => none
  | targetPrefix :: rest =>
    let pfx := N.NewPrefix targetPrefix
    if N.IsMulticast pfx || N.IsLoopback pfx || N.IsBroadCast pfx then
      some (bodyError ("The prefix MUST NOT include broadcast, loopback, or multicast addresses." ++
        "'target-prefix'(" ++ targetPrefix ++ ") at alias 'name'(" ++ name ++ ")"))
    else
      let (validAddress, addressRange) := N.CheckValidRangeIpAddress pfx range
      if !validAddress then
        some (bodyError ("'target-prefix' with value = " ++ N.Show pfx ++
          " is not supported within Portal ex-portal1 (" ++ addressRange ++
          ") at alias 'name'(" ++ name ++ ")"))
      else validatePrefixes N name range rest

/-- The loop `for _, pr := range al.TargetPortRange` of `Validate`. -/
def validatePorts (name : String) : List PortRange → Option String
  | [] => none
  | pr :: rest =>
    match pr.UpperPort with
    | some upper =>
      if upper < pr.LowerPort then
        some (bodyError ("'upper-port' must be greater than or equal to 'lower-port' " ++
          "at alias 'name'(" ++ name ++ ")"))
      else validatePorts name rest
    | none => validatePorts name rest

/-- The body of the loop over the aliases in `Validate`, given the names seen so
far: the error message of the first failing check, if any. -/
def validateAlias {P R : Type} (N : PrefixLib P R) (method : String) (customer : Customer R)
    (aliasNameList : List String) (al : Alias) : Option String :=
  if al.Name = "" then some (bodyError "Missing alias 'name'")
  else if Contains aliasNameList al.Name then
    some (bodyError ("Duplicate alias 'name'(" ++ al.Name ++ ")"))
  else
    match al.PendingLifetime with
    | some lifetime =>
      some (bodyError ("Found NoConfig Attribute 'pending-lifetime' (" ++ itoa lifetime ++
        ") at alias 'name'(" ++ al.Name ++ ")"))
    | none =>
      if al.TargetPrefix.length = 0 ∧ al.TargetFQDN.length = 0 ∧ al.TargetURI.length = 0
      then
        some (bodyError ("At least one of the 'target-prefix', 'target-fqdn', or 'target-uri' " ++
          "attributes MUST be present at alias 'name'=(" ++ al.Name ++ ")"))
      else if method = "PUT" ∧ al.TargetPrefix.length = 0 then
        some (bodyError ("Missing 'target-prefix' at alias 'name'(" ++ al.Name ++ ")"))
      else
        match validatePrefixes N al.Name customer.AddressRange al.TargetPrefix with
        | some msg => some msg
        | none => validatePorts al.Name al.TargetPortRange

/-- The loop `for _,alias := range r.Aliases.Alias` of `Validate` with the
accumulated `aliasNameList`. -/
def validateAliases {P R : Type} (N : PrefixLib P R) (method : String) (customer : Customer R) :
    List String → List Alias → Bool × String
  | _, [] => (true, "")
  | aliasNameList, al :: rest =>
    match validateAlias N method customer aliasNameList al with
    | some errorMsg => (false, errorMsg)
    | none => validateAliases N method customer (aliasNameList ++ [al.Name]) rest

/-- The method `AliasesRequest.Validate`; receiver and customer are not nil. -/
def Validate {P R : Type} (N : PrefixLib P R) (r : AliasesRequest) (method : String)
    (customer : Customer R) : Bool × String :=
  if r.Aliases.length ≤ 0 then (false, bodyError "'alias' is not exist")
  else validateAliases N method customer [] r.Aliases

/-- The conditions under which an alias passes, given the names that precede it. -/
def AliasAccepted {P R : Type} (N : PrefixLib P R) (method : String) (customer : Customer R)
    (al : Alias) : Prop :=
  al.Name ≠ "" ∧ al.PendingLifetime = none ∧
  (al.TargetPrefix ≠ [] ∨ al.TargetFQDN ≠ [] ∨ al.TargetURI ≠ []) ∧
  (method = "PUT" → al.TargetPrefix ≠ []) ∧
  (∀ targetPrefix ∈ al.TargetPrefix,
    N.IsMulticast (N.NewPrefix targetPrefix) = false ∧
    N.IsLoopback (N.NewPrefix targetPrefix) = false ∧
    N.IsBroadCast (N.NewPrefix targetPrefix) = false ∧
    (N.CheckValidRangeIpAddress (N.NewPrefix targetPrefix) customer.AddressRange).1 = true) ∧
  (∀ pr ∈ al.TargetPortRange, ∀ upper : Nat, pr.UpperPort = some upper → pr.LowerPort ≤ upper)

/-- A prefix library over address texts: multicast is `224.`, loopback `127.`,
broadcast `255.`, and the customer's range is a list of accepted texts. -/
def samplePrefixLib : PrefixLib String (List String) :=
  { NewPrefix := fun s => s,
    IsMulticast := fun p => decide ("224.".data <+: p.data),
    IsLoopback := fun p => decide ("127.".data <+: p.data),
    IsBroadCast := fun p => decide ("255.".data <+: p.data),
    CheckValidRangeIpAddress := fun p range => (decide (p ∈ range), String.intercalate "," range),
    Show := fun p => p }

/-- An alias with the given name, target prefixes and port ranges and nothing else. -/
def sampleAlias (name : String) (prefixes : List String) (ports : List PortRange) : Alias :=
  { Name := name, PendingLifetime := none, TargetPrefix := prefixes, TargetFQDN := [],
    TargetURI := [], TargetPortRange := ports }

/-! ## Calling the blocker (`dots_server/models/data/acl.go`) -/

set_option linter.dupNamespace false in
/-- The struct `ACL` of the data channel, with the fields `CallBlocker` reads:
the id and the (uninspected) `types.ACL` content. -/
structure ACL where
  Id : Int
  ACL : String
  deriving DecidableEq

/-- What a selected blocker answers during the call: the result `(p, e)` of
`RegisterProtection` (the protection by its id, or the error) and the error of
`ExecuteProtection`, if any. -/
structure Blocker where
  RegisterProtection : Except String Int
  ExecuteProtection : Option String

/-- The value `*models.ACLBlockerList` received on the channel `ch`; the blocker
pointer may be nil. -/
structure ACLBlockerList where
  ACLID : Int
  CustomerID : Int
  ACL : String
  Blocker : Option Blocker

/-- One receive of the `select` in `CallBlocker`: a blocker selection from `ch`
or an error from `errCh`. -/
inductive Received where
  | selection (aclList : ACLBlockerList)
  | error (e : String)

/-- The calls `CallBlocker` makes on its collaborators, in program order. -/
inductive BlockerEvent where
  | enqueue (aclID : Int)
  | register (p : Int)
  | execute (p : Int)
  | unregister (p : Int)
  deriving DecidableEq

/-- The local variables of `CallBlocker` during the collection loop; a rollback
closure in `unregisterCommands` is kept by the protection it unregisters. -/
structure BlockerState where
  counter : Int
  err : Option String
  unregisterCommands : List Int
  events : List BlockerEvent
  deriving DecidableEq

/-- One iteration of the body of `for counter > 0 { select { ... } }`, for the
value `received` that the `select` obtained. -/
def collectStep (st : BlockerState) (received : Received) : BlockerState :=
  match received with
  | Received.selection aclList =>
    match aclList.Blocker with
    | none => { st with counter := st.counter - 1, err := some "Blocker is not existed" }
    | some blocker =>
      match blocker.RegisterProtection with
      | Except.error e => { st with err := some e }
      | Except.ok p =>
        let st := { st with unregisterCommands := st.unregisterCommands ++ [p],
                            events := st.events ++ [BlockerEvent.register p] }
        let st := { st with events := st.events ++ [BlockerEvent.execute p] }
        match blocker.ExecuteProtection with
        | some e => { st with counter := st.counter - 1, err := some e }
        | none => { st with counter := st.counter - 1 }
  | Received.error e => { st with counter := st.counter - 1, err := some e }

/-- The loop `for counter > 0 { select { ... } }` over the values that arrive on
the two channels, in arrival order: the state when the loop ends together with
the values not yet read, or `none` when the loop is still waiting after the
last value (the `select` blocks forever). -/
def collect : BlockerState → List Received → Option (BlockerState × List Received)
  | st, [] => if st.counter > 0 then none else some (st, [])
  | st, received :: rest =>
    if st.counter > 0 then collect (collectStep st received) rest
    else some (st, received :: rest)

/-- What a finished call of `CallBlocker` leaves: the returned error and the
calls made. -/
structure BlockerOutcome where
  err : Option String
  events : List BlockerEvent
  deriving DecidableEq

/-- The function `CallBlocker`; `config` is the result of
`models.GetBlockerConfiguration`, and `arrivals` are the values the blocker
selection service sends on `ch` and `errCh`, in the order the `select` receives
them.  The result is `none` when the call never returns. -/
def CallBlocker (config : Except String String) (acls : List ACL) (arrivals : List Received) :
    Option BlockerOutcome :=
  match config with
  | Except.error e => some { err := some e, events := [] }
  | Except.ok _ =>
    let st : BlockerState :=
      { counter := (acls.length : Int), err := none, unregisterCommands := [],
        events := acls.map (fun acl => BlockerEvent.enqueue acl.Id) }
    match collect st arrivals with
    | none => none
    | some (st, _) =>
      if st.err ≠ none then
        some { err := st.err,
               events := st.events ++ st.unregisterCommands.map BlockerEvent.unregister }
      else some { err := st.err, events := st.events }

/-- The protections registered in a run, in order. -/
def registered (events : List BlockerEvent) : List Int :=
  events.filterMap (fun e =>
    match e with
    | BlockerEvent.register p => some p
    | _ => none)

/-- The protections unregistered in a run, in order. -/
def unregistered (events : List BlockerEvent) : List Int :=
  events.filterMap (fun e =>
    match e with
    | BlockerEvent.unregister p => some p
    | _ => none)

/-- A selection whose blocker registers the protection `p` and executes it with
the given error, if any. -/
def sampleSelection (aclID p : Int) (execError : Option String) : Received :=
  Received.selection
    { ACLID := aclID, CustomerID := 1, ACL := "acl",
      Blocker := some { RegisterProtection := Except.ok p, ExecuteProtection := execError } }

/-- A selection whose blocker fails to register a protection. -/
def sampleRegisterFailure (aclID : Int) : Received :=
  Received.selection
    { ACLID := aclID, CustomerID := 1, ACL := "acl",
      Blocker := some { RegisterProtection := Except.error "register failed",
                        ExecuteProtection := none } }

/-- Whether a received value is a selection whose blocker fails to register the
protection. -/
def isRegisterFailure (received : Received) : Bool :=
  match received with
  | Received.selection aclList =>
    match aclList.Blocker with
    | some blocker =>
      match blocker.RegisterProtection with
      | Except.error _ => true
      | Except.ok _ => false
    | none => false
  | Received.error _ => false

/-- The loop invariant of the collection loop: the rollback closures are those
of the protections registered so far, and nothing has been unregistered. -/
def RollbackReady (st : BlockerState) : Prop :=
  st.unregisterCommands = registered st.events ∧ unregistered st.events = []

/-! ## Lemmas on tables -/

theorem Table.get_cons {K V : Type} [DecidableEq K] (e : K × V) (t : Table K V) (k : K) :
    Table.get (e :: t) k = if e.1 = k then some e.2 else Table.get t k := by
  by_cases h : e.1 = k <;> simp [Table.get, List.find?_cons, h]

theorem Table.delete_cons {K V : Type} [DecidableEq K] (e : K × V) (t : Table K V) (k : K) :
    Table.delete (e :: t) k = if e.1 = k then Table.delete t k else e :: Table.delete t k := by
  by_cases h : e.1 = k <;> simp [Table.delete, List.filter_cons, h]

theorem Table.get_delete_self {K V : Type} [DecidableEq K] (t : Table K V) (k : K) :
    Table.get (Table.delete t k) k = none := by
  induction t with
  | nil => rfl
  | cons e t ih =>
    rw [Table.delete_cons]
    by_cases h : e.1 = k
    · rw [if_pos h]; exact ih
    · rw [if_neg h, Table.get_cons, if_neg h]; exact ih

theorem Table.get_delete_of_ne {K V : Type} [DecidableEq K] (t : Table K V) {k j : K}
    (h : j ≠ k) : Table.get (Table.delete t k) j = Table.get t j := by
  induction t with
  | nil => rfl
  | cons e t ih =>
    rw [Table.delete_cons, Table.get_cons]
    by_cases h1 : e.1 = k
    · have h2 : ¬ e.1 = j := fun h3 => h (h3.symm.trans h1)
      rw [if_pos h1, if_neg h2]; exact ih
    · rw [if_neg h1, Table.get_cons, ih]

theorem Table.get_set_self {K V : Type} [DecidableEq K] (t : Table K V) (k : K) (v : V) :
    Table.get (Table.set t k v) k = some v := by
  rw [Table.set, Table.get_cons, if_pos rfl]

theorem Table.get_set_of_ne {K V : Type} [DecidableEq K] (t : Table K V) {k j : K} (v : V)
    (h : j ≠ k) : Table.get (Table.set t k v) j = Table.get t j := by
  rw [Table.set, Table.get_cons, if_neg (fun h2 : k = j => h h2.symm)]
  exact Table.get_delete_of_ne t h

/-- A list of at most one element that contains `a` is `[a]`. -/
theorem eq_singleton_of_mem_of_length_le_one {α : Type} {l : List α} {a : α}
    (hmem : a ∈ l) (hlen : l.length ≤ 1) : l = [a] := by
  match l, hmem, hlen with
  | [x], hmem, _ =>
    simp only [List.mem_singleton] at hmem
    rw [hmem]
  | _ :: _ :: _, _, hlen => simp at hlen

/-! ## Lemmas on `CreateRequest` -/

@[simp] theorem Pdu.SetOption_Token (p : Pdu) (k : OptionKey) (v : OptVal) :
    (p.SetOption k v).Token = p.Token := rfl

@[simp] theorem Pdu.SetPathString_Token (p : Pdu) (s : String) :
    (p.SetPathString s).Token = p.Token := rfl

theorem CreateRequest_token (L : Lib) (mid : Nat) (rand : String) (r : Request) (env : Env) :
    (CreateRequest L mid rand r env).1.pdu.map Pdu.Token
      = some (createObserve L r
          { Pdu.empty with Typ := r.coapType, Code := methodCode L r.method, MessageID := mid,
                           Token := rand, Options := [] } env).1.Token := by
  simp only [CreateRequest]
  repeat' split
  all_goals simp

theorem CreateRequest_env (L : Lib) (mid : Nat) (rand : String) (r : Request) (env : Env) :
    (CreateRequest L mid rand r env).2
      = (createObserve L r
          { Pdu.empty with Typ := r.coapType, Code := methodCode L r.method, MessageID := mid,
                           Token := rand, Options := [] } env).2 := by
  simp only [CreateRequest]


theorem parseUint16_ne_empty {s : String} {n : Nat} (h : parseUint16 s = some n) : s ≠ "" := by
  intro hs
  rw [hs] at h
  have h0 : parseUint16 "" = none := by decide
  rw [h0] at h
  exact Option.noConfusion h

theorem createObserve_register (L : Lib) (r : Request) (pdu : Pdu) (env : Env)
    (h : parseUint16 ((r.option? MsgOption.OBSERVE).getD "") = some (uint16 L.Register)) :
    createObserve L r pdu env =
      match env.GetTokenAndRequestQuery (L.QueryParamsToString r.queryParams) with
      | some e =>
        ({ pdu.SetOption OptionKey.Observe (OptVal.uint (uint16 L.Register)) with Token := e.1 }, env)
      | none =>
        (pdu.SetOption OptionKey.Observe (OptVal.uint (uint16 L.Register)),
         env.AddRequestQuery pdu.Token
           { Query := L.QueryParamsToString r.queryParams, CountMitigation := none }) := by
  have hne := parseUint16_ne_empty h
  unfold createObserve
  simp only [hne, ne_eq, not_false_eq_true, if_true, h, true_or]
  cases env.GetTokenAndRequestQuery (L.QueryParamsToString r.queryParams) <;> rfl

theorem createObserve_deregister (L : Lib) (r : Request) (pdu : Pdu) (env : Env)
    (h : parseUint16 ((r.option? MsgOption.OBSERVE).getD "") = some (uint16 L.Deregister))
    (hne : uint16 L.Register ≠ uint16 L.Deregister) :
    createObserve L r pdu env =
      match env.GetTokenAndRequestQuery (L.QueryParamsToString r.queryParams) with
      | some e =>
        ({ pdu.SetOption OptionKey.Observe (OptVal.uint (uint16 L.Deregister)) with Token := e.1 },
         env.RemoveRequestQuery e.1)
      | none => (pdu.SetOption OptionKey.Observe (OptVal.uint (uint16 L.Deregister)), env) := by
  have hne1 := parseUint16_ne_empty h
  have hne2 : ¬ uint16 L.Deregister = uint16 L.Register := fun h3 => hne h3.symm
  unfold createObserve
  simp only [hne1, ne_eq, not_false_eq_true, if_true, h, or_true, hne2, if_false]
  cases env.GetTokenAndRequestQuery (L.QueryParamsToString r.queryParams) <;> rfl

/-- The entries of a table whose query string is `q`. -/
theorem filter_query_of_find {t : Table String RequestQuery} {q : String}
    {e : String × RequestQuery}
    (hfind : t.find? (fun e => decide (e.2.Query = q)) = some e)
    (hlen : (t.filter (fun e => decide (e.2.Query = q))).length ≤ 1) :
    t.filter (fun e => decide (e.2.Query = q)) = [e] := by
  apply eq_singleton_of_mem_of_length_le_one _ hlen
  rw [List.mem_filter]
  exact ⟨List.mem_of_find?_eq_some hfind,
    List.find?_some (p := fun (e : String × RequestQuery) => decide (e.2.Query = q)) hfind⟩

theorem filter_query_delete_of_find_none {t : Table String RequestQuery} {q : String} (k : String)
    (hfind : t.find? (fun e => decide (e.2.Query = q)) = none) :
    (Table.delete t k).filter (fun e => decide (e.2.Query = q)) = [] := by
  rw [List.filter_eq_nil_iff]
  intro a ha
  rw [List.find?_eq_none] at hfind
  exact hfind a (List.mem_of_mem_filter ha)


/-- C1 (as amended): in an environment whose subscription table holds at most one
entry for the query string, two `CreateRequest` calls with observe = Register on
the same query parameters carry the same token, and afterwards the table holds
exactly one entry for that query string, keyed by that token. -/
theorem CreateRequest_register_twice (L : Lib) (env : Env) (r1 r2 : Request)
    (mid1 mid2 : Nat) (rand1 rand2 : String)
    (hobs1 : parseUint16 ((r1.option? MsgOption.OBSERVE).getD "") = some (uint16 L.Register))
    (hobs2 : parseUint16 ((r2.option? MsgOption.OBSERVE).getD "") = some (uint16 L.Register))
    (hq : r2.queryParams = r1.queryParams)
    (huniq : (env.requestQueries.filter
      (fun e => decide (e.2.Query = L.QueryParamsToString r1.queryParams))).length ≤ 1) :
    ∃ tok : String,
      (CreateRequest L mid1 rand1 r1 env).1.pdu.map Pdu.Token = some tok ∧
      (CreateRequest L mid2 rand2 r2 (CreateRequest L mid1 rand1 r1 env).2).1.pdu.map Pdu.Token
        = some tok ∧
      ((CreateRequest L mid2 rand2 r2 (CreateRequest L mid1 rand1 r1 env).2).2.requestQueries.filter
        (fun e => decide (e.2.Query = L.QueryParamsToString r1.queryParams))).map Prod.fst
        = [tok] := by
  simp only [CreateRequest_token, CreateRequest_env]
  rw [createObserve_register L r1 _ env hobs1]
  cases hfind : env.GetTokenAndRequestQuery (L.QueryParamsToString r1.queryParams) with
  | some e =>
    refine ⟨e.1, rfl, ?_, ?_⟩
    · simp only
      rw [createObserve_register L r2 _ env hobs2, hq, hfind]
    · simp only
      rw [createObserve_register L r2 _ env hobs2, hq, hfind]
      simp only
      rw [filter_query_of_find hfind huniq]
      rfl
  | none =>
    have hfind2 : (env.AddRequestQuery rand1
        { Query := L.QueryParamsToString r1.queryParams, CountMitigation := none }).GetTokenAndRequestQuery
          (L.QueryParamsToString r1.queryParams)
        = some (rand1, { Query := L.QueryParamsToString r1.queryParams, CountMitigation := none }) := by
      simp [Env.GetTokenAndRequestQuery, Env.AddRequestQuery, Table.set]
    refine ⟨rand1, rfl, ?_, ?_⟩
    · simp only [Pdu.SetOption_Token]
      rw [createObserve_register L r2 _ _ hobs2, hq, hfind2]
    · simp only [Pdu.SetOption_Token]
      rw [createObserve_register L r2 _ _ hobs2, hq, hfind2]
      simp only [Env.AddRequestQuery, Table.set, List.filter_cons, decide_True, if_true,
        List.map_cons]
      rw [filter_query_delete_of_find_none rand1 hfind]
      rfl


theorem find_query_delete_none {t : Table String RequestQuery} {q k : String}
    (h : ∀ a ∈ t, a.2.Query = q → a.1 = k) :
    (Table.delete t k).find? (fun e => decide (e.2.Query = q)) = none := by
  rw [List.find?_eq_none]
  intro a ha hq
  rw [Table.delete, List.mem_filter] at ha
  have h1 := h a ha.1 (of_decide_eq_true hq)
  simp [h1] at ha

/-- C1 (as amended), at a concrete input: an empty subscription table and two
register requests for the query `q`. -/
theorem CreateRequest_register_twice_witness :
    ∃ tok : String,
      (CreateRequest sampleLib 1 "tokenAAA"
        (sampleRequest "mitigation_request" "GET" "0" ["q"]) (sampleEnv [] [])).1.pdu.map Pdu.Token
        = some tok ∧
      (CreateRequest sampleLib 2 "tokenBBB" (sampleRequest "mitigation_request" "GET" "0" ["q"])
        (CreateRequest sampleLib 1 "tokenAAA"
          (sampleRequest "mitigation_request" "GET" "0" ["q"]) (sampleEnv [] [])).2).1.pdu.map
            Pdu.Token = some tok ∧
      ((CreateRequest sampleLib 2 "tokenBBB" (sampleRequest "mitigation_request" "GET" "0" ["q"])
        (CreateRequest sampleLib 1 "tokenAAA"
          (sampleRequest "mitigation_request" "GET" "0" ["q"])
            (sampleEnv [] [])).2).2.requestQueries.filter
        (fun e => decide (e.2.Query = sampleLib.QueryParamsToString
          (sampleRequest "mitigation_request" "GET" "0" ["q"]).queryParams))).map Prod.fst
        = [tok] :=
  CreateRequest_register_twice sampleLib (sampleEnv [] [])
    (sampleRequest "mitigation_request" "GET" "0" ["q"])
    (sampleRequest "mitigation_request" "GET" "0" ["q"]) 1 2 "tokenAAA" "tokenBBB"
    (by decide) (by decide) rfl (by decide)

/-- C1 as stated fails: with two tokens already subscribed to the query `q`, two
register requests both carry the token `a`, and the table still holds two
entries for `q`, not exactly one. -/
theorem CreateRequest_register_twice_counterexample :
    (CreateRequest sampleLib 1 "tokenAAA" (sampleRequest "mitigation_request" "GET" "0" ["q"])
      (sampleEnv [("a", ⟨"q", none⟩), ("b", ⟨"q", none⟩)] [])).1.pdu.map Pdu.Token = some "a" ∧
    (CreateRequest sampleLib 2 "tokenBBB" (sampleRequest "mitigation_request" "GET" "0" ["q"])
      (CreateRequest sampleLib 1 "tokenAAA" (sampleRequest "mitigation_request" "GET" "0" ["q"])
        (sampleEnv [("a", ⟨"q", none⟩), ("b", ⟨"q", none⟩)] [])).2).1.pdu.map Pdu.Token
      = some "a" ∧
    ¬ ∃ tok : String,
      ((CreateRequest sampleLib 2 "tokenBBB" (sampleRequest "mitigation_request" "GET" "0" ["q"])
        (CreateRequest sampleLib 1 "tokenAAA" (sampleRequest "mitigation_request" "GET" "0" ["q"])
          (sampleEnv [("a", ⟨"q", none⟩), ("b", ⟨"q", none⟩)] [])).2).2.requestQueries.filter
        (fun e => decide (e.2.Query = "q"))).map Prod.fst = [tok] := by
  refine ⟨by decide, by decide, ?_⟩
  rintro ⟨tok, h⟩
  have h2 : ((CreateRequest sampleLib 2 "tokenBBB"
      (sampleRequest "mitigation_request" "GET" "0" ["q"])
      (CreateRequest sampleLib 1 "tokenAAA" (sampleRequest "mitigation_request" "GET" "0" ["q"])
        (sampleEnv [("a", ⟨"q", none⟩), ("b", ⟨"q", none⟩)] [])).2).2.requestQueries.filter
      (fun e => decide (e.2.Query = "q"))).map Prod.fst = ["a", "b"] := by decide
  rw [h2] at h
  simp at h

/-- C2 (as amended): in an environment whose subscription table holds at most one
entry for the query string, a register request followed by a deregister request
for the same query parameters carry the same token, whatever random token the
second call minted, and afterwards no token is found for the query string. -/
theorem CreateRequest_deregister_after_register (L : Lib) (env : Env) (r1 r2 : Request)
    (mid1 mid2 : Nat) (rand1 rand2 : String)
    (hobs1 : parseUint16 ((r1.option? MsgOption.OBSERVE).getD "") = some (uint16 L.Register))
    (hobs2 : parseUint16 ((r2.option? MsgOption.OBSERVE).getD "") = some (uint16 L.Deregister))
    (hne : uint16 L.Register ≠ uint16 L.Deregister)
    (hq : r2.queryParams = r1.queryParams)
    (huniq : (env.requestQueries.filter
      (fun e => decide (e.2.Query = L.QueryParamsToString r1.queryParams))).length ≤ 1) :
    ∃ tok : String,
      (CreateRequest L mid1 rand1 r1 env).1.pdu.map Pdu.Token = some tok ∧
      (CreateRequest L mid2 rand2 r2 (CreateRequest L mid1 rand1 r1 env).2).1.pdu.map Pdu.Token
        = some tok ∧
      (CreateRequest L mid2 rand2 r2
        (CreateRequest L mid1 rand1 r1 env).2).2.GetTokenAndRequestQuery
          (L.QueryParamsToString r1.queryParams) = none := by
  simp only [CreateRequest_token, CreateRequest_env]
  rw [createObserve_register L r1 _ env hobs1]
  cases hfind : env.GetTokenAndRequestQuery (L.QueryParamsToString r1.queryParams) with
  | some e =>
    refine ⟨e.1, rfl, ?_, ?_⟩
    · simp only
      rw [createObserve_deregister L r2 _ env hobs2 hne, hq, hfind]
    · simp only
      rw [createObserve_deregister L r2 _ env hobs2 hne, hq, hfind]
      simp only [Env.GetTokenAndRequestQuery, Env.RemoveRequestQuery]
      apply find_query_delete_none
      intro a ha haq
      have hmem : a ∈ env.requestQueries.filter
          (fun e => decide (e.2.Query = L.QueryParamsToString r1.queryParams)) := by
        rw [List.mem_filter]
        exact ⟨ha, decide_eq_true haq⟩
      rw [filter_query_of_find hfind huniq, List.mem_singleton] at hmem
      rw [hmem]
  | none =>
    have hfind2 : (env.AddRequestQuery rand1
        { Query := L.QueryParamsToString r1.queryParams, CountMitigation := none }).GetTokenAndRequestQuery
          (L.QueryParamsToString r1.queryParams)
        = some (rand1, { Query := L.QueryParamsToString r1.queryParams, CountMitigation := none }) := by
      simp [Env.GetTokenAndRequestQuery, Env.AddRequestQuery, Table.set]
    refine ⟨rand1, rfl, ?_, ?_⟩
    · simp only [Pdu.SetOption_Token]
      rw [createObserve_deregister L r2 _ _ hobs2 hne, hq, hfind2]
    · simp only [Pdu.SetOption_Token]
      rw [createObserve_deregister L r2 _ _ hobs2 hne, hq, hfind2]
      simp only [Env.GetTokenAndRequestQuery, Env.RemoveRequestQuery, Env.AddRequestQuery]
      apply find_query_delete_none
      intro a ha haq
      rw [Table.set, List.mem_cons] at ha
      rcases ha with ha | ha
      · rw [ha]
      · rw [Table.delete, List.mem_filter] at ha
        have hnone := hfind
        rw [Env.GetTokenAndRequestQuery, List.find?_eq_none] at hnone
        exact absurd (decide_eq_true haq) (hnone a ha.1)

/-- C2 (as amended), at a concrete input: an empty subscription table, a register
request and then a deregister request for the query `q`. -/
theorem CreateRequest_deregister_after_register_witness :
    ∃ tok : String,
      (CreateRequest sampleLib 1 "tokenAAA"
        (sampleRequest "mitigation_request" "GET" "0" ["q"]) (sampleEnv [] [])).1.pdu.map Pdu.Token
        = some tok ∧
      (CreateRequest sampleLib 2 "tokenBBB" (sampleRequest "mitigation_request" "GET" "1" ["q"])
        (CreateRequest sampleLib 1 "tokenAAA"
          (sampleRequest "mitigation_request" "GET" "0" ["q"]) (sampleEnv [] [])).2).1.pdu.map
            Pdu.Token = some tok ∧
      (CreateRequest sampleLib 2 "tokenBBB" (sampleRequest "mitigation_request" "GET" "1" ["q"])
        (CreateRequest sampleLib 1 "tokenAAA"
          (sampleRequest "mitigation_request" "GET" "0" ["q"])
            (sampleEnv [] [])).2).2.GetTokenAndRequestQuery
          (sampleLib.QueryParamsToString
            (sampleRequest "mitigation_request" "GET" "0" ["q"]).queryParams) = none :=
  CreateRequest_deregister_after_register sampleLib (sampleEnv [] [])
    (sampleRequest "mitigation_request" "GET" "0" ["q"])
    (sampleRequest "mitigation_request" "GET" "1" ["q"]) 1 2 "tokenAAA" "tokenBBB"
    (by decide) (by decide) (by decide) rfl (by decide)

/-- C2 as stated fails: with the tokens `a` and `b` both subscribed to the query
`q`, the register request carries `a`, the deregister request carries `a` and
removes it, and a lookup of `q` afterwards still finds the token `b`. -/
theorem CreateRequest_deregister_counterexample :
    (CreateRequest sampleLib 1 "tokenAAA" (sampleRequest "mitigation_request" "GET" "0" ["q"])
      (sampleEnv [("a", ⟨"q", none⟩), ("b", ⟨"q", none⟩)] [])).1.pdu.map Pdu.Token = some "a" ∧
    (CreateRequest sampleLib 2 "tokenBBB" (sampleRequest "mitigation_request" "GET" "1" ["q"])
      (CreateRequest sampleLib 1 "tokenAAA" (sampleRequest "mitigation_request" "GET" "0" ["q"])
        (sampleEnv [("a", ⟨"q", none⟩), ("b", ⟨"q", none⟩)] [])).2).1.pdu.map Pdu.Token
      = some "a" ∧
    (CreateRequest sampleLib 2 "tokenBBB" (sampleRequest "mitigation_request" "GET" "1" ["q"])
      (CreateRequest sampleLib 1 "tokenAAA" (sampleRequest "mitigation_request" "GET" "0" ["q"])
        (sampleEnv [("a", ⟨"q", none⟩), ("b", ⟨"q", none⟩)] [])).2).2.GetTokenAndRequestQuery "q"
      = some ("b", ⟨"q", none⟩) := by
  decide


/-! ## Timeouts -/

/-- C3 (as amended): for a request whose message is non-confirmable or
confirmable (so that a task configuration is selected), when waiting for the
response yields no message, `Send` returns the internal-server-error status
together with the text `Request timeout` as data; the environment is the one
the wait left. -/
theorem Send_timeout (L : Lib) (r : Request) (env : Env) (pdu : Pdu)
    (sys : ClientSystemConfig) (config : MessageTaskConfiguration)
    (hpdu : r.pdu = some pdu) (hsys : L.GetSystemConfig = some sys)
    (hconfig : sendConfig sys pdu = some config)
    (hwait : (L.WaitingForResponse (env.Run (Task.message (sendTask pdu config)))
      (sendTask pdu config)).1 = none) :
    Send L r env =
      Except.ok ({ StatusCode := L.ResponseInternalServerError, data := some "Request timeout" },
        (L.WaitingForResponse (env.Run (Task.message (sendTask pdu config)))
          (sendTask pdu config)).2) := by
  unfold Send
  rw [hpdu, hsys]
  dsimp only
  rw [hconfig]
  dsimp only
  split
  · next heq =>
    rw [heq]
    rfl
  · next reply heq =>
    exact Option.noConfusion (heq.symm.trans hwait)

/-- C3 (as amended), at a concrete input: a confirmable GET that receives no reply. -/
theorem Send_timeout_witness :
    Send sampleLib
      (CreateRequest sampleLib 1 "tokenAAA" (sampleRequest "mitigation_request" "GET" "" ["q"])
        (sampleEnv [] [])).1 (sampleEnv [] []) =
      Except.ok ({ StatusCode := sampleLib.ResponseInternalServerError,
                   data := some "Request timeout" },
        (sampleLib.WaitingForResponse
          ((sampleEnv [] []).Run (Task.message (sendTask
            { Typ := MsgType.Con, Code := 1, MessageID := 1, Token := "tokenAAA", Options := [],
              Data := none, Path := ".well-known/dots/mitigate/q" }
            { TaskInterval := 2, TaskRetryNumber := 2, TaskTimeout := 10 })))
          (sendTask
            { Typ := MsgType.Con, Code := 1, MessageID := 1, Token := "tokenAAA", Options := [],
              Data := none, Path := ".well-known/dots/mitigate/q" }
            { TaskInterval := 2, TaskRetryNumber := 2, TaskTimeout := 10 })).2) :=
  Send_timeout sampleLib _ (sampleEnv [] [])
    { Typ := MsgType.Con, Code := 1, MessageID := 1, Token := "tokenAAA", Options := [],
      Data := none, Path := ".well-known/dots/mitigate/q" }
    { NonConfirmableMessageTask := some { TaskInterval := 2, TaskRetryNumber := 0, TaskTimeout := 10 },
      ConfirmableMessageTask := some { TaskInterval := 2, TaskRetryNumber := 2, TaskTimeout := 10 } }
    { TaskInterval := 2, TaskRetryNumber := 2, TaskTimeout := 10 }
    (by decide) rfl (by decide) rfl

/-- C3 as stated fails: a confirmable GET that receives no reply yields a
`Response` whose data is the 15-byte text `Request timeout`, neither nil nor empty. -/
theorem Send_timeout_counterexample :
    ∃ (res : Response) (env1 : Env),
      Send sampleLib
        (CreateRequest sampleLib 1 "tokenAAA" (sampleRequest "mitigation_request" "GET" "" ["q"])
          (sampleEnv [] [])).1 (sampleEnv [] []) = Except.ok (res, env1) ∧
      res.StatusCode = sampleLib.ResponseInternalServerError ∧
      res.data = some "Request timeout" ∧ res.data ≠ none ∧ res.data ≠ some "" :=
  ⟨{ StatusCode := 160, data := some "Request timeout" }, _, rfl, rfl, rfl, by decide, by decide⟩

/-- C4: `handleTimeout` and `handleTimeoutNotification` leave the subscription
table and the fragment buffer as they were, and in the table of in-flight
requests they remove the entry keyed by the hex text of the task message's
token and change no other entry. -/
theorem handleTimeout_frame (task : MessageTask) (env : Env) :
    (handleTimeout task env).requestQueries = env.requestQueries ∧
    (handleTimeout task env).blocks = env.blocks ∧
    Table.get (handleTimeout task env).requests (hexEncode task.message.Token) = none ∧
    (∀ k : String, k ≠ hexEncode task.message.Token →
      Table.get (handleTimeout task env).requests k = Table.get env.requests k) ∧
    (handleTimeoutNotification task env).requestQueries = env.requestQueries ∧
    (handleTimeoutNotification task env).blocks = env.blocks ∧
    Table.get (handleTimeoutNotification task env).requests (hexEncode task.message.Token)
      = none ∧
    (∀ k : String, k ≠ hexEncode task.message.Token →
      Table.get (handleTimeoutNotification task env).requests k = Table.get env.requests k) ∧
    handleTimeout task env
      = { env with requests := Table.delete env.requests (hexEncode task.message.Token) } ∧
    handleTimeoutNotification task env
      = { env with requests := Table.delete env.requests (hexEncode task.message.Token) } :=
  ⟨rfl, rfl, Table.get_delete_self _ _, fun _ hk => Table.get_delete_of_ne _ hk,
   rfl, rfl, Table.get_delete_self _ _, fun _ hk => Table.get_delete_of_ne _ hk, rfl, rfl⟩


/-! ## Session-config refresh -/

theorem wrap64_of_bounds {x : Int} (hlo : -(2 ^ 63) ≤ x) (hhi : x < 2 ^ 63) : wrap64 x = x := by
  unfold wrap64
  omega

theorem seconds_of_bounds {x : Int} (hlo : 0 ≤ x) (hhi : x * 1000000000 < 2 ^ 63) :
    seconds x = x * 1000000000 := by
  unfold seconds
  apply wrap64_of_bounds <;> omega

theorem RefreshSessionConfig_eq (L : Lib) (pdu : Pdu) (env : Env) (message : Option Pdu) :
    RefreshSessionConfig L pdu env message =
      if wrap64 (atoi (L.GetOptionStringValue pdu OptionKey.Maxage) - env.intervalBeforeMaxAge) > 0
      then env.StopSessionConfig.Run (Task.sessionConfig
        { message := message,
          interval := seconds (wrap64
            (atoi (L.GetOptionStringValue pdu OptionKey.Maxage) - env.intervalBeforeMaxAge)),
          responseHandler := Handler.sessionConfigResponseHandler,
          timeoutHandler := Handler.sessionConfigTimeoutHandler })
      else env.StopSessionConfig := rfl

/-- C8 (as amended): `RefreshSessionConfig` first stops the current session-config task; then,
with `maxAge` the integer value of the Max-Age option and `margin` the
environment's interval-before-max-age (the difference and its nanosecond count
within the 64-bit range), it submits exactly one refresh task with delay
`maxAge - margin` seconds when `maxAge - margin > 0`, and none otherwise. -/
theorem RefreshSessionConfig_schedule (L : Lib) (pdu : Pdu) (env : Env) (message : Option Pdu)
    (hlo : -(2 ^ 63) ≤ atoi (L.GetOptionStringValue pdu OptionKey.Maxage) - env.intervalBeforeMaxAge)
    (hhi : (atoi (L.GetOptionStringValue pdu OptionKey.Maxage) - env.intervalBeforeMaxAge)
      * 1000000000 < 2 ^ 63) :
    (0 < atoi (L.GetOptionStringValue pdu OptionKey.Maxage) - env.intervalBeforeMaxAge →
      (RefreshSessionConfig L pdu env message).events =
        env.events ++ [Event.stopSessionConfig, Event.run (Task.sessionConfig
          { message := message,
            interval := (atoi (L.GetOptionStringValue pdu OptionKey.Maxage)
              - env.intervalBeforeMaxAge) * 1000000000,
            responseHandler := Handler.sessionConfigResponseHandler,
            timeoutHandler := Handler.sessionConfigTimeoutHandler })] ∧
      (RefreshSessionConfig L pdu env message).sessionConfigTask = some
          { message := message,
            interval := (atoi (L.GetOptionStringValue pdu OptionKey.Maxage)
              - env.intervalBeforeMaxAge) * 1000000000,
            responseHandler := Handler.sessionConfigResponseHandler,
            timeoutHandler := Handler.sessionConfigTimeoutHandler }) ∧
    (atoi (L.GetOptionStringValue pdu OptionKey.Maxage) - env.intervalBeforeMaxAge ≤ 0 →
      (RefreshSessionConfig L pdu env message).events = env.events ++ [Event.stopSessionConfig] ∧
      (RefreshSessionConfig L pdu env message).sessionConfigTask = none) := by
  have hw : wrap64 (atoi (L.GetOptionStringValue pdu OptionKey.Maxage) - env.intervalBeforeMaxAge)
      = atoi (L.GetOptionStringValue pdu OptionKey.Maxage) - env.intervalBeforeMaxAge := by
    apply wrap64_of_bounds hlo
    omega
  rw [RefreshSessionConfig_eq, hw]
  constructor
  · intro hpos
    rw [if_pos hpos, seconds_of_bounds (le_of_lt hpos) hhi]
    simp [Env.Run, Env.StopSessionConfig]
  · intro hle
    rw [if_neg (not_lt.mpr hle)]
    simp [Env.StopSessionConfig]

/-- C8 (as amended), at the inputs of the specification: Max-Age 100 with margin 20 schedules
one refresh task after 80 seconds, and Max-Age 10 with margin 20 schedules none. -/
theorem RefreshSessionConfig_schedule_witness :
    ((RefreshSessionConfig sampleLib (sampleResponse 69 "100" none) (sampleEnv [] []) none).events =
        [Event.stopSessionConfig, Event.run (Task.sessionConfig
          { message := none,
            interval := 80000000000,
            responseHandler := Handler.sessionConfigResponseHandler,
            timeoutHandler := Handler.sessionConfigTimeoutHandler })] ∧
      (RefreshSessionConfig sampleLib (sampleResponse 69 "100" none) (sampleEnv [] [])
        none).sessionConfigTask = some
          { message := none,
            interval := 80000000000,
            responseHandler := Handler.sessionConfigResponseHandler,
            timeoutHandler := Handler.sessionConfigTimeoutHandler }) ∧
    ((RefreshSessionConfig sampleLib (sampleResponse 69 "10" none) (sampleEnv [] []) none).events =
        [Event.stopSessionConfig] ∧
      (RefreshSessionConfig sampleLib (sampleResponse 69 "10" none) (sampleEnv [] [])
        none).sessionConfigTask = none) :=
  ⟨(RefreshSessionConfig_schedule sampleLib (sampleResponse 69 "100" none) (sampleEnv [] []) none
      (by decide) (by decide)).1 (by decide),
   (RefreshSessionConfig_schedule sampleLib (sampleResponse 69 "10" none) (sampleEnv [] []) none
      (by decide) (by decide)).2 (by decide)⟩

/-- C8 as stated fails outside the 64-bit range.  With Max-Age 10000000000 and
margin 20 the difference 9999999980 is positive, but the delay
`time.Duration(timeFresh) * time.Second` wraps: the task submitted has the
negative delay -8446744093709551616 ns and not 9999999980 seconds.  With
Max-Age 0 and margin -9223372036854775808 the difference 2^63 is positive, but
it wraps to a negative `timeFresh` and no task is submitted. -/
theorem RefreshSessionConfig_schedule_counterexample :
    (0 < atoi (sampleLib.GetOptionStringValue (sampleResponse 69 "10000000000" none)
          OptionKey.Maxage) - (sampleEnv [] []).intervalBeforeMaxAge ∧
      (RefreshSessionConfig sampleLib (sampleResponse 69 "10000000000" none) (sampleEnv [] [])
        none).sessionConfigTask = some
          { message := none,
            interval := -8446744093709551616,
            responseHandler := Handler.sessionConfigResponseHandler,
            timeoutHandler := Handler.sessionConfigTimeoutHandler } ∧
      (-8446744093709551616 : Int) ≠ 9999999980 * 1000000000) ∧
    (0 < atoi (sampleLib.GetOptionStringValue (sampleResponse 69 "0" none) OptionKey.Maxage)
          - (-9223372036854775808 : Int) ∧
      (RefreshSessionConfig sampleLib (sampleResponse 69 "0" none)
        { sampleEnv [] [] with intervalBeforeMaxAge := -9223372036854775808 } none).events
        = [Event.stopSessionConfig] ∧
      (RefreshSessionConfig sampleLib (sampleResponse 69 "0" none)
        { sampleEnv [] [] with intervalBeforeMaxAge := -9223372036854775808 }
        none).sessionConfigTask = none) :=
  ⟨⟨by decide, by decide, by decide⟩, ⟨by decide, by decide, by decide⟩⟩


/-! ## Frame lemmas for the heartbeat restart and the refresh -/

theorem RefreshSessionConfig_cases (L : Lib) (pdu : Pdu) (env : Env) (message : Option Pdu) :
    RefreshSessionConfig L pdu env message = env.StopSessionConfig ∨
    ∃ t : SessionConfigTask,
      RefreshSessionConfig L pdu env message = env.StopSessionConfig.Run (Task.sessionConfig t) := by
  rw [RefreshSessionConfig_eq]
  split
  · exact Or.inr ⟨_, rfl⟩
  · exact Or.inl rfl

theorem RestartPingTask_eq (L : Lib) (pdu : Pdu) (env : Env) :
    RestartPingTask L pdu env =
      if L.IsMessageResponse pdu then env
      else if (L.DecodeConfigurationResponse (pdu.Data.getD "")).2 then env
      else
        (((env.SetRetransmitParams
            (pingParameters L env.sessionConfigMode
              (L.DecodeConfigurationResponse (pdu.Data.getD "")).1).2.2.1
            (pingParameters L env.sessionConfigMode
              (L.DecodeConfigurationResponse (pdu.Data.getD "")).1).2.2.2.1
            (pingParameters L env.sessionConfigMode
              (L.DecodeConfigurationResponse (pdu.Data.getD "")).1).2.2.2.2).StopPing).SetMissingHbAllowed
            (pingParameters L env.sessionConfigMode
              (L.DecodeConfigurationResponse (pdu.Data.getD "")).1).2.1).Run
          (Task.ping
            { interval := seconds (pingParameters L env.sessionConfigMode
                (L.DecodeConfigurationResponse (pdu.Data.getD "")).1).1,
              responseHandler := Handler.pingResponseHandler,
              timeoutHandler := Handler.pingTimeoutHandler }) := rfl

theorem RestartPingTask_cases (L : Lib) (pdu : Pdu) (env : Env) :
    RestartPingTask L pdu env = env ∨
    ∃ (a : Int) (b c : Decimal) (n : Int) (p : PingTask),
      RestartPingTask L pdu env =
        (((env.SetRetransmitParams a b c).StopPing).SetMissingHbAllowed n).Run (Task.ping p) := by
  rw [RestartPingTask_eq]
  split
  · exact Or.inl rfl
  · split
    · exact Or.inl rfl
    · exact Or.inr ⟨_, _, _, _, _, rfl⟩

theorem RefreshSessionConfig_frame (L : Lib) (pdu : Pdu) (env : Env) (message : Option Pdu) :
    (RefreshSessionConfig L pdu env message).blocks = env.blocks ∧
    (RefreshSessionConfig L pdu env message).requestQueries = env.requestQueries ∧
    (RefreshSessionConfig L pdu env message).requests = env.requests ∧
    (RefreshSessionConfig L pdu env message).pingTask = env.pingTask ∧
    (RefreshSessionConfig L pdu env message).missingHbAllowed = env.missingHbAllowed ∧
    deliveries (RefreshSessionConfig L pdu env message) = deliveries env ∧
    messageRuns (RefreshSessionConfig L pdu env message) = messageRuns env := by
  rcases RefreshSessionConfig_cases L pdu env message with h | ⟨t, h⟩ <;> rw [h] <;>
    simp [Env.StopSessionConfig, Env.Run, deliveries, messageRuns]

theorem RestartPingTask_frame (L : Lib) (pdu : Pdu) (env : Env) :
    (RestartPingTask L pdu env).blocks = env.blocks ∧
    (RestartPingTask L pdu env).requestQueries = env.requestQueries ∧
    (RestartPingTask L pdu env).requests = env.requests ∧
    (RestartPingTask L pdu env).sessionConfigTask = env.sessionConfigTask ∧
    (RestartPingTask L pdu env).intervalBeforeMaxAge = env.intervalBeforeMaxAge ∧
    deliveries (RestartPingTask L pdu env) = deliveries env ∧
    messageRuns (RestartPingTask L pdu env) = messageRuns env ∧
    refreshRuns (RestartPingTask L pdu env) = refreshRuns env := by
  rcases RestartPingTask_cases L pdu env with h | ⟨a, b, c, n, p, h⟩ <;> rw [h] <;>
    simp [Env.SetRetransmitParams, Env.StopPing, Env.SetMissingHbAllowed, Env.Run, deliveries,
      messageRuns, refreshRuns]

theorem handleResponseSession_frame (L : Lib) (r : Request) (response : Pdu) (env : Env) :
    (handleResponseSession L r response env).blocks = env.blocks ∧
    (handleResponseSession L r response env).requestQueries = env.requestQueries ∧
    (handleResponseSession L r response env).requests = env.requests ∧
    deliveries (handleResponseSession L r response env) = deliveries env ∧
    messageRuns (handleResponseSession L r response env) = messageRuns env := by
  have h1 := RestartPingTask_frame L response env
  have h2 := RefreshSessionConfig_frame L response (RestartPingTask L response env) r.pdu
  have h3 := RefreshSessionConfig_frame L response env r.pdu
  unfold handleResponseSession
  split
  · split
    · exact ⟨h2.1.trans h1.1, h2.2.1.trans h1.2.1, h2.2.2.1.trans h1.2.2.1,
        h2.2.2.2.2.2.1.trans h1.2.2.2.2.2.1, h2.2.2.2.2.2.2.trans h1.2.2.2.2.2.2.1⟩
    · split
      · exact ⟨h3.1, h3.2.1, h3.2.2.1, h3.2.2.2.2.2.1, h3.2.2.2.2.2.2⟩
      · split
        · exact ⟨h3.1, h3.2.1, h3.2.2.1, h3.2.2.2.2.2.1, h3.2.2.2.2.2.2⟩
        · exact ⟨rfl, rfl, rfl, rfl, rfl⟩
  · exact ⟨rfl, rfl, rfl, rfl, rfl⟩

theorem handleResponseBlock_request (L : Lib) (mid : Nat) (r : Request) (task : MessageTask)
    (response : Pdu) (env : Env) {r1 : Request} {task1 : MessageTask} {resp : Pdu} {env1 : Env}
    (h : handleResponseBlock L mid r task response env = Except.ok (r1, task1, resp, env1)) :
    r1.requestName = r.requestName ∧ r1.method = r.method ∧ r1.queryParams = r.queryParams := by
  unfold handleResponseBlock at h
  dsimp only at h
  split at h
  · split at h
    · injection h with h
      injection h with h1 h
      rw [← h1]
      exact ⟨rfl, rfl, rfl⟩
    · exact Except.noConfusion h
  · split at h
    · exact Except.noConfusion h
    · exact Except.noConfusion h
    · injection h with h
      injection h with h1 h
      rw [← h1]
      exact ⟨rfl, rfl, rfl⟩


/-! ## Session configuration responses -/

/-- C9 (as amended): when the fragment half of `handleResponse` completes with
the response `resp` for a `session_configuration` GET.  If the request carries
at least one query parameter and `resp` has the code Content and a payload that
is not a plain message and decodes as a configuration response `v`, then
`handleResponse` sets the retransmission parameters, stops the ping task and
runs a new one whose interval and missing-heartbeat allowance are those `v`
advertises for the current session-config mode; only the session-config refresh
follows.  If the request carries no query parameter, `handleResponse` returns
the environment of the fragment half as it is, whatever the response: the
heartbeat is not restarted (no `StopPing`, no new ping task, the allowance
unchanged). -/
theorem handleResponse_get_restarts_ping (L : Lib) (mid : Nat) (r : Request)
    (task : MessageTask) (response : Pdu) (env : Env) (r1 : Request) (task1 : MessageTask)
    (resp : Pdu) (env1 : Env)
    (hblock : handleResponseBlock L mid r task response env = Except.ok (r1, task1, resp, env1))
    (hname : r.requestName = "session_configuration") (hmethod : r.method = "GET") :
    (∀ v : ConfigurationResponse,
      resp.Code = L.ResponseContent → r.queryParams.length > 0 →
      L.IsMessageResponse resp = false →
      L.DecodeConfigurationResponse (resp.Data.getD "") = (v, false) →
      (∃ (env2 : Env) (post : List Event),
        handleResponse L mid r task response env = Except.ok (r1, task1, env2) ∧
        env2.events = env1.events ++
          [Event.setRetransmitParams (pingParameters L env1.sessionConfigMode v).2.2.1
            (pingParameters L env1.sessionConfigMode v).2.2.2.1
            (pingParameters L env1.sessionConfigMode v).2.2.2.2,
           Event.stopPing,
           Event.run (Task.ping
            { interval := seconds (pingParameters L env1.sessionConfigMode v).1,
              responseHandler := Handler.pingResponseHandler,
              timeoutHandler := Handler.pingTimeoutHandler })] ++ post ∧
        (post = [Event.stopSessionConfig] ∨
          ∃ t : SessionConfigTask,
            post = [Event.stopSessionConfig, Event.run (Task.sessionConfig t)]) ∧
        env2.pingTask = some
          { interval := seconds (pingParameters L env1.sessionConfigMode v).1,
            responseHandler := Handler.pingResponseHandler,
            timeoutHandler := Handler.pingTimeoutHandler } ∧
        env2.missingHbAllowed = (pingParameters L env1.sessionConfigMode v).2.1) ∧
      (env1.sessionConfigMode = L.MITIGATING →
        (pingParameters L env1.sessionConfigMode v).1
          = v.SignalConfigs.MitigatingConfig.HeartbeatInterval.CurrentValue ∧
        (pingParameters L env1.sessionConfigMode v).2.1
          = v.SignalConfigs.MitigatingConfig.MissingHbAllowed.CurrentValue) ∧
      (env1.sessionConfigMode ≠ L.MITIGATING → env1.sessionConfigMode = L.IDLE →
        (pingParameters L env1.sessionConfigMode v).1
          = v.SignalConfigs.IdleConfig.HeartbeatInterval.CurrentValue ∧
        (pingParameters L env1.sessionConfigMode v).2.1
          = v.SignalConfigs.IdleConfig.MissingHbAllowed.CurrentValue)) ∧
    (r.queryParams.length = 0 →
      handleResponse L mid r task response env = Except.ok (r1, task1, env1)) := by
  obtain ⟨hn1, hm1, hq1⟩ := handleResponseBlock_request L mid r task response env hblock
  have hresult : handleResponse L mid r task response env
      = Except.ok (r1, task1, handleResponseSession L r1 resp env1) := by
    unfold handleResponse
    rw [hblock]
  refine ⟨fun v hcode hquery hmsg hdec => ⟨?_, ?_, ?_⟩, fun hempty => ?_⟩
  · have hsession : handleResponseSession L r1 resp env1
        = RefreshSessionConfig L resp (RestartPingTask L resp env1) r1.pdu := by
      unfold handleResponseSession
      rw [hn1, hm1, hq1, hname, hmethod, if_pos rfl, if_pos ⟨rfl, hcode, hquery⟩]
    have hping : RestartPingTask L resp env1 =
        (((env1.SetRetransmitParams (pingParameters L env1.sessionConfigMode v).2.2.1
            (pingParameters L env1.sessionConfigMode v).2.2.2.1
            (pingParameters L env1.sessionConfigMode v).2.2.2.2).StopPing).SetMissingHbAllowed
            (pingParameters L env1.sessionConfigMode v).2.1).Run
          (Task.ping
            { interval := seconds (pingParameters L env1.sessionConfigMode v).1,
              responseHandler := Handler.pingResponseHandler,
              timeoutHandler := Handler.pingTimeoutHandler }) := by
      rw [RestartPingTask_eq, hmsg, hdec]
      rfl
    have hframe := RefreshSessionConfig_frame L resp (RestartPingTask L resp env1) r1.pdu
    rcases RefreshSessionConfig_cases L resp (RestartPingTask L resp env1) r1.pdu
      with hc | ⟨t, hc⟩
    · refine ⟨_, [Event.stopSessionConfig], hresult, ?_, Or.inl rfl, ?_, ?_⟩
      · rw [hsession, hc, hping]
        simp [Env.StopSessionConfig, Env.Run, Env.SetMissingHbAllowed, Env.StopPing,
          Env.SetRetransmitParams]
      · rw [hsession, hframe.2.2.2.1, hping]
        rfl
      · rw [hsession, hframe.2.2.2.2.1, hping]
        rfl
    · refine ⟨_, [Event.stopSessionConfig, Event.run (Task.sessionConfig t)], hresult, ?_,
        Or.inr ⟨t, rfl⟩, ?_, ?_⟩
      · rw [hsession, hc, hping]
        simp [Env.StopSessionConfig, Env.Run, Env.SetMissingHbAllowed, Env.StopPing,
          Env.SetRetransmitParams]
      · rw [hsession, hframe.2.2.2.1, hping]
        rfl
      · rw [hsession, hframe.2.2.2.2.1, hping]
        rfl
  · intro hmode
    simp [pingParameters, hmode]
  · intro hmode hidle
    rw [hidle] at hmode
    simp [pingParameters, hidle, hmode]
  · have hsession : handleResponseSession L r1 resp env1 = env1 := by
      have hput : ¬ ("GET" = "PUT" ∧ resp.Code = L.ResponseCreated) := fun h => by
        have h1 : ("GET" : String) ≠ "PUT" := by decide
        exact h1 h.1
      have hdel : ¬ ("GET" = "DELETE" ∧ resp.Code = L.ResponseDeleted) := fun h => by
        have h1 : ("GET" : String) ≠ "DELETE" := by decide
        exact h1 h.1
      have hget : ¬ ("GET" = "GET" ∧ resp.Code = L.ResponseContent ∧ r.queryParams.length > 0) :=
        fun h => by
          have h2 := h.2.2
          rw [hempty] at h2
          exact absurd h2 (by decide)
      unfold handleResponseSession
      rw [hn1, hm1, hq1, hname, hmethod, if_pos rfl, if_neg hget, if_neg hput, if_neg hdel]
    rw [hresult, hsession]


/-- C9 (as amended), at a concrete input: a `session_configuration` GET with the
query parameter `sid=1`, answered with Content in idle mode; the new ping task
has the advertised interval of 30 seconds and the allowance becomes 5. -/
theorem handleResponse_get_restarts_ping_witness :
    ∃ (env2 : Env) (post : List Event),
      handleResponse sampleLib 9 (sampleRequest "session_configuration" "GET" "" ["sid=1"])
        sampleTask (sampleResponse 69 "" (some "cfg")) (sampleEnv [] [])
        = Except.ok (sampleRequest "session_configuration" "GET" "" ["sid=1"], sampleTask, env2) ∧
      env2.events = ((sampleEnv [] []).AddResponse sampleTask
          (sampleResponse 69 "" (some "cfg"))).events ++
        [Event.setRetransmitParams (pingParameters sampleLib "idle" (sampleConfiguration 30 5)).2.2.1
          (pingParameters sampleLib "idle" (sampleConfiguration 30 5)).2.2.2.1
          (pingParameters sampleLib "idle" (sampleConfiguration 30 5)).2.2.2.2,
         Event.stopPing,
         Event.run (Task.ping
          { interval := seconds (pingParameters sampleLib "idle" (sampleConfiguration 30 5)).1,
            responseHandler := Handler.pingResponseHandler,
            timeoutHandler := Handler.pingTimeoutHandler })] ++ post ∧
      (post = [Event.stopSessionConfig] ∨
        ∃ t : SessionConfigTask, post = [Event.stopSessionConfig, Event.run (Task.sessionConfig t)]) ∧
      env2.pingTask = some
        { interval := seconds (pingParameters sampleLib "idle" (sampleConfiguration 30 5)).1,
          responseHandler := Handler.pingResponseHandler,
          timeoutHandler := Handler.pingTimeoutHandler } ∧
      env2.missingHbAllowed = (pingParameters sampleLib "idle" (sampleConfiguration 30 5)).2.1 :=
  ((handleResponse_get_restarts_ping sampleLib 9
    (sampleRequest "session_configuration" "GET" "" ["sid=1"]) sampleTask
    (sampleResponse 69 "" (some "cfg")) (sampleEnv [] [])
    (sampleRequest "session_configuration" "GET" "" ["sid=1"]) sampleTask
    (sampleResponse 69 "" (some "cfg"))
    ((sampleEnv [] []).AddResponse sampleTask (sampleResponse 69 "" (some "cfg")))
    rfl rfl rfl).1 (sampleConfiguration 30 5) rfl (by decide) rfl rfl).1

/-- C9 as stated fails: a `session_configuration` GET without query parameters,
answered with Content, leaves the running ping task in place: no `StopPing`, no
new ping task, and the allowance is not updated to the advertised value 5. -/
theorem handleResponse_get_restarts_ping_counterexample :
    ∃ env2 : Env,
      handleResponse sampleLib 9 (sampleRequest "session_configuration" "GET" "" [])
        sampleTask (sampleResponse 69 "" (some "cfg"))
        { sampleEnv [] [] with pingTask := some (samplePing 10), missingHbAllowed := 3 }
        = Except.ok (sampleRequest "session_configuration" "GET" "" [], sampleTask, env2) ∧
      env2.events = [Event.addResponse sampleTask (sampleResponse 69 "" (some "cfg"))] ∧
      env2.pingTask = some (samplePing 10) ∧ env2.missingHbAllowed = 3 :=
  ⟨_, rfl, by decide, by decide, by decide⟩

/-- C10, the code at the failing input: a `session_configuration` PUT answered with
Created, and a DELETE answered with Deleted, whose response carries Max-Age 100
while the margin is 20: after stopping the refresh task `handleResponse` submits
a new one, due in 80 seconds, that carries the PUT (or DELETE) message itself. -/
theorem handleResponse_put_delete_reschedules :
    (∃ env2 : Env,
      handleResponse sampleLib 9
        (CreateRequest sampleLib 1 "tokenAAA" (sampleRequest "session_configuration" "PUT" "" [])
          (sampleEnv [] [])).1
        sampleTask (sampleResponse 65 "100" none) (sampleEnv [] [])
        = Except.ok ((CreateRequest sampleLib 1 "tokenAAA"
            (sampleRequest "session_configuration" "PUT" "" []) (sampleEnv [] [])).1,
            sampleTask, env2) ∧
      refreshRuns env2 =
        [{ message := some { Typ := MsgType.Con, Code := 3, MessageID := 1, Token := "tokenAAA",
                             Options := [], Data := none, Path := ".well-known/dots/mitigate/" },
           interval := 80000000000,
           responseHandler := Handler.sessionConfigResponseHandler,
           timeoutHandler := Handler.sessionConfigTimeoutHandler }] ∧
      env2.sessionConfigTask ≠ none) ∧
    (∃ env2 : Env,
      handleResponse sampleLib 9
        (CreateRequest sampleLib 1 "tokenAAA" (sampleRequest "session_configuration" "DELETE" "" [])
          (sampleEnv [] [])).1
        sampleTask (sampleResponse 66 "100" none) (sampleEnv [] [])
        = Except.ok ((CreateRequest sampleLib 1 "tokenAAA"
            (sampleRequest "session_configuration" "DELETE" "" []) (sampleEnv [] [])).1,
            sampleTask, env2) ∧
      refreshRuns env2 =
        [{ message := some { Typ := MsgType.Con, Code := 4, MessageID := 1, Token := "tokenAAA",
                             Options := [], Data := none, Path := ".well-known/dots/mitigate/" },
           interval := 80000000000,
           responseHandler := Handler.sessionConfigResponseHandler,
           timeoutHandler := Handler.sessionConfigTimeoutHandler }] ∧
      env2.sessionConfigTask ≠ none) :=
  ⟨⟨_, rfl, by decide, by decide⟩, ⟨_, rfl, by decide, by decide⟩⟩


/-! ## Fragment handling -/

theorem append_left_cancel (s a b : String) (h : s ++ a = s ++ b) : a = b := by
  have h1 := congrArg String.data h
  simp only [String.data_append] at h1
  exact String.ext (List.append_cancel_left h1)

theorem handleNotification_more_task (L : Lib) (mid : Nat) (rand : String) (env env0 : Env)
    (t : MessageTask) (pdu : Pdu) (eTag : Int) (block : Block)
    (hcb : L.CheckBlock env pdu = ({ isMoreBlock := true, eTag := some eTag, block := some block }, env0))
    (htyp : pdu.Typ = MsgType.Non) :
    handleNotification L mid rand env (some t) pdu =
      Except.ok (env0.Run (Task.message (continuationTask L t.message block eTag))) := by
  unfold handleNotification
  rw [hcb]
  simp [htyp, continuationTask]

theorem handleNotification_more_none (L : Lib) (mid : Nat) (rand : String) (env env0 : Env)
    (pdu : Pdu) (eTag : Int) (block : Block)
    (hcb : L.CheckBlock env pdu = ({ isMoreBlock := true, eTag := some eTag, block := some block }, env0))
    (htyp : pdu.Typ = MsgType.Non) (hquery : env0.GetRequestQuery pdu.Token = none) :
    handleNotification L mid rand env none pdu = Except.ok env0 := by
  unfold handleNotification
  rw [hcb]
  simp [htyp, hquery]

theorem handleNotification_more_query (L : Lib) (mid : Nat) (rand : String) (env env0 : Env)
    (pdu : Pdu) (eTag : Int) (block : Block) (q : RequestQuery)
    (hcb : L.CheckBlock env pdu = ({ isMoreBlock := true, eTag := some eTag, block := some block }, env0))
    (htyp : pdu.Typ = MsgType.Non) (hquery : env0.GetRequestQuery pdu.Token = some q) :
    handleNotification L mid rand env none pdu =
      Except.ok (Env.Run
        { env0 with blocks :=
            Table.set (Table.delete env0.blocks (itoa eTag ++ pdu.Token)) (itoa eTag ++ rand) pdu }
        (Task.message (continuationTask L
          { Typ := pdu.Typ, Code := L.RequestGet, MessageID := mid, Token := rand, Options := [],
            Data := none, Path := L.PathString L.MITIGATION_REQUEST ++ q.Query } block eTag))) := by
  unfold handleNotification
  rw [hcb]
  simp [htyp, hquery, continuationTask, Pdu.SetPathString, Pdu.empty]

theorem handleNotification_complete (L : Lib) (mid : Nat) (rand : String) (env env0 : Env)
    (messageTask : Option MessageTask) (pdu : Pdu) (cb : BlockCheck)
    (hcb : L.CheckBlock env pdu = (cb, env0))
    (hcomplete : cb.isMoreBlock = false ∨ pdu.Typ ≠ MsgType.Non) :
    (∀ (eTag : Int) (block : Block) (buf : Pdu), cb.eTag = some eTag → cb.block = some block →
      block.NUM > 0 → env0.GetBlockData (itoa eTag ++ pdu.Token) = some buf →
      handleNotification L mid rand env messageTask pdu =
        Except.ok (logNotification L
          { env0 with blocks := Table.delete env0.blocks (itoa eTag ++ pdu.Token) }
          messageTask buf)) ∧
    (∀ block : Block, cb.block = some block → ¬ block.NUM > 0 →
      handleNotification L mid rand env messageTask pdu =
        Except.ok (logNotification L env0 messageTask pdu)) := by
  have hcond : (!cb.isMoreBlock || decide (pdu.Typ ≠ MsgType.Non)) = true := by
    rcases hcomplete with h | h <;> simp [h]
  constructor
  · intro eTag block buf he hb hnum hbuf
    unfold handleNotification
    rw [hcb]
    simp only [hcond, he, hb, hnum, hbuf, if_true]
  · intro block hb hnum
    unfold handleNotification
    rw [hcb]
    simp only [hcond, hb, hnum, if_true, if_false]
    cases cb.eTag <;> rfl


theorem handleResponseBlock_more (L : Lib) (mid : Nat) (r : Request) (task : MessageTask)
    (response : Pdu) (env env0 : Env) (eTag : Int) (block : Block) (p : Pdu)
    (o : Table MsgOption String)
    (hcb : L.CheckBlock env response
      = ({ isMoreBlock := true, eTag := some eTag, block := some block }, env0))
    (hpdu : r.pdu = some p) (hopt : r.options = some o) :
    handleResponseBlock L mid r task response env =
      Except.ok
        ({ r with
            pdu := some (continuationRequest L p mid block eTag),
            options := some (Table.set o MsgOption.BLOCK2 (L.BlockToString block)) },
         { task with message := continuationRequest L p mid block eTag },
         response,
         env0.Run (Task.message { task with message := continuationRequest L p mid block eTag })) := by
  unfold handleResponseBlock
  rw [hcb]
  simp [hpdu, hopt, continuationRequest]

theorem handleResponseBlock_complete (L : Lib) (mid : Nat) (r : Request) (task : MessageTask)
    (response : Pdu) (env env0 : Env) (cb : BlockCheck)
    (hcb : L.CheckBlock env response = (cb, env0)) (hmore : cb.isMoreBlock = false) :
    (∀ (eTag : Int) (block : Block) (buf : Pdu), cb.eTag = some eTag → cb.block = some block →
      block.NUM > 0 → env0.GetBlockData (itoa eTag ++ response.Token) = some buf →
      handleResponseBlock L mid r task response env =
        Except.ok (r, task, buf,
          if buf.Code ≠ 0 then
            Env.AddResponse
              { env0 with blocks := Table.delete env0.blocks (itoa eTag ++ response.Token) } task buf
          else { env0 with blocks := Table.delete env0.blocks (itoa eTag ++ response.Token) })) ∧
    (∀ block : Block, cb.block = some block → ¬ block.NUM > 0 →
      handleResponseBlock L mid r task response env =
        Except.ok (r, task, response,
          if response.Code ≠ 0 then env0.AddResponse task response else env0)) := by
  constructor
  · intro eTag block buf he hb hnum hbuf
    unfold handleResponseBlock
    rw [hcb]
    simp only [hmore, he, hb, hnum, hbuf, if_true]
    rfl
  · intro block hb hnum
    unfold handleResponseBlock
    rw [hcb]
    simp only [hmore, hb, hnum, if_false]
    cases cb.eTag <;> rfl

theorem logNotification_frame (L : Lib) (env : Env) (task : Option MessageTask) (pdu : Pdu) :
    (logNotification L env task pdu).blocks = env.blocks ∧
    deliveries (logNotification L env task pdu) = deliveries env ++ [Event.logNotification pdu] ∧
    messageRuns (logNotification L env task pdu) = messageRuns env := by
  have hbase : ∀ e : Env, e = { env with events := env.events ++ [Event.logNotification pdu] } →
      e.blocks = env.blocks ∧ deliveries e = deliveries env ++ [Event.logNotification pdu] ∧
      messageRuns e = messageRuns env := by
    intro e he
    subst he
    simp [deliveries, messageRuns]
  have h0 := hbase _ rfl
  unfold logNotification
  dsimp only
  split
  · exact h0
  · split
    · exact h0
    · split
      · exact h0
      · split
        · exact ⟨h0.1, h0.2.1, h0.2.2⟩
        · split
          · have h1 := RestartPingTask_frame L pdu
              { env with events := env.events ++ [Event.logNotification pdu] }
            split
            · next sessionTask _ =>
              have h2 := RefreshSessionConfig_frame L pdu
                (RestartPingTask L pdu
                  { env with events := env.events ++ [Event.logNotification pdu] })
                sessionTask.message
              exact ⟨(h2.1.trans h1.1).trans h0.1,
                (h2.2.2.2.2.2.1.trans h1.2.2.2.2.2.1).trans h0.2.1,
                (h2.2.2.2.2.2.2.trans h1.2.2.2.2.2.2.1).trans h0.2.2⟩
            · exact ⟨h1.1.trans h0.1, h1.2.2.2.2.2.1.trans h0.2.1,
                h1.2.2.2.2.2.2.1.trans h0.2.2⟩
          · exact h0


theorem Run_message_frame (env : Env) (t : MessageTask) :
    (env.Run (Task.message t)).blocks = env.blocks ∧
    deliveries (env.Run (Task.message t)) = deliveries env ∧
    messageRuns (env.Run (Task.message t)) = messageRuns env ++ [t] ∧
    (env.Run (Task.message t)).events = env.events ++ [Event.run (Task.message t)] := by
  simp [Env.Run, deliveries, messageRuns]

theorem AddResponse_frame (env : Env) (t : MessageTask) (p : Pdu) :
    (env.AddResponse t p).blocks = env.blocks ∧
    deliveries (env.AddResponse t p) = deliveries env ++ [Event.addResponse t p] := by
  simp [Env.AddResponse, deliveries]

/-- The continuing paths for an incoming message on which the fragmentation
check reports more fragments pending (fragment tag and descriptor present):
`handleResponse`, for a request that has a message and an option map, delivers
nothing, leaves the fragment buffer untouched and runs the task again with the
follow-up request under the same token, whatever the message type;
`handleNotification` continues for a non-confirmable message: with an
originating task it delivers nothing, leaves the buffer untouched and runs one
follow-up task; without one but with a stored query it delivers nothing, runs
one follow-up task under the new token and only moves the first fragment to the
new key; with neither it does nothing at all. -/
theorem more_fragments_continuation (L : Lib) (mid : Nat) (rand : String) (r : Request)
    (task : MessageTask) (msg : Pdu) (env env0 : Env) (eTag : Int) (block : Block)
    (hcb : L.CheckBlock env msg
      = ({ isMoreBlock := true, eTag := some eTag, block := some block }, env0)) :
    (∀ (p : Pdu) (o : Table MsgOption String), r.pdu = some p → r.options = some o →
      ∃ (r1 : Request) (env2 : Env),
        handleResponse L mid r task msg env
          = Except.ok (r1, { task with message := continuationRequest L p mid block eTag }, env2) ∧
        deliveries env2 = deliveries env0 ∧ env2.blocks = env0.blocks ∧
        messageRuns env2
          = messageRuns env0 ++ [{ task with message := continuationRequest L p mid block eTag }] ∧
        (continuationRequest L p mid block eTag).Token = p.Token) ∧
    (msg.Typ = MsgType.Non →
      (∀ t : MessageTask, ∃ env2 : Env,
        handleNotification L mid rand env (some t) msg = Except.ok env2 ∧
        deliveries env2 = deliveries env0 ∧ env2.blocks = env0.blocks ∧
        messageRuns env2 = messageRuns env0 ++ [continuationTask L t.message block eTag]) ∧
      (∀ q : RequestQuery, env0.GetRequestQuery msg.Token = some q →
        ∃ (env2 : Env) (req : Pdu),
          handleNotification L mid rand env none msg = Except.ok env2 ∧
          deliveries env2 = deliveries env0 ∧
          messageRuns env2 = messageRuns env0 ++ [continuationTask L req block eTag] ∧
          req.Token = rand ∧
          Table.get env2.blocks (itoa eTag ++ rand) = some msg ∧
          (∀ k : String, k ≠ itoa eTag ++ msg.Token → k ≠ itoa eTag ++ rand →
            Table.get env2.blocks k = Table.get env0.blocks k)) ∧
      (env0.GetRequestQuery msg.Token = none →
        handleNotification L mid rand env none msg = Except.ok env0)) := by
  refine ⟨?_, ?_⟩
  · intro p o hp ho
    have hb := handleResponseBlock_more L mid r task msg env env0 eTag block p o hcb hp ho
    have hs := handleResponseSession_frame L
      { r with pdu := some (continuationRequest L p mid block eTag),
               options := some (Table.set o MsgOption.BLOCK2 (L.BlockToString block)) }
      msg (env0.Run (Task.message { task with message := continuationRequest L p mid block eTag }))
    have hr := Run_message_frame env0 { task with message := continuationRequest L p mid block eTag }
    have hres : handleResponse L mid r task msg env = Except.ok
        ({ r with pdu := some (continuationRequest L p mid block eTag),
                  options := some (Table.set o MsgOption.BLOCK2 (L.BlockToString block)) },
         { task with message := continuationRequest L p mid block eTag },
         handleResponseSession L
          { r with pdu := some (continuationRequest L p mid block eTag),
                   options := some (Table.set o MsgOption.BLOCK2 (L.BlockToString block)) }
          msg (env0.Run (Task.message
            { task with message := continuationRequest L p mid block eTag }))) := by
      unfold handleResponse
      rw [hb]
    exact ⟨_, _, hres, hs.2.2.2.1.trans hr.2.1, hs.1.trans hr.1, hs.2.2.2.2.trans hr.2.2.1, rfl⟩
  · intro htyp
    refine ⟨?_, ?_, ?_⟩
    · intro t
      have hr := Run_message_frame env0 (continuationTask L t.message block eTag)
      exact ⟨_, handleNotification_more_task L mid rand env env0 t msg eTag block hcb htyp,
        hr.2.1, hr.1, hr.2.2.1⟩
    · intro q hq
      have hr := Run_message_frame
        { env0 with blocks :=
            Table.set (Table.delete env0.blocks (itoa eTag ++ msg.Token)) (itoa eTag ++ rand) msg }
        (continuationTask L
          { Typ := msg.Typ, Code := L.RequestGet, MessageID := mid, Token := rand, Options := [],
            Data := none, Path := L.PathString L.MITIGATION_REQUEST ++ q.Query } block eTag)
      refine ⟨_, _, handleNotification_more_query L mid rand env env0 msg eTag block q hcb htyp hq,
        hr.2.1, hr.2.2.1, rfl, ?_, ?_⟩
      · rw [hr.1]
        exact Table.get_set_self _ _ _
      · intro k hk1 hk2
        rw [hr.1]
        show Table.get (Table.set (Table.delete env0.blocks (itoa eTag ++ msg.Token))
          (itoa eTag ++ rand) msg) k = Table.get env0.blocks k
        rw [Table.get_set_of_ne _ _ hk2, Table.get_delete_of_ne _ hk1]
    · intro hq
      exact handleNotification_more_none L mid rand env env0 msg eTag block hcb htyp hq

/-- The continuing paths at a concrete input: a non-confirmable first fragment
with tag 5; `handleResponse` runs the task again under the token `tokenAAA`, and
`handleNotification` without task or stored query does nothing. -/
theorem more_fragments_continuation_witness :
    (∃ (r1 : Request) (env2 : Env),
      handleResponse (sampleLibWith sampleMore) 9
        (CreateRequest sampleLib 1 "tokenAAA" (sampleRequest "mitigation_request" "GET" "" ["q"])
          (sampleEnv [] [])).1
        sampleTask (sampleResponse 69 "" (some "part")) (sampleEnv [] [])
        = Except.ok (r1,
            { sampleTask with
              message := (continuationRequest (sampleLibWith sampleMore) sampleGet 9
                { NUM := 1, M := 0, SZX := 2 } 5) }, env2) ∧
      deliveries env2 = deliveries (sampleEnv [] []) ∧ env2.blocks = (sampleEnv [] []).blocks ∧
      messageRuns env2 = messageRuns (sampleEnv [] []) ++
        [{ sampleTask with
           message := (continuationRequest (sampleLibWith sampleMore) sampleGet 9
             { NUM := 1, M := 0, SZX := 2 } 5) }] ∧
      (continuationRequest (sampleLibWith sampleMore) sampleGet 9
        { NUM := 1, M := 0, SZX := 2 } 5).Token = sampleGet.Token) ∧
    handleNotification (sampleLibWith sampleMore) 9 "tokenNEW" (sampleEnv [] []) none
      (sampleResponse 69 "" (some "part")) = Except.ok (sampleEnv [] []) :=
  ⟨(more_fragments_continuation (sampleLibWith sampleMore) 9 "tokenNEW"
      (CreateRequest sampleLib 1 "tokenAAA" (sampleRequest "mitigation_request" "GET" "" ["q"])
        (sampleEnv [] [])).1
      sampleTask (sampleResponse 69 "" (some "part")) (sampleEnv [] []) (sampleEnv [] []) 5
      { NUM := 1, M := 0, SZX := 2 } rfl).1 sampleGet _ rfl rfl,
   ((more_fragments_continuation (sampleLibWith sampleMore) 9 "tokenNEW"
      (CreateRequest sampleLib 1 "tokenAAA" (sampleRequest "mitigation_request" "GET" "" ["q"])
        (sampleEnv [] [])).1
      sampleTask (sampleResponse 69 "" (some "part")) (sampleEnv [] []) (sampleEnv [] []) 5
      { NUM := 1, M := 0, SZX := 2 } rfl).2 rfl).2.2 rfl⟩

/-- C5, the code against the claim: `handleNotification` treats a message that is
not non-confirmable as complete although the fragmentation check reports more
fragments pending.  With a positive fragment number and a payload buffered under
the key of tag and token, that payload is looked up, removed from the buffer and
delivered to `logNotification`; with fragment number zero the incoming message
itself is delivered; in both cases no continuation request is issued. -/
theorem handleNotification_confirmable_more_fragments (L : Lib) (mid : Nat) (rand : String)
    (env env0 : Env) (messageTask : Option MessageTask) (pdu : Pdu) (eTag : Int) (block : Block)
    (hcb : L.CheckBlock env pdu
      = ({ isMoreBlock := true, eTag := some eTag, block := some block }, env0))
    (htyp : pdu.Typ ≠ MsgType.Non) :
    (∀ buf : Pdu, block.NUM > 0 → env0.GetBlockData (itoa eTag ++ pdu.Token) = some buf →
      ∃ env2 : Env,
        handleNotification L mid rand env messageTask pdu = Except.ok env2 ∧
        deliveries env2 = deliveries env0 ++ [Event.logNotification buf] ∧
        Table.get env2.blocks (itoa eTag ++ pdu.Token) = none ∧
        messageRuns env2 = messageRuns env0) ∧
    (¬ block.NUM > 0 →
      ∃ env2 : Env,
        handleNotification L mid rand env messageTask pdu = Except.ok env2 ∧
        deliveries env2 = deliveries env0 ++ [Event.logNotification pdu] ∧
        env2.blocks = env0.blocks ∧
        messageRuns env2 = messageRuns env0) := by
  have hc := handleNotification_complete L mid rand env env0 messageTask pdu
    { isMoreBlock := true, eTag := some eTag, block := some block } hcb (Or.inr htyp)
  constructor
  · intro buf hnum hbuf
    have hf := logNotification_frame L
      { env0 with blocks := Table.delete env0.blocks (itoa eTag ++ pdu.Token) } messageTask buf
    refine ⟨_, hc.1 eTag block buf rfl rfl hnum hbuf, hf.2.1, ?_, hf.2.2⟩
    rw [hf.1]
    exact Table.get_delete_self _ _
  · intro hnum
    have hf := logNotification_frame L env0 messageTask pdu
    exact ⟨_, hc.2 block rfl hnum, hf.2.1, hf.1, hf.2.2⟩

/-- C5 at the failing input: a confirmable message with token `tokenAAA` on which
the fragmentation check reports more fragments pending (tag 5, next fragment 1),
while the first fragment is buffered under `5tokenAAA` and a query is stored for
the token: the buffered fragment is removed and logged, and no follow-up task is
run. -/
theorem handleNotification_confirmable_more_fragments_witness :
    ∃ env2 : Env,
      handleNotification (sampleLibWith sampleMore) 9 "tokenNEW"
        (sampleEnv [("tokenAAA", ⟨"/q", none⟩)]
          [("5tokenAAA", sampleResponse 69 "" (some "first"))])
        none { sampleResponse 69 "" (some "part") with Typ := MsgType.Con } = Except.ok env2 ∧
      deliveries env2 = deliveries (sampleEnv [("tokenAAA", ⟨"/q", none⟩)]
          [("5tokenAAA", sampleResponse 69 "" (some "first"))])
        ++ [Event.logNotification (sampleResponse 69 "" (some "first"))] ∧
      Table.get env2.blocks (itoa 5 ++ "tokenAAA") = none ∧
      messageRuns env2 = messageRuns (sampleEnv [("tokenAAA", ⟨"/q", none⟩)]
          [("5tokenAAA", sampleResponse 69 "" (some "first"))]) :=
  (handleNotification_confirmable_more_fragments (sampleLibWith sampleMore) 9 "tokenNEW"
    (sampleEnv [("tokenAAA", ⟨"/q", none⟩)] [("5tokenAAA", sampleResponse 69 "" (some "first"))])
    (sampleEnv [("tokenAAA", ⟨"/q", none⟩)] [("5tokenAAA", sampleResponse 69 "" (some "first"))])
    none { sampleResponse 69 "" (some "part") with Typ := MsgType.Con } 5
    { NUM := 1, M := 0, SZX := 2 } rfl (by decide)).1
    (sampleResponse 69 "" (some "first")) (by decide) (by decide)


/-- C6 (as amended): for a message on which the fragmentation check reports no
more fragments (descriptor present).  If the fragment number is positive, the
fragment tag is present and a payload is buffered under the key of tag and
token: `handleNotification` delivers the buffered payload to `logNotification`,
`handleResponse` delivers it with `AddResponse` when its code is not zero, and
in both the buffer afterwards has no entry under that key and every other entry
unchanged.  If the fragment number is zero: `handleNotification` delivers the
incoming message itself, `handleResponse` delivers it when its code is not zero,
and the buffer is unchanged. -/
theorem final_fragment_delivery (L : Lib) (mid : Nat) (rand : String) (r : Request)
    (task : MessageTask) (messageTask : Option MessageTask) (msg : Pdu) (env env0 : Env)
    (eTag : Option Int) (block : Block)
    (hcb : L.CheckBlock env msg
      = ({ isMoreBlock := false, eTag := eTag, block := some block }, env0)) :
    (∀ (e : Int) (buf : Pdu), eTag = some e → block.NUM > 0 →
      env0.GetBlockData (itoa e ++ msg.Token) = some buf →
      (∃ env2 : Env,
        handleResponse L mid r task msg env = Except.ok (r, task, env2) ∧
        deliveries env2
          = deliveries env0 ++ (if buf.Code ≠ 0 then [Event.addResponse task buf] else []) ∧
        Table.get env2.blocks (itoa e ++ msg.Token) = none ∧
        (∀ k : String, k ≠ itoa e ++ msg.Token →
          Table.get env2.blocks k = Table.get env0.blocks k)) ∧
      (∃ env2 : Env,
        handleNotification L mid rand env messageTask msg = Except.ok env2 ∧
        deliveries env2 = deliveries env0 ++ [Event.logNotification buf] ∧
        Table.get env2.blocks (itoa e ++ msg.Token) = none ∧
        (∀ k : String, k ≠ itoa e ++ msg.Token →
          Table.get env2.blocks k = Table.get env0.blocks k))) ∧
    (block.NUM = 0 →
      (∃ env2 : Env,
        handleResponse L mid r task msg env = Except.ok (r, task, env2) ∧
        deliveries env2
          = deliveries env0 ++ (if msg.Code ≠ 0 then [Event.addResponse task msg] else []) ∧
        env2.blocks = env0.blocks) ∧
      (∃ env2 : Env,
        handleNotification L mid rand env messageTask msg = Except.ok env2 ∧
        deliveries env2 = deliveries env0 ++ [Event.logNotification msg] ∧
        env2.blocks = env0.blocks)) := by
  have hR := handleResponseBlock_complete L mid r task msg env env0 _ hcb rfl
  have hN := handleNotification_complete L mid rand env env0 messageTask msg _ hcb (Or.inl rfl)
  refine ⟨?_, ?_⟩
  · intro e buf he hnum hbuf
    refine ⟨?_, ?_⟩
    · have hb := hR.1 e block buf he rfl hnum hbuf
      have hres : handleResponse L mid r task msg env = Except.ok (r, task,
          handleResponseSession L r buf
            (if buf.Code ≠ 0 then
              Env.AddResponse
                { env0 with blocks := Table.delete env0.blocks (itoa e ++ msg.Token) } task buf
            else { env0 with blocks := Table.delete env0.blocks (itoa e ++ msg.Token) })) := by
        unfold handleResponse
        rw [hb]
      have hs := handleResponseSession_frame L r buf
        (if buf.Code ≠ 0 then
          Env.AddResponse
            { env0 with blocks := Table.delete env0.blocks (itoa e ++ msg.Token) } task buf
        else { env0 with blocks := Table.delete env0.blocks (itoa e ++ msg.Token) })
      refine ⟨_, hres, ?_, ?_, ?_⟩
      · rw [hs.2.2.2.1]
        by_cases hc : buf.Code ≠ 0
        · rw [if_pos hc, if_pos hc]
          exact (AddResponse_frame _ task buf).2
        · rw [if_neg hc, if_neg hc, List.append_nil]
          rfl
      · rw [hs.1]
        by_cases hc : buf.Code ≠ 0
        · rw [if_pos hc]
          exact Table.get_delete_self _ _
        · rw [if_neg hc]
          exact Table.get_delete_self _ _
      · intro k hk
        rw [hs.1]
        by_cases hc : buf.Code ≠ 0
        · rw [if_pos hc]
          exact Table.get_delete_of_ne _ hk
        · rw [if_neg hc]
          exact Table.get_delete_of_ne _ hk
    · have hn := hN.1 e block buf he rfl hnum hbuf
      have hl := logNotification_frame L
        { env0 with blocks := Table.delete env0.blocks (itoa e ++ msg.Token) } messageTask buf
      refine ⟨_, hn, hl.2.1, ?_, ?_⟩
      · rw [hl.1]
        exact Table.get_delete_self _ _
      · intro k hk
        rw [hl.1]
        exact Table.get_delete_of_ne _ hk
  · intro hnum
    have hnum2 : ¬ block.NUM > 0 := by omega
    refine ⟨?_, ?_⟩
    · have hb := hR.2 block rfl hnum2
      have hres : handleResponse L mid r task msg env = Except.ok (r, task,
          handleResponseSession L r msg
            (if msg.Code ≠ 0 then env0.AddResponse task msg else env0)) := by
        unfold handleResponse
        rw [hb]
      have hs := handleResponseSession_frame L r msg
        (if msg.Code ≠ 0 then env0.AddResponse task msg else env0)
      refine ⟨_, hres, ?_, ?_⟩
      · rw [hs.2.2.2.1]
        by_cases hc : msg.Code ≠ 0
        · rw [if_pos hc, if_pos hc]
          exact (AddResponse_frame _ task msg).2
        · rw [if_neg hc, if_neg hc, List.append_nil]
      · rw [hs.1]
        by_cases hc : msg.Code ≠ 0
        · rw [if_pos hc]
          rfl
        · rw [if_neg hc]
    · have hn := hN.2 block rfl hnum2
      have hl := logNotification_frame L env0 messageTask msg
      exact ⟨_, hn, hl.2.1, hl.1⟩

/-- C6 (as amended), at a concrete input: the final fragment 2 of tag 5 with a
payload buffered under `5tokenAAA`, handled by `handleResponse`. -/
theorem final_fragment_delivery_witness :
    ∃ env2 : Env,
      handleResponse (sampleLibWith (sampleLast 2)) 9
        (sampleRequest "mitigation_request" "GET" "" ["q"]) sampleTask
        (sampleResponse 69 "" (some "last"))
        (sampleEnv [] [("5tokenAAA", sampleResponse 69 "" (some "whole")), ("7x", sampleGet)])
        = Except.ok (sampleRequest "mitigation_request" "GET" "" ["q"], sampleTask, env2) ∧
      deliveries env2
        = deliveries (sampleEnv []
            [("5tokenAAA", sampleResponse 69 "" (some "whole")), ("7x", sampleGet)]) ++
          (if (sampleResponse 69 "" (some "whole")).Code ≠ 0
            then [Event.addResponse sampleTask (sampleResponse 69 "" (some "whole"))] else []) ∧
      Table.get env2.blocks (itoa 5 ++ (sampleResponse 69 "" (some "last")).Token) = none ∧
      (∀ k : String, k ≠ itoa 5 ++ (sampleResponse 69 "" (some "last")).Token →
        Table.get env2.blocks k
          = Table.get (sampleEnv []
              [("5tokenAAA", sampleResponse 69 "" (some "whole")), ("7x", sampleGet)]).blocks k) :=
  ((final_fragment_delivery (sampleLibWith (sampleLast 2)) 9 "tokenNEW"
    (sampleRequest "mitigation_request" "GET" "" ["q"]) sampleTask none
    (sampleResponse 69 "" (some "last"))
    (sampleEnv [] [("5tokenAAA", sampleResponse 69 "" (some "whole")), ("7x", sampleGet)])
    (sampleEnv [] [("5tokenAAA", sampleResponse 69 "" (some "whole")), ("7x", sampleGet)])
    (some 5) { NUM := 2, M := 0, SZX := 2 } rfl).1 5 (sampleResponse 69 "" (some "whole"))
    rfl (by decide) (by decide)).1

/-- C6 as stated fails: an unfragmented response (fragment number zero, no more
fragments) whose code is zero is not delivered by `handleResponse`: no
`AddResponse` is made. -/
theorem final_fragment_delivery_counterexample :
    ∃ env2 : Env,
      handleResponse (sampleLibWith (sampleLast 0)) 9
        (sampleRequest "mitigation_request" "GET" "" ["q"]) sampleTask
        (sampleResponse 0 "" none) (sampleEnv [] [])
        = Except.ok (sampleRequest "mitigation_request" "GET" "" ["q"], sampleTask, env2) ∧
      deliveries env2 = [] ∧ env2.events = [] :=
  ⟨_, rfl, by decide, by decide⟩


/-- C7 (as amended): for a non-confirmable notification handled by
`handleNotification` with no originating task, more fragments pending (descriptor and fragment tag present), a
stored `RequestQuery` for its token, and a newly allocated token different from
the notification's: the follow-up request is a GET of the notification's message
type whose path is the mitigation-request path followed by the stored query
string and whose token is the new one; afterwards the fragment buffer maps the
key of tag and new token to the received fragment, has no entry under the key
of tag and old token, and is unchanged elsewhere; and exactly one event, the
run of the follow-up task, has been added. -/
theorem handleNotification_first_fragment (L : Lib) (mid : Nat) (rand : String)
    (env env0 : Env) (pdu : Pdu) (eTag : Int) (block : Block) (q : RequestQuery)
    (hcb : L.CheckBlock env pdu
      = ({ isMoreBlock := true, eTag := some eTag, block := some block }, env0))
    (htyp : pdu.Typ = MsgType.Non)
    (hquery : env0.GetRequestQuery pdu.Token = some q)
    (hfresh : rand ≠ pdu.Token) :
    ∃ (env2 : Env) (req : Pdu),
      handleNotification L mid rand env none pdu = Except.ok env2 ∧
      req.Code = L.RequestGet ∧ req.Typ = pdu.Typ ∧
      req.Path = L.PathString L.MITIGATION_REQUEST ++ q.Query ∧
      req.Token = rand ∧
      Table.get env2.blocks (itoa eTag ++ rand) = some pdu ∧
      Table.get env2.blocks (itoa eTag ++ pdu.Token) = none ∧
      (∀ k : String, k ≠ itoa eTag ++ pdu.Token → k ≠ itoa eTag ++ rand →
        Table.get env2.blocks k = Table.get env0.blocks k) ∧
      env2.events = env0.events ++ [Event.run (Task.message (continuationTask L req block eTag))] ∧
      messageRuns env2 = messageRuns env0 ++ [continuationTask L req block eTag] ∧
      (continuationTask L req block eTag).message.Token = rand ∧
      (continuationTask L req block eTag).message.Code = L.RequestGet ∧
      (continuationTask L req block eTag).message.Path
        = L.PathString L.MITIGATION_REQUEST ++ q.Query := by
  have hr := Run_message_frame
    { env0 with blocks :=
        Table.set (Table.delete env0.blocks (itoa eTag ++ pdu.Token)) (itoa eTag ++ rand) pdu }
    (continuationTask L
      { Typ := pdu.Typ, Code := L.RequestGet, MessageID := mid, Token := rand, Options := [],
        Data := none, Path := L.PathString L.MITIGATION_REQUEST ++ q.Query } block eTag)
  have hkey : itoa eTag ++ pdu.Token ≠ itoa eTag ++ rand := fun h =>
    hfresh (append_left_cancel _ _ _ h).symm
  refine ⟨_,
    { Typ := pdu.Typ, Code := L.RequestGet, MessageID := mid, Token := rand, Options := [],
      Data := none, Path := L.PathString L.MITIGATION_REQUEST ++ q.Query },
    handleNotification_more_query L mid rand env env0 pdu eTag block q hcb htyp hquery,
    rfl, rfl, rfl, rfl, ?_, ?_, ?_, hr.2.2.2, hr.2.2.1, rfl, rfl, rfl⟩
  · rw [hr.1]
    exact Table.get_set_self _ _ _
  · rw [hr.1]
    show Table.get (Table.set (Table.delete env0.blocks (itoa eTag ++ pdu.Token))
      (itoa eTag ++ rand) pdu) (itoa eTag ++ pdu.Token) = none
    rw [Table.get_set_of_ne _ _ hkey]
    exact Table.get_delete_self _ _
  · intro k hk1 hk2
    rw [hr.1]
    show Table.get (Table.set (Table.delete env0.blocks (itoa eTag ++ pdu.Token))
      (itoa eTag ++ rand) pdu) k = Table.get env0.blocks k
    rw [Table.get_set_of_ne _ _ hk2, Table.get_delete_of_ne _ hk1]

/-- C7 (as amended), at a concrete input: a non-confirmable first fragment of tag 5 for the
subscription `tokenAAA` with the stored query `/q`, and the new token `tokenNEW`. -/
theorem handleNotification_first_fragment_witness :
    ∃ (env2 : Env) (req : Pdu),
      handleNotification (sampleLibWith sampleMore) 9 "tokenNEW"
        (sampleEnv [("tokenAAA", ⟨"/q", none⟩)]
          [("5tokenAAA", sampleResponse 69 "" (some "part"))])
        none (sampleResponse 69 "" (some "part")) = Except.ok env2 ∧
      req.Code = (sampleLibWith sampleMore).RequestGet ∧
      req.Typ = (sampleResponse 69 "" (some "part")).Typ ∧
      req.Path = (sampleLibWith sampleMore).PathString (sampleLibWith sampleMore).MITIGATION_REQUEST
        ++ (RequestQuery.mk "/q" none).Query ∧
      req.Token = "tokenNEW" ∧
      Table.get env2.blocks (itoa 5 ++ "tokenNEW") = some (sampleResponse 69 "" (some "part")) ∧
      Table.get env2.blocks (itoa 5 ++ (sampleResponse 69 "" (some "part")).Token) = none ∧
      (∀ k : String, k ≠ itoa 5 ++ (sampleResponse 69 "" (some "part")).Token →
        k ≠ itoa 5 ++ "tokenNEW" →
        Table.get env2.blocks k
          = Table.get (sampleEnv [("tokenAAA", ⟨"/q", none⟩)]
              [("5tokenAAA", sampleResponse 69 "" (some "part"))]).blocks k) ∧
      env2.events = (sampleEnv [("tokenAAA", ⟨"/q", none⟩)]
          [("5tokenAAA", sampleResponse 69 "" (some "part"))]).events ++
        [Event.run (Task.message (continuationTask (sampleLibWith sampleMore) req
          { NUM := 1, M := 0, SZX := 2 } 5))] ∧
      messageRuns env2 = messageRuns (sampleEnv [("tokenAAA", ⟨"/q", none⟩)]
          [("5tokenAAA", sampleResponse 69 "" (some "part"))]) ++
        [continuationTask (sampleLibWith sampleMore) req { NUM := 1, M := 0, SZX := 2 } 5] ∧
      (continuationTask (sampleLibWith sampleMore) req
        { NUM := 1, M := 0, SZX := 2 } 5).message.Token = "tokenNEW" ∧
      (continuationTask (sampleLibWith sampleMore) req
        { NUM := 1, M := 0, SZX := 2 } 5).message.Code = (sampleLibWith sampleMore).RequestGet ∧
      (continuationTask (sampleLibWith sampleMore) req
        { NUM := 1, M := 0, SZX := 2 } 5).message.Path
        = (sampleLibWith sampleMore).PathString (sampleLibWith sampleMore).MITIGATION_REQUEST
          ++ (RequestQuery.mk "/q" none).Query :=
  handleNotification_first_fragment (sampleLibWith sampleMore) 9 "tokenNEW"
    (sampleEnv [("tokenAAA", ⟨"/q", none⟩)] [("5tokenAAA", sampleResponse 69 "" (some "part"))])
    (sampleEnv [("tokenAAA", ⟨"/q", none⟩)] [("5tokenAAA", sampleResponse 69 "" (some "part"))])
    (sampleResponse 69 "" (some "part")) 5 { NUM := 1, M := 0, SZX := 2 } ⟨"/q", none⟩
    rfl rfl (by decide) (by decide)

/-- C7 as stated fails when the token drawn for the follow-up request equals the
notification's token: the key of tag and new token is then the key of tag and
old token, and after `handleNotification` the fragment buffer still holds the
received fragment under the key of (fragmentTag, oldToken). -/
theorem handleNotification_first_fragment_counterexample :
    ∃ env2 : Env,
      handleNotification (sampleLibWith sampleMore) 9 "tokenAAA"
        (sampleEnv [("tokenAAA", ⟨"/q", none⟩)]
          [("5tokenAAA", sampleResponse 69 "" (some "part"))])
        none (sampleResponse 69 "" (some "part")) = Except.ok env2 ∧
      (sampleResponse 69 "" (some "part")).Typ = MsgType.Non ∧
      messageRuns env2 = [continuationTask (sampleLibWith sampleMore)
        { Typ := MsgType.Non, Code := 1, MessageID := 9, Token := "tokenAAA", Options := [],
          Data := none, Path := ".well-known/dots/mitigate/q" } { NUM := 1, M := 0, SZX := 2 } 5] ∧
      Table.get env2.blocks (itoa 5 ++ (sampleResponse 69 "" (some "part")).Token)
        = some (sampleResponse 69 "" (some "part")) :=
  ⟨_, rfl, rfl, by decide, by decide⟩


/-! ## The subscription table keeps one token per query string -/

theorem createObserve_env_cases (L : Lib) (r : Request) (pdu : Pdu) (env : Env) :
    (createObserve L r pdu env).2 = env ∨
    (env.GetTokenAndRequestQuery (L.QueryParamsToString r.queryParams) = none ∧
      ∃ tok : String, (createObserve L r pdu env).2 = env.AddRequestQuery tok
        { Query := L.QueryParamsToString r.queryParams, CountMitigation := none }) ∨
    ∃ tok : String, (createObserve L r pdu env).2 = env.RemoveRequestQuery tok := by
  unfold createObserve
  dsimp only
  split
  · split
    · exact Or.inl rfl
    · split
      · split
        · split
          · exact Or.inl rfl
          · next hnone =>
            refine Or.inr (Or.inl ⟨?_, _, rfl⟩)
            cases hfind : env.GetTokenAndRequestQuery (L.QueryParamsToString r.queryParams) with
            | none => rfl
            | some e => rw [hfind] at hnone; exact Option.noConfusion hnone
        · split
          · exact Or.inr (Or.inr ⟨_, rfl⟩)
          · exact Or.inl rfl
      · exact Or.inl rfl
  · exact Or.inl rfl

theorem filter_delete_length_le (t : Table String RequestQuery) (k q : String) :
    ((Table.delete t k).filter (fun e => decide (e.2.Query = q))).length
      ≤ (t.filter (fun e => decide (e.2.Query = q))).length :=
  (List.Sublist.filter _ (List.filter_sublist t)).length_le

/-- The empty subscription table has one token per query string, and
`CreateRequest` keeps it so. -/
theorem CreateRequest_preserves_UniqueQueries (L : Lib) (mid : Nat) (rand : String)
    (r : Request) (env : Env) (h : UniqueQueries env) :
    UniqueQueries (CreateRequest L mid rand r env).2 := by
  rw [CreateRequest_env]
  intro q
  rcases createObserve_env_cases L r
    { Pdu.empty with Typ := r.coapType, Code := methodCode L r.method, MessageID := mid,
                     Token := rand, Options := [] } env with h1 | ⟨hnone, tok, h1⟩ | ⟨tok, h1⟩
  · rw [h1]
    exact h q
  · rw [h1]
    simp only [Env.AddRequestQuery, Table.set, List.filter_cons]
    by_cases hq : L.QueryParamsToString r.queryParams = q
    · subst hq
      simp only [decide_True, if_true, List.length_cons]
      rw [filter_query_delete_of_find_none tok hnone]
      exact Nat.le_refl 1
    · simp only [hq, decide_False, Bool.false_eq_true, if_false]
      exact Nat.le_trans (filter_delete_length_le _ tok q) (h q)
  · rw [h1]
    exact Nat.le_trans (filter_delete_length_le _ tok q) (h q)

theorem UniqueQueries_empty (blocks : Table String Pdu) : UniqueQueries (sampleEnv [] blocks) := by
  intro q
  simp [sampleEnv]


/-! ## Heartbeat timeout -/

/-- C11: when the environment reports the missed-heartbeat allowance exceeded
(`IsHeartbeatAllowed` is false), `pingTimeoutHandler` stops the heartbeat task and
then invokes the reconnection procedure exactly once; otherwise it neither stops
the heartbeat nor invokes reconnection (the environment is unchanged). -/
theorem pingTimeoutHandler_reconnects (t : PingTask) (env : Env) :
    (env.IsHeartbeatAllowed = false →
      (pingTimeoutHandler t env).events
        = env.events ++ [Event.stopPing, Event.restartConnection] ∧
      (pingTimeoutHandler t env).pingTask = none ∧
      reconnections (pingTimeoutHandler t env) = reconnections env + 1) ∧
    (env.IsHeartbeatAllowed = true →
      pingTimeoutHandler t env = env ∧
      reconnections (pingTimeoutHandler t env) = reconnections env) := by
  constructor
  · intro h
    simp [pingTimeoutHandler, h, restartConnection, Env.StopPing, reconnections]
  · intro h
    simp [pingTimeoutHandler, h]

/-- C11, at a concrete input: with 5 missed heartbeats against an allowance of 5
the handler stops the ping task and reconnects once. -/
theorem pingTimeoutHandler_reconnects_witness :
    (pingTimeoutHandler (samplePing 30)
        { sampleEnv [] [] with currentMissingHb := 5, pingTask := some (samplePing 30) }).events
      = [Event.stopPing, Event.restartConnection] ∧
    (pingTimeoutHandler (samplePing 30)
        { sampleEnv [] [] with currentMissingHb := 5, pingTask := some (samplePing 30) }).pingTask
      = none ∧
    reconnections (pingTimeoutHandler (samplePing 30)
        { sampleEnv [] [] with currentMissingHb := 5, pingTask := some (samplePing 30) })
      = reconnections
        { sampleEnv [] [] with currentMissingHb := 5, pingTask := some (samplePing 30) } + 1 :=
  (pingTimeoutHandler_reconnects (samplePing 30)
    { sampleEnv [] [] with currentMissingHb := 5, pingTask := some (samplePing 30) }).1
    (by decide)


/-! ## Decoder dispatch -/

/-- C12: for a response with a structured payload (payload present, observe
option readable, not a plain message), the data `analyzeResponseData` returns is
the payload decoded in the shape the dispatch table gives for
`(requestName, method)` and nothing else: mitigation_request with GET is the
mitigation response, with PUT the put-response, with any other method the
mitigation request; session_configuration with GET is the configuration
response, with any other method the signal-config request.  In particular a
mitigation read is decoded with the mitigation decoder whatever the
session-configuration decoder makes of the bytes. -/
theorem analyzeResponseData_dispatch (L : Lib) (r : Request) (pdu : Pdu) (env : Env)
    (bytes : String) (observe : Int)
    (hobserve : L.GetOptionIntegerValue pdu OptionKey.Observe = some observe)
    (hdata : pdu.Data = some bytes)
    (hmsg : L.IsMessageResponse pdu = false) :
    (analyzeResponseData L r (some pdu) env).1
      = (dispatchShape r.requestName r.method).bind (fun shape => decodeAs L shape bytes) ∧
    dispatchShape "mitigation_request" "GET" = some Shape.MitigationResponse ∧
    dispatchShape "mitigation_request" "PUT" = some Shape.MitigationResponsePut ∧
    (∀ method : String, method ≠ "GET" → method ≠ "PUT" →
      dispatchShape "mitigation_request" method = some Shape.MitigationRequest) ∧
    dispatchShape "session_configuration" "GET" = some Shape.ConfigurationResponse ∧
    (∀ method : String, method ≠ "GET" →
      dispatchShape "session_configuration" method = some Shape.SignalConfigRequest) ∧
    (r.requestName = "mitigation_request" → r.method = "GET" →
      (analyzeResponseData L r (some pdu) env).1
        = if (L.DecodeMitigationResponse bytes).2 then none
          else L.MarshalMitigationResponse (L.DecodeMitigationResponse bytes).1) := by
  have hmain : (analyzeResponseData L r (some pdu) env).1
      = (dispatchShape r.requestName r.method).bind (fun shape => decodeAs L shape bytes) := by
    unfold analyzeResponseData
    simp only [hobserve, hdata, hmsg, Bool.false_eq_true, if_false]
    unfold dispatchShape
    by_cases h1 : r.requestName = "mitigation_request"
    · rw [if_pos h1, if_pos h1]
      by_cases h2 : r.method = "GET"
      · rw [if_pos h2, if_pos h2, apply_ite Prod.fst]
        rfl
      · rw [if_neg h2, if_neg h2]
        by_cases h3 : r.method = "PUT"
        · rw [if_pos h3, if_pos h3, apply_ite Prod.fst]
          rfl
        · rw [if_neg h3, if_neg h3, apply_ite Prod.fst]
          rfl
    · rw [if_neg h1, if_neg h1]
      by_cases h4 : r.requestName = "session_configuration"
      · rw [if_pos h4, if_pos h4]
        by_cases h2 : r.method = "GET"
        · rw [if_pos h2, if_pos h2, apply_ite Prod.fst]
          rfl
        · rw [if_neg h2, if_neg h2, apply_ite Prod.fst]
          rfl
      · rw [if_neg h4, if_neg h4]
        rfl
  refine ⟨hmain, by decide, by decide, ?_, by decide, ?_, ?_⟩
  · intro method h1 h2
    simp [dispatchShape, h1, h2]
  · intro method h1
    have h0 : ¬ ("session_configuration" = "mitigation_request") := by decide
    simp [dispatchShape, h1, h0]
  · intro hn hm
    rw [hmain, hn, hm]
    rfl

/-- C12, at a concrete input: a mitigation read whose payload `a1181e` the
session-configuration decoder would accept too is returned in the mitigation shape. -/
theorem analyzeResponseData_dispatch_witness :
    (analyzeResponseData sampleLib (sampleRequest "mitigation_request" "GET" "" ["q"])
      (some (sampleResponse 69 "" (some "a1181e"))) (sampleEnv [] [])).1
      = if (sampleLib.DecodeMitigationResponse "a1181e").2 then none
        else sampleLib.MarshalMitigationResponse (sampleLib.DecodeMitigationResponse "a1181e").1 :=
  (analyzeResponseData_dispatch sampleLib (sampleRequest "mitigation_request" "GET" "" ["q"])
    (sampleResponse 69 "" (some "a1181e")) (sampleEnv [] []) "a1181e" (-1)
    (by decide) rfl rfl).2.2.2.2.2.2 rfl rfl


/-! ## Notification classification -/

theorem classifyNotification_cases (L : Lib) (bytes : String) :
    (classifyNotification L bytes = NotificationClass.mitigationScope ↔
      contains (L.hexDump bytes) L.IETF_MITIGATION_SCOPE_HEX = true) ∧
    (classifyNotification L bytes = NotificationClass.sessionConfiguration ↔
      contains (L.hexDump bytes) L.IETF_MITIGATION_SCOPE_HEX = false ∧
      contains (L.hexDump bytes) L.IETF_SESSION_CONFIGURATION_HEX = true) ∧
    (classifyNotification L bytes = NotificationClass.unknown ↔
      contains (L.hexDump bytes) L.IETF_MITIGATION_SCOPE_HEX = false ∧
      contains (L.hexDump bytes) L.IETF_SESSION_CONFIGURATION_HEX = false) := by
  unfold classifyNotification
  cases contains (L.hexDump bytes) L.IETF_MITIGATION_SCOPE_HEX <;>
    cases contains (L.hexDump bytes) L.IETF_SESSION_CONFIGURATION_HEX <;> simp

/-- C13: for a notification with a payload (observe option readable, not a plain
message), what `logNotification` does is fixed by the class of the payload, which
is a function of the payload bytes alone and the same for every originating task
(including none): mitigation scope when the hex dump contains the
mitigation-scope marker, otherwise session configuration when it contains the
session-configuration marker, otherwise unknown.  For mitigation scope the
mitigation count is updated and nothing else; for session configuration the
result does not depend on the task at all; for unknown nothing is decoded and
neither the heartbeat nor the refresh task nor the subscription table is touched. -/
theorem logNotification_classification (L : Lib) (env : Env) (pdu : Pdu) (bytes : String)
    (observe : Int)
    (hdata : pdu.Data = some bytes)
    (hobserve : L.GetOptionIntegerValue pdu OptionKey.Observe = some observe)
    (hmsg : L.IsMessageResponse pdu = false) :
    (classifyNotification L bytes = NotificationClass.mitigationScope ↔
      contains (L.hexDump bytes) L.IETF_MITIGATION_SCOPE_HEX = true) ∧
    (classifyNotification L bytes = NotificationClass.sessionConfiguration ↔
      contains (L.hexDump bytes) L.IETF_MITIGATION_SCOPE_HEX = false ∧
      contains (L.hexDump bytes) L.IETF_SESSION_CONFIGURATION_HEX = true) ∧
    (classifyNotification L bytes = NotificationClass.unknown ↔
      contains (L.hexDump bytes) L.IETF_MITIGATION_SCOPE_HEX = false ∧
      contains (L.hexDump bytes) L.IETF_SESSION_CONFIGURATION_HEX = false) ∧
    (classifyNotification L bytes = NotificationClass.mitigationScope →
      ∀ task : Option MessageTask,
        logNotification L env task pdu =
          { env with
            events := env.events ++ [Event.logNotification pdu],
            requestQueries := (L.UpdateCountMitigation env.requestQueries
              (task.map MessageTask.message) (L.DecodeMitigationResponse bytes).1 pdu.Token) }) ∧
    (classifyNotification L bytes = NotificationClass.sessionConfiguration →
      ∀ task : Option MessageTask,
        logNotification L env task pdu = logNotification L env none pdu ∧
        logNotification L env task pdu =
          match (RestartPingTask L pdu
            { env with events := env.events ++ [Event.logNotification pdu] }).sessionConfigTask with
          | some sessionTask =>
            RefreshSessionConfig L pdu (RestartPingTask L pdu
              { env with events := env.events ++ [Event.logNotification pdu] }) sessionTask.message
          | none =>
            RestartPingTask L pdu { env with events := env.events ++ [Event.logNotification pdu] }) ∧
    (classifyNotification L bytes = NotificationClass.unknown →
      ∀ task : Option MessageTask,
        logNotification L env task pdu
          = { env with events := env.events ++ [Event.logNotification pdu] } ∧
        (logNotification L env task pdu).pingTask = env.pingTask ∧
        (logNotification L env task pdu).sessionConfigTask = env.sessionConfigTask ∧
        (logNotification L env task pdu).requestQueries = env.requestQueries) := by
  obtain ⟨hc1, hc2, hc3⟩ := classifyNotification_cases L bytes
  have hlog : ∀ task : Option MessageTask, logNotification L env task pdu =
      if contains (L.hexDump bytes) L.IETF_MITIGATION_SCOPE_HEX = true then
        { env with
          events := env.events ++ [Event.logNotification pdu],
          requestQueries := (L.UpdateCountMitigation env.requestQueries
            (task.map MessageTask.message) (L.DecodeMitigationResponse bytes).1 pdu.Token) }
      else if contains (L.hexDump bytes) L.IETF_SESSION_CONFIGURATION_HEX = true then
        match (RestartPingTask L pdu
          { env with events := env.events ++ [Event.logNotification pdu] }).sessionConfigTask with
        | some sessionTask =>
          RefreshSessionConfig L pdu (RestartPingTask L pdu
            { env with events := env.events ++ [Event.logNotification pdu] }) sessionTask.message
        | none =>
          RestartPingTask L pdu { env with events := env.events ++ [Event.logNotification pdu] }
      else { env with events := env.events ++ [Event.logNotification pdu] } := by
    intro task
    unfold logNotification
    simp only [hdata, hobserve, hmsg, Bool.false_eq_true, if_false]
  refine ⟨hc1, hc2, hc3, ?_, ?_, ?_⟩
  · intro h task
    rw [hlog task, if_pos (hc1.mp h)]
  · intro h task
    have h1 := (hc2.mp h).1
    have h2 := (hc2.mp h).2
    constructor
    · rw [hlog task, hlog none]
      simp only [h1, h2, Bool.false_eq_true, if_false, if_true]
    · rw [hlog task]
      simp only [h1, h2, Bool.false_eq_true, if_false, if_true]
  · intro h task
    have h1 := (hc3.mp h).1
    have h2 := (hc3.mp h).2
    have hres : logNotification L env task pdu
        = { env with events := env.events ++ [Event.logNotification pdu] } := by
      rw [hlog task]
      simp only [h1, h2, Bool.false_eq_true, if_false]
    rw [hres]
    exact ⟨rfl, rfl, rfl, rfl⟩

/-- C13, at a concrete input: the payload with bytes `a1 01` is classified as
mitigation scope with or without an originating task, and only the mitigation
count is updated. -/
theorem logNotification_classification_witness :
    logNotification sampleLib (sampleEnv [] []) (some sampleTask)
        (sampleResponse 69 "" (some "\xa1\x01")) =
      { sampleEnv [] [] with
        events := (sampleEnv [] []).events ++
          [Event.logNotification (sampleResponse 69 "" (some "\xa1\x01"))],
        requestQueries := (sampleLib.UpdateCountMitigation (sampleEnv [] []).requestQueries
          ((some sampleTask).map MessageTask.message)
          (sampleLib.DecodeMitigationResponse "\xa1\x01").1
          (sampleResponse 69 "" (some "\xa1\x01")).Token) } :=
  (logNotification_classification sampleLib (sampleEnv [] [])
    (sampleResponse 69 "" (some "\xa1\x01")) "\xa1\x01" (-1) rfl (by decide) rfl).2.2.2.1
    (by decide) (some sampleTask)


/-! ## Faults -/

/-- C14, the code at the failing inputs: `Send` on a request whose message type
is acknowledgement selects no task configuration and dereferences the nil
configuration; `handleResponse` and `handleNotification` dereference the nil
fragment tag of a message with more fragments pending, and the nil payload when
the buffer has no entry for a final fragment. -/
theorem nil_dereference_faults :
    Send sampleLib
      (CreateRequest sampleLib 1 "tokenAAA"
        (NewRequest 1 MsgType.Ack "GET" "mitigation_request" ["q"] (some []))
        (sampleEnv [] [])).1 (sampleEnv [] []) = Except.error Fault.nilDereference ∧
    handleResponse
      (sampleLibWith
        { isMoreBlock := true, eTag := none, block := some { NUM := 1, M := 0, SZX := 2 } }) 9
      (CreateRequest sampleLib 1 "tokenAAA" (sampleRequest "mitigation_request" "GET" "" ["q"])
        (sampleEnv [] [])).1
      sampleTask (sampleResponse 69 "" (some "part")) (sampleEnv [] [])
      = Except.error Fault.nilDereference ∧
    handleNotification
      (sampleLibWith
        { isMoreBlock := true, eTag := none, block := some { NUM := 1, M := 0, SZX := 2 } }) 9
      "tokenNEW" (sampleEnv [] []) (some sampleTask) (sampleResponse 69 "" (some "part"))
      = Except.error Fault.nilDereference ∧
    handleResponse (sampleLibWith (sampleLast 2)) 9
      (sampleRequest "mitigation_request" "GET" "" ["q"]) sampleTask
      (sampleResponse 69 "" (some "last")) (sampleEnv [] [])
      = Except.error Fault.nilDereference ∧
    handleNotification (sampleLibWith (sampleLast 2)) 9 "tokenNEW" (sampleEnv [] []) none
      (sampleResponse 69 "" (some "last")) = Except.error Fault.nilDereference :=
  ⟨rfl, rfl, rfl, rfl, rfl⟩

/-! ## The fragment buffer key -/

/-- C15 as stated fails: tag 1 with token `2x` and tag 12 with token `x` have the
same key `12x`. -/
theorem blockKey_collision :
    blockKey 1 "2x" = blockKey 12 "x" ∧ (1 : Int) ≠ 12 ∧ "2x" ≠ "x" := by
  decide


theorem digitVal_digitChar (d : Nat) (h : d < 10) : digitVal (Nat.digitChar d) = d := by
  interval_cases d <;> rfl

theorem digitChar_ne_minus (d : Nat) (h : d < 10) : Nat.digitChar d ≠ '-' := by
  interval_cases d <;> decide

theorem toDigitsCore_append (fuel : Nat) :
    ∀ (n : Nat) (ds : List Char),
      Nat.toDigitsCore 10 fuel n ds = Nat.toDigitsCore 10 fuel n [] ++ ds := by
  induction fuel with
  | zero => intro n ds; rfl
  | succ fuel ih =>
    intro n ds
    simp only [Nat.toDigitsCore]
    split
    · rfl
    · rw [ih (n / 10) (Nat.digitChar (n % 10) :: ds), ih (n / 10) [Nat.digitChar (n % 10)]]
      simp

theorem toDigitsCore_succ (fuel n : Nat) :
    Nat.toDigitsCore 10 (fuel + 1) n [] =
      if n / 10 = 0 then [Nat.digitChar (n % 10)]
      else Nat.toDigitsCore 10 fuel (n / 10) [] ++ [Nat.digitChar (n % 10)] := by
  simp only [Nat.toDigitsCore]
  split
  · rfl
  · exact toDigitsCore_append fuel (n / 10) [Nat.digitChar (n % 10)]

/-- Reading back the decimal digits that `Nat.toDigits` printed. -/
theorem decode_toDigitsCore (fuel : Nat) :
    ∀ n : Nat, n < fuel →
      (Nat.toDigitsCore 10 fuel n []).foldl (fun a c => a * 10 + digitVal c) 0 = n := by
  induction fuel with
  | zero => intro n h; omega
  | succ fuel ih =>
    intro n h
    rw [toDigitsCore_succ]
    split
    · next h0 =>
      have hlt : n < 10 := by omega
      simp only [List.foldl_cons, List.foldl_nil, Nat.zero_mul, Nat.zero_add]
      rw [Nat.mod_eq_of_lt hlt]
      exact digitVal_digitChar n hlt
    · next h0 =>
      have hlt : n / 10 < fuel := by omega
      rw [List.foldl_append, ih (n / 10) hlt]
      simp only [List.foldl_cons, List.foldl_nil]
      rw [digitVal_digitChar (n % 10) (Nat.mod_lt n (by decide))]
      omega

theorem toDigitsCore_ne_minus (fuel : Nat) :
    ∀ n : Nat, ∀ c ∈ Nat.toDigitsCore 10 fuel n [], c ≠ '-' := by
  induction fuel with
  | zero => intro n c hc; simp [Nat.toDigitsCore] at hc
  | succ fuel ih =>
    intro n c hc
    rw [toDigitsCore_succ] at hc
    split at hc
    · rw [List.mem_singleton] at hc
      rw [hc]
      exact digitChar_ne_minus _ (Nat.mod_lt n (by decide))
    · rw [List.mem_append, List.mem_singleton] at hc
      rcases hc with hc | hc
      · exact ih (n / 10) c hc
      · rw [hc]
        exact digitChar_ne_minus _ (Nat.mod_lt n (by decide))

theorem repr_injective {a b : Nat} (h : Nat.repr a = Nat.repr b) : a = b := by
  have h1 : Nat.toDigits 10 a = Nat.toDigits 10 b := congrArg String.data h
  have ha := decode_toDigitsCore (a + 1) a (Nat.lt_succ_self a)
  have hb := decode_toDigitsCore (b + 1) b (Nat.lt_succ_self b)
  unfold Nat.toDigits at h1
  rw [h1] at ha
  exact ha.symm.trans hb

theorem itoa_ofNat (n : Nat) : itoa (Int.ofNat n) = Nat.repr n := rfl

theorem itoa_negSucc (n : Nat) : itoa (Int.negSucc n) = "-" ++ Nat.repr (n + 1) := rfl

theorem repr_ne_minus (a b : Nat) : Nat.repr a ≠ "-" ++ Nat.repr b := by
  intro h
  have h1 : Nat.toDigits 10 a = '-' :: (Nat.repr b).data := congrArg String.data h
  have hmem : '-' ∈ Nat.toDigits 10 a := by rw [h1]; exact List.mem_cons_self _ _
  exact toDigitsCore_ne_minus (a + 1) a '-' hmem rfl

/-- Go `strconv.Itoa` is injective. -/
theorem itoa_injective {a b : Int} (h : itoa a = itoa b) : a = b := by
  cases a with
  | ofNat m =>
    cases b with
    | ofNat n =>
      rw [itoa_ofNat, itoa_ofNat] at h
      rw [repr_injective h]
    | negSucc n =>
      rw [itoa_ofNat, itoa_negSucc] at h
      exact absurd h (repr_ne_minus m (n + 1))
  | negSucc m =>
    cases b with
    | ofNat n =>
      rw [itoa_ofNat, itoa_negSucc] at h
      exact absurd h.symm (repr_ne_minus n (m + 1))
    | negSucc n =>
      rw [itoa_negSucc, itoa_negSucc] at h
      have h2 := repr_injective (append_left_cancel _ _ _ h)
      have h3 : m = n := by omega
      rw [h3]

/-- C15 (as amended): for two pairs of fragment tag and token whose tokens have the
same length (every token `request.go` mints is `RandStringBytes(8)`), equal
fragment-buffer keys imply equal tags and equal tokens. -/
theorem blockKey_injective_of_length (e1 e2 : Int) (t1 t2 : String)
    (hlen : t1.length = t2.length) (hkey : blockKey e1 t1 = blockKey e2 t2) :
    e1 = e2 ∧ t1 = t2 := by
  unfold blockKey at hkey
  have h1 : (itoa e1).data ++ t1.data = (itoa e2).data ++ t2.data := by
    have h0 := congrArg String.data hkey
    simpa only [String.data_append] using h0
  have hlen2 : t1.data.length = t2.data.length := hlen
  have hlen3 : (itoa e1).data.length = (itoa e2).data.length := by
    have h2 := congrArg List.length h1
    simp only [List.length_append] at h2
    omega
  obtain ⟨h3, h4⟩ := List.append_inj h1 hlen3
  exact ⟨itoa_injective (String.ext h3), String.ext h4⟩

/-- C15 (as amended), at a concrete input: the two 8-byte tokens `tokenAAA` under
the tags 5 and 5. -/
theorem blockKey_injective_of_length_witness :
    "tokenAAA".length = "tokenAAA".length ∧ blockKey 5 "tokenAAA" = blockKey 5 "tokenAAA" ∧
    ((5 : Int) = 5 ∧ "tokenAAA" = "tokenAAA") :=
  ⟨by decide, by decide,
   blockKey_injective_of_length 5 5 "tokenAAA" "tokenAAA" (by decide) (by decide)⟩


/-! ## Alias validation -/

theorem bodyError_ne_empty (detail : String) : bodyError detail ≠ "" := by
  intro h
  have h1 := congrArg String.length h
  unfold bodyError at h1
  rw [String.length_append] at h1
  have h2 : "Body Data Error : ".length = 18 := by decide
  have h3 : "".length = 0 := rfl
  omega

theorem validatePrefixes_none_iff {P R : Type} (N : PrefixLib P R) (name : String) (range : R)
    (prefixes : List String) :
    validatePrefixes N name range prefixes = none ↔
      ∀ targetPrefix ∈ prefixes,
        N.IsMulticast (N.NewPrefix targetPrefix) = false ∧
        N.IsLoopback (N.NewPrefix targetPrefix) = false ∧
        N.IsBroadCast (N.NewPrefix targetPrefix) = false ∧
        (N.CheckValidRangeIpAddress (N.NewPrefix targetPrefix) range).1 = true := by
  induction prefixes with
  | nil => simp [validatePrefixes]
  | cons tp rest ih =>
    simp only [validatePrefixes, List.mem_cons, forall_eq_or_imp]
    rw [← ih]
    cases N.IsMulticast (N.NewPrefix tp) <;> cases N.IsLoopback (N.NewPrefix tp) <;>
      cases N.IsBroadCast (N.NewPrefix tp) <;>
      cases h : (N.CheckValidRangeIpAddress (N.NewPrefix tp) range).1 <;> simp [h]

theorem validatePrefixes_some_ne {P R : Type} (N : PrefixLib P R) (name : String) (range : R)
    (prefixes : List String) (msg : String)
    (h : validatePrefixes N name range prefixes = some msg) : msg ≠ "" := by
  induction prefixes with
  | nil => simp [validatePrefixes] at h
  | cons tp rest ih =>
    simp only [validatePrefixes] at h
    split at h
    · injection h with h
      rw [← h]
      exact bodyError_ne_empty _
    · split at h
      · injection h with h
        rw [← h]
        exact bodyError_ne_empty _
      · exact ih h

theorem validatePorts_none_iff (name : String) (ports : List PortRange) :
    validatePorts name ports = none ↔
      ∀ pr ∈ ports, ∀ upper : Nat, pr.UpperPort = some upper → pr.LowerPort ≤ upper := by
  induction ports with
  | nil => simp [validatePorts]
  | cons pr rest ih =>
    simp only [validatePorts, List.mem_cons, forall_eq_or_imp]
    rw [← ih]
    cases hu : pr.UpperPort with
    | none => simp
    | some upper =>
      by_cases hlt : upper < pr.LowerPort
      · simp [hlt]
      · simp [hlt]
        omega

theorem validatePorts_some_ne (name : String) (ports : List PortRange) (msg : String)
    (h : validatePorts name ports = some msg) : msg ≠ "" := by
  induction ports with
  | nil => simp [validatePorts] at h
  | cons pr rest ih =>
    simp only [validatePorts] at h
    split at h
    · split at h
      · injection h with h
        rw [← h]
        exact bodyError_ne_empty _
      · exact ih h
    · exact ih h


theorem validateAlias_none_iff {P R : Type} (N : PrefixLib P R) (method : String)
    (customer : Customer R) (names : List String) (al : Alias) :
    validateAlias N method customer names al = none ↔
      AliasAccepted N method customer al ∧ al.Name ∉ names := by
  unfold validateAlias AliasAccepted
  by_cases hname : al.Name = ""
  · simp [hname]
  · by_cases hdup : al.Name ∈ names
    · simp [hname, hdup, Contains]
    · cases hlife : al.PendingLifetime with
      | some lifetime => simp [hname, hdup, Contains]
      | none =>
        simp only [hname, hdup, Contains, if_false, decide_False, Bool.false_eq_true,
          not_false_eq_true, ne_eq, true_and, and_true, List.length_eq_zero]
        by_cases hnone : al.TargetPrefix = [] ∧ al.TargetFQDN = [] ∧ al.TargetURI = []
        · rw [if_pos hnone]
          simp [hnone.1, hnone.2.1, hnone.2.2]
        · rw [if_neg hnone]
          have hsome : ¬al.TargetPrefix = [] ∨ ¬al.TargetFQDN = [] ∨ ¬al.TargetURI = [] := by
            by_contra hcon
            push_neg at hcon
            exact hnone hcon
          by_cases hput : method = "PUT" ∧ al.TargetPrefix = []
          · rw [if_pos hput]
            simp [hput.1, hput.2]
          · rw [if_neg hput]
            have hput2 : method = "PUT" → ¬al.TargetPrefix = [] := fun hm hp => hput ⟨hm, hp⟩
            cases hpre : validatePrefixes N al.Name customer.AddressRange al.TargetPrefix with
            | some msg =>
              have hn : ¬ (validatePrefixes N al.Name customer.AddressRange al.TargetPrefix = none) := by
                rw [hpre]; exact Option.noConfusion
              rw [validatePrefixes_none_iff] at hn
              constructor
              · intro h
                exact Option.noConfusion h
              · intro hacc
                exact absurd hacc.2.2.1 hn
            | none =>
              have hp := (validatePrefixes_none_iff N al.Name customer.AddressRange
                al.TargetPrefix).mp hpre
              simp only
              rw [validatePorts_none_iff]
              constructor
              · intro hports
                exact ⟨hsome, hput2, hp, hports⟩
              · intro hacc
                exact hacc.2.2.2

theorem validateAlias_some_ne {P R : Type} (N : PrefixLib P R) (method : String)
    (customer : Customer R) (names : List String) (al : Alias) (msg : String)
    (h : validateAlias N method customer names al = some msg) : msg ≠ "" := by
  unfold validateAlias at h
  split at h
  · injection h with h; rw [← h]; exact bodyError_ne_empty _
  · split at h
    · injection h with h; rw [← h]; exact bodyError_ne_empty _
    · split at h
      · injection h with h; rw [← h]; exact bodyError_ne_empty _
      · split at h
        · injection h with h; rw [← h]; exact bodyError_ne_empty _
        · split at h
          · injection h with h; rw [← h]; exact bodyError_ne_empty _
          · split at h
            · next msg2 hpre =>
              injection h with h
              rw [← h]
              exact validatePrefixes_some_ne N _ _ _ _ hpre
            · exact validatePorts_some_ne _ _ _ h

/-- The loop over the aliases accepts exactly when every alias passes, no name is
among the names seen before the loop, and the names are pairwise distinct. -/
theorem validateAliases_spec {P R : Type} (N : PrefixLib P R) (method : String)
    (customer : Customer R) (aliases : List Alias) :
    ∀ names : List String,
      (((∀ al ∈ aliases, AliasAccepted N method customer al ∧ al.Name ∉ names) ∧
          (aliases.map Alias.Name).Nodup) →
        validateAliases N method customer names aliases = (true, "")) ∧
      (¬ ((∀ al ∈ aliases, AliasAccepted N method customer al ∧ al.Name ∉ names) ∧
          (aliases.map Alias.Name).Nodup) →
        (validateAliases N method customer names aliases).1 = false ∧
        (validateAliases N method customer names aliases).2 ≠ "") := by
  induction aliases with
  | nil =>
    intro names
    simp [validateAliases]
  | cons al rest ih =>
    intro names
    have ih2 := ih (names ++ [al.Name])
    have hiff := validateAlias_none_iff N method customer names al
    have hrest : ((∀ b ∈ rest, AliasAccepted N method customer b ∧ b.Name ∉ names ++ [al.Name]) ∧
        (rest.map Alias.Name).Nodup) ↔
        ((∀ b ∈ rest, AliasAccepted N method customer b ∧ b.Name ∉ names) ∧
          al.Name ∉ rest.map Alias.Name ∧ (rest.map Alias.Name).Nodup) := by
      constructor
      · rintro ⟨h1, h2⟩
        refine ⟨fun b hb => ⟨(h1 b hb).1, fun hmem => (h1 b hb).2 (List.mem_append_left _ hmem)⟩,
          ?_, h2⟩
        intro hmem
        rw [List.mem_map] at hmem
        obtain ⟨b, hb, hbn⟩ := hmem
        exact (h1 b hb).2 (List.mem_append_right _ (by rw [hbn]; exact List.mem_singleton_self _))
      · rintro ⟨h1, h2, h3⟩
        refine ⟨fun b hb => ⟨(h1 b hb).1, ?_⟩, h3⟩
        intro hmem
        rw [List.mem_append, List.mem_singleton] at hmem
        rcases hmem with hmem | hmem
        · exact (h1 b hb).2 hmem
        · exact h2 (List.mem_map.mpr ⟨b, hb, hmem⟩)
    cases hv : validateAlias N method customer names al with
    | some msg =>
      have hnot : ¬ (AliasAccepted N method customer al ∧ al.Name ∉ names) := by
        rw [← hiff, hv]; exact Option.noConfusion
      have hval : validateAliases N method customer names (al :: rest) = (false, msg) := by
        simp only [validateAliases, hv]
      rw [hval]
      refine ⟨?_, ?_⟩
      · rintro ⟨h1, _⟩
        exact absurd (h1 al (List.mem_cons_self _ _)) hnot
      · intro _
        exact ⟨rfl, validateAlias_some_ne N method customer names al msg hv⟩
    | none =>
      have hacc := hiff.mp hv
      have hval : validateAliases N method customer names (al :: rest)
          = validateAliases N method customer (names ++ [al.Name]) rest := by
        simp only [validateAliases, hv]
      rw [hval]
      refine ⟨?_, ?_⟩
      · rintro ⟨h1, h2⟩
        apply ih2.1
        rw [hrest]
        rw [List.map_cons, List.nodup_cons] at h2
        exact ⟨fun b hb => h1 b (List.mem_cons_of_mem _ hb), h2.1, h2.2⟩
      · intro hnot
        apply ih2.2
        rw [hrest]
        rintro ⟨h1, h2, h3⟩
        apply hnot
        refine ⟨?_, ?_⟩
        · intro b hb
          rw [List.mem_cons] at hb
          rcases hb with hb | hb
          · rw [hb]; exact hacc
          · exact h1 b hb
        · rw [List.map_cons, List.nodup_cons]
          exact ⟨h2, h3⟩

/-- C16: `Validate` returns `(true, "")` if and only if the alias list is not
empty, the alias names are pairwise distinct (each differs from all earlier
ones), and every alias has a non-empty name, no pending-lifetime, at least one
of target-prefix, target-fqdn and target-uri, a target-prefix when the method is
PUT, only target prefixes that are neither multicast, loopback nor broadcast and
lie in the customer's address range, and only port ranges whose upper port, if
present, is not below the lower port; otherwise it returns `false` with a
non-empty error message. -/
theorem Validate_spec {P R : Type} (N : PrefixLib P R) (r : AliasesRequest) (method : String)
    (customer : Customer R) :
    (Validate N r method customer = (true, "") ↔
      r.Aliases ≠ [] ∧ (r.Aliases.map Alias.Name).Nodup ∧
      ∀ al ∈ r.Aliases, AliasAccepted N method customer al) ∧
    (Validate N r method customer ≠ (true, "") →
      (Validate N r method customer).1 = false ∧ (Validate N r method customer).2 ≠ "") := by
  have hloop := validateAliases_spec N method customer r.Aliases []
  have hcond : ((∀ al ∈ r.Aliases, AliasAccepted N method customer al ∧ al.Name ∉ ([] : List String)) ∧
      (r.Aliases.map Alias.Name).Nodup) ↔
      ((r.Aliases.map Alias.Name).Nodup ∧ ∀ al ∈ r.Aliases, AliasAccepted N method customer al) := by
    constructor
    · rintro ⟨h1, h2⟩
      exact ⟨h2, fun al hal => (h1 al hal).1⟩
    · rintro ⟨h1, h2⟩
      exact ⟨fun al hal => ⟨h2 al hal, List.not_mem_nil _⟩, h1⟩
  rw [hcond] at hloop
  by_cases hempty : r.Aliases = []
  · have hv : Validate N r method customer = (false, bodyError "'alias' is not exist") := by
      simp [Validate, hempty]
    rw [hv]
    refine ⟨?_, ?_⟩
    · constructor
      · intro h
        exact absurd (congrArg Prod.fst h) (by decide)
      · intro h
        exact absurd hempty h.1
    · intro _
      exact ⟨rfl, bodyError_ne_empty _⟩
  · have hlen : ¬ r.Aliases.length ≤ 0 := by
      intro h
      exact hempty (List.length_eq_zero.mp (Nat.le_zero.mp h))
    have hv : Validate N r method customer = validateAliases N method customer [] r.Aliases := by
      simp [Validate, hlen]
    rw [hv]
    by_cases hP : (r.Aliases.map Alias.Name).Nodup ∧
        ∀ al ∈ r.Aliases, AliasAccepted N method customer al
    · have hok := hloop.1 hP
      rw [hok]
      exact ⟨⟨fun _ => ⟨hempty, hP⟩, fun _ => rfl⟩, fun h => absurd rfl h⟩
    · have hbad := hloop.2 hP
      refine ⟨⟨?_, ?_⟩, fun _ => hbad⟩
      · intro h
        rw [h] at hbad
        exact absurd hbad.1 (by decide)
      · intro h
        exact absurd h.2 hP


/-- Two runs of `Validate`: one accepted request, and one rejected for a duplicate name. -/
theorem Validate_examples :
    Validate samplePrefixLib
      { Aliases := [sampleAlias "web" ["10.0.0.1"] [{ LowerPort := 80, UpperPort := some 443 }],
                    sampleAlias "dns" ["10.0.0.2"] [{ LowerPort := 53, UpperPort := none }]] }
      "PUT" { AddressRange := ["10.0.0.1", "10.0.0.2"] } = (true, "") ∧
    Validate samplePrefixLib
      { Aliases := [sampleAlias "web" ["10.0.0.1"] [], sampleAlias "web" ["10.0.0.2"] []] }
      "PUT" { AddressRange := ["10.0.0.1", "10.0.0.2"] }
      = (false, "Body Data Error : Duplicate alias 'name'(web)") ∧
    Validate samplePrefixLib
      { Aliases := [sampleAlias "web" ["127.0.0.1"] []] }
      "POST" { AddressRange := ["127.0.0.1"] }
      = (false, "Body Data Error : The prefix MUST NOT include broadcast, loopback, or " ++
          "multicast addresses.'target-prefix'(127.0.0.1) at alias 'name'(web)") := by
  decide

/-! ## The blocker call: rollback and the collection loop -/

theorem registered_append (xs ys : List BlockerEvent) :
    registered (xs ++ ys) = registered xs ++ registered ys := by
  simp [registered, List.filterMap_append]

theorem unregistered_append (xs ys : List BlockerEvent) :
    unregistered (xs ++ ys) = unregistered xs ++ unregistered ys := by
  simp [unregistered, List.filterMap_append]

theorem registered_enqueue (acls : List ACL) :
    registered (acls.map (fun acl => BlockerEvent.enqueue acl.Id)) = [] := by
  induction acls with
  | nil => rfl
  | cons a rest ih => simp [registered]

theorem unregistered_enqueue (acls : List ACL) :
    unregistered (acls.map (fun acl => BlockerEvent.enqueue acl.Id)) = [] := by
  induction acls with
  | nil => rfl
  | cons a rest ih => simp [unregistered]

theorem registered_unregister (ps : List Int) :
    registered (ps.map BlockerEvent.unregister) = [] := by
  induction ps with
  | nil => rfl
  | cons a rest ih => simp [registered]

theorem unregistered_unregister (ps : List Int) :
    unregistered (ps.map BlockerEvent.unregister) = ps := by
  induction ps with
  | nil => rfl
  | cons a rest ih =>
    simp only [unregistered, List.map_cons, List.filterMap_cons] at ih ⊢
    rw [ih]

theorem count_register (p : Int) (events : List BlockerEvent) :
    events.count (BlockerEvent.register p) = (registered events).count p := by
  induction events with
  | nil => rfl
  | cons e rest ih =>
    cases e with
    | register q =>
      by_cases hq : q = p
      · subst hq
        simp [registered, List.filterMap_cons] at ih ⊢
        exact ih
      · have hne : (BlockerEvent.register q == BlockerEvent.register p) = false := by
          simp [hq]
        simp [registered, List.filterMap_cons, List.count_cons, hq] at ih ⊢
        exact ih
    | enqueue a => simp [registered, List.filterMap_cons, List.count_cons] at ih ⊢; exact ih
    | execute a => simpa [registered, List.filterMap_cons, List.count_cons] using ih
    | unregister a => simpa [registered, List.filterMap_cons, List.count_cons] using ih

theorem count_unregister (p : Int) (events : List BlockerEvent) :
    events.count (BlockerEvent.unregister p) = (unregistered events).count p := by
  induction events with
  | nil => rfl
  | cons e rest ih =>
    cases e with
    | unregister q =>
      by_cases hq : q = p
      · subst hq
        simp [unregistered, List.filterMap_cons] at ih ⊢
        exact ih
      · simp [unregistered, List.filterMap_cons, List.count_cons, hq] at ih ⊢
        exact ih
    | enqueue a => simpa [unregistered, List.filterMap_cons, List.count_cons] using ih
    | execute a => simpa [unregistered, List.filterMap_cons, List.count_cons] using ih
    | register a => simpa [unregistered, List.filterMap_cons, List.count_cons] using ih

theorem collectStep_RollbackReady (st : BlockerState) (received : Received)
    (h : RollbackReady st) : RollbackReady (collectStep st received) := by
  obtain ⟨h1, h2⟩ := h
  cases received with
  | error e => exact ⟨h1, h2⟩
  | selection aclList =>
    obtain ⟨aclID, customerID, acl, blocker⟩ := aclList
    cases blocker with
    | none => exact ⟨h1, h2⟩
    | some blocker =>
      obtain ⟨reg, exe⟩ := blocker
      cases reg with
      | error e => exact ⟨h1, h2⟩
      | ok p =>
        have hr : st.unregisterCommands ++ [p]
            = registered (st.events ++ [BlockerEvent.register p] ++ [BlockerEvent.execute p]) := by
          rw [registered_append, registered_append, h1]; simp [registered]
        have hu : unregistered (st.events ++ [BlockerEvent.register p] ++ [BlockerEvent.execute p])
            = [] := by
          rw [unregistered_append, unregistered_append, h2]; simp [unregistered]
        cases exe with
        | none => exact ⟨hr, hu⟩
        | some e => exact ⟨hr, hu⟩

theorem collect_RollbackReady (arrivals : List Received) :
    ∀ (st st1 : BlockerState) (rest : List Received), RollbackReady st →
      collect st arrivals = some (st1, rest) → RollbackReady st1 := by
  induction arrivals with
  | nil =>
    intro st st1 rest h hc
    unfold collect at hc
    split at hc
    · exact Option.noConfusion hc
    · have := Option.some.inj hc
      have h3 : st = st1 := congrArg Prod.fst this
      exact h3 ▸ h
  | cons r rs ih =>
    intro st st1 rest h hc
    unfold collect at hc
    split at hc
    · exact ih _ _ _ (collectStep_RollbackReady st r h) hc
    · have := Option.some.inj hc
      have h3 : st = st1 := congrArg Prod.fst this
      exact h3 ▸ h

/-- C17: whenever `CallBlocker` returns after the blocker configuration was
obtained, for every list of ACLs and every sequence of results arriving on the
two channels: with a non-nil error the protections unregistered are exactly the
protections registered during the call, in registration order, so that each
registration (also one made after the first error, and one whose execution
failed) is matched by exactly one unregistration; with a nil error no
protection was unregistered. -/
theorem CallBlocker_rollback (cfg : String) (acls : List ACL) (arrivals : List Received)
    (out : BlockerOutcome) (h : CallBlocker (Except.ok cfg) acls arrivals = some out) :
    (out.err ≠ none →
      unregistered out.events = registered out.events ∧
      ∀ p, out.events.count (BlockerEvent.unregister p)
            = out.events.count (BlockerEvent.register p)) ∧
    (out.err = none → unregistered out.events = []) := by
  unfold CallBlocker at h
  simp only at h
  cases hc : collect (BlockerState.mk (acls.length : Int) none []
      (acls.map (fun acl => BlockerEvent.enqueue acl.Id))) arrivals with
  | none => rw [hc] at h; exact Option.noConfusion h
  | some res =>
    obtain ⟨st, rest⟩ := res
    rw [hc] at h
    have hinv : RollbackReady st :=
      collect_RollbackReady arrivals _ st rest
        ⟨(registered_enqueue acls).symm, unregistered_enqueue acls⟩ hc
    obtain ⟨h1, h2⟩ := hinv
    simp only at h
    by_cases herr : st.err = none
    · rw [if_neg (fun hn => hn herr)] at h
      have ho := Option.some.inj h
      subst ho
      refine ⟨fun hne => absurd herr hne, fun _ => h2⟩
    · rw [if_pos herr] at h
      have ho := Option.some.inj h
      subst ho
      have heq : unregistered (st.events ++ st.unregisterCommands.map BlockerEvent.unregister)
          = registered (st.events ++ st.unregisterCommands.map BlockerEvent.unregister) := by
        rw [unregistered_append, registered_append, h2, unregistered_unregister,
          registered_unregister, h1]
        simp
      refine ⟨fun _ => ⟨heq, fun p => ?_⟩, fun hn => absurd hn herr⟩
      show List.count _ (st.events ++ st.unregisterCommands.map BlockerEvent.unregister) =
        List.count _ (st.events ++ st.unregisterCommands.map BlockerEvent.unregister)
      rw [count_unregister, count_register, heq]

/-- Three ACLs: the first protection is registered and its execution fails, then
an error arrives, then a second protection is registered and executed; the call
returns the error and unregisters both protections. -/
theorem CallBlocker_rollback_witness :
    CallBlocker (Except.ok "cfg") [⟨1, "a"⟩, ⟨2, "b"⟩, ⟨3, "c"⟩]
        [sampleSelection 1 10 (some "execute failed"), Received.error "no blocker",
         sampleSelection 3 30 none]
      = some { err := some "no blocker",
               events := [BlockerEvent.enqueue 1, BlockerEvent.enqueue 2, BlockerEvent.enqueue 3,
                 BlockerEvent.register 10, BlockerEvent.execute 10,
                 BlockerEvent.register 30, BlockerEvent.execute 30,
                 BlockerEvent.unregister 10, BlockerEvent.unregister 30] } ∧
    unregistered [BlockerEvent.enqueue 1, BlockerEvent.enqueue 2, BlockerEvent.enqueue 3,
                 BlockerEvent.register 10, BlockerEvent.execute 10,
                 BlockerEvent.register 30, BlockerEvent.execute 30,
                 BlockerEvent.unregister 10, BlockerEvent.unregister 30] = [10, 30] ∧
    CallBlocker (Except.ok "cfg") [⟨1, "a"⟩] [sampleSelection 1 10 none]
      = some { err := none,
               events := [BlockerEvent.enqueue 1, BlockerEvent.register 10,
                 BlockerEvent.execute 10] } :=
  have h1 : CallBlocker (Except.ok "cfg") [⟨1, "a"⟩, ⟨2, "b"⟩, ⟨3, "c"⟩]
        [sampleSelection 1 10 (some "execute failed"), Received.error "no blocker",
         sampleSelection 3 30 none]
      = some { err := some "no blocker",
               events := [BlockerEvent.enqueue 1, BlockerEvent.enqueue 2, BlockerEvent.enqueue 3,
                 BlockerEvent.register 10, BlockerEvent.execute 10,
                 BlockerEvent.register 30, BlockerEvent.execute 30,
                 BlockerEvent.unregister 10, BlockerEvent.unregister 30] } := by decide
  have h2 : CallBlocker (Except.ok "cfg") [⟨1, "a"⟩] [sampleSelection 1 10 none]
      = some { err := none,
               events := [BlockerEvent.enqueue 1, BlockerEvent.register 10,
                 BlockerEvent.execute 10] } := by decide
  ⟨h1, ((CallBlocker_rollback "cfg" _ _ _ h1).1 (by decide)).1.trans (by decide), h2⟩

theorem collectStep_counter (st : BlockerState) (received : Received) :
    (collectStep st received).counter
      = if isRegisterFailure received then st.counter else st.counter - 1 := by
  cases received with
  | error e => rfl
  | selection aclList =>
    obtain ⟨aclID, customerID, acl, blocker⟩ := aclList
    cases blocker with
    | none => rfl
    | some blocker =>
      obtain ⟨reg, exe⟩ := blocker
      cases reg with
      | error e => rfl
      | ok p =>
        cases exe with
        | none => rfl
        | some e => rfl

/-- While fewer counted results have arrived than are outstanding, the loop is
still waiting: a registration failure is received but not counted. -/
theorem collect_waits (arrivals : List Received) :
    ∀ st : BlockerState,
      (arrivals.length : Int) - (arrivals.countP isRegisterFailure : Int) < st.counter →
      collect st arrivals = none := by
  induction arrivals with
  | nil =>
    intro st h
    have hpos : st.counter > 0 := by simpa using h
    unfold collect
    rw [if_pos hpos]
  | cons r rs ih =>
    intro st h
    have hle : (rs.countP isRegisterFailure : Int) ≤ (rs.length : Int) := by
      exact_mod_cast List.countP_le_length (l := rs) isRegisterFailure
    have hpos : st.counter > 0 := by
      by_cases hr : isRegisterFailure r = true
      · rw [List.countP_cons_of_pos _ _ hr] at h
        simp only [List.length_cons] at h
        push_cast at h
        omega
      · rw [List.countP_cons_of_neg _ _ hr] at h
        simp only [List.length_cons] at h
        push_cast at h
        omega
    unfold collect
    rw [if_pos hpos]
    apply ih
    rw [collectStep_counter]
    by_cases hr : isRegisterFailure r = true
    · rw [if_pos hr]
      rw [List.countP_cons_of_pos _ _ hr] at h
      simp only [List.length_cons] at h
      push_cast at h
      omega
    · rw [if_neg hr]
      rw [List.countP_cons_of_neg _ _ hr] at h
      simp only [List.length_cons] at h
      push_cast at h
      omega

/-- When none of the first `n` results is a registration failure, the loop with
`n` results outstanding ends after reading exactly those `n` results. -/
theorem collect_exact (n : Nat) :
    ∀ (st : BlockerState) (arrivals : List Received), st.counter = (n : Int) →
      n ≤ arrivals.length → (∀ r ∈ arrivals.take n, isRegisterFailure r = false) →
      ∃ st1, collect st arrivals = some (st1, arrivals.drop n) ∧ st1.counter = 0 := by
  induction n with
  | zero =>
    intro st arrivals hc _ _
    have hnot : ¬ st.counter > 0 := by rw [hc]; simp
    refine ⟨st, ?_, by simpa using hc⟩
    cases arrivals with
    | nil => unfold collect; rw [if_neg hnot]; rfl
    | cons r rs => unfold collect; rw [if_neg hnot]; rfl
  | succ n ih =>
    intro st arrivals hc hlen hall
    cases arrivals with
    | nil => simp at hlen
    | cons r rs =>
      have hpos : st.counter > 0 := by rw [hc]; push_cast; omega
      have hr : isRegisterFailure r = false := hall r (by simp)
      have hstep : (collectStep st r).counter = (n : Int) := by
        rw [collectStep_counter, hr]
        simp only [Bool.false_eq_true, if_false]
        rw [hc]; push_cast; omega
      obtain ⟨st1, h1, h2⟩ := ih (collectStep st r) rs hstep
        (by simpa using hlen)
        (fun x hx => hall x (by simp [List.take_succ_cons, hx]))
      refine ⟨st1, ?_, h2⟩
      unfold collect
      rw [if_pos hpos]
      exact h1

/-- C18: a received selection whose protection registration fails leaves the
outstanding counter as it was, so the collection loop does not finish after
`n` results when one of them is such a failure: for every list of ACLs and
every sequence of at most as many results that contains a registration
failure, `CallBlocker` is still waiting after the last result and never
returns. -/
theorem CallBlocker_register_failure_waits (cfg : String) (acls : List ACL)
    (arrivals : List Received) (hlen : arrivals.length ≤ acls.length)
    (hfail : ∃ r ∈ arrivals, isRegisterFailure r = true) :
    CallBlocker (Except.ok cfg) acls arrivals = none ∧
    ∀ (st : BlockerState) (r : Received), isRegisterFailure r = true →
      (collectStep st r).counter = st.counter := by
  refine ⟨?_, fun st r hr => by rw [collectStep_counter, if_pos hr]⟩
  have hpos : 0 < arrivals.countP isRegisterFailure := by
    obtain ⟨r, hmem, hr⟩ := hfail
    exact List.countP_pos_iff.mpr ⟨r, hmem, hr⟩
  have hw := collect_waits arrivals
    (BlockerState.mk (acls.length : Int) none []
      (acls.map (fun acl => BlockerEvent.enqueue acl.Id)))
    (by show (arrivals.length : Int) - (arrivals.countP isRegisterFailure : Int) < (acls.length : Int)
        omega)
  unfold CallBlocker
  simp only
  rw [hw]

/-- One ACL whose only result is a selection with a failing registration: the
call never returns, while the same selection with a missing blocker returns. -/
theorem CallBlocker_register_failure_waits_witness :
    CallBlocker (Except.ok "cfg") [⟨1, "a"⟩] [sampleRegisterFailure 1] = none ∧
    CallBlocker (Except.ok "cfg") [⟨1, "a"⟩]
        [Received.selection ⟨1, 1, "acl", none⟩]
      = some ⟨some "Blocker is not existed", [BlockerEvent.enqueue 1]⟩ :=
  ⟨(CallBlocker_register_failure_waits "cfg" [⟨1, "a"⟩] [sampleRegisterFailure 1]
      (by decide) ⟨sampleRegisterFailure 1, by simp, rfl⟩).1, by decide⟩

end GoDots
